import Mathlib

/-!
Verification development for the report-fetch-and-cache orchestration layer of
a data-gateway service (MicroStrategy / MSSQL / PostgreSQL fronting service).

The Python source is shallowly embedded: configuration dictionaries become
association lists over an inductive value type, pandas dataframes become lists
of typed columns, Redis becomes an association-list state threaded through the
functions that touch it, and a Python exception becomes `Except.error`.
Remote fetchers (MicroStrategy REST, psycopg2) are black-box collaborators and
are passed in as function parameters, matching the boundary the service itself
draws around them.
-/

/-- Values that can appear in a configuration mapping loaded from YAML:
strings, integers, booleans, null, nested mappings and lists. -/
inductive CVal where
  | s (v : String)
  | i (n : Int)
  | b (v : Bool)
  | pynone
  | dict (d : List (String × CVal))
  | list (l : List CVal)
deriving Repr, Inhabited

/-- Python truthiness of a configuration value. -/
def CVal.truthy : CVal → Bool
  | .s v => !(v == "")
  | .i n => !(n == 0)
  | .b v => v
  | .pynone => false
  | .dict d => !d.isEmpty
  | .list l => !l.isEmpty

/-- Models `d.get(k)` on a Python dict: the first binding of `k`, if any. -/
def dictGet (d : List (String × CVal)) (k : String) : Option CVal :=
  (d.find? (fun p => p.1 == k)).map (·.2)

/-- Lowercase every character of a string, models `str.lower()` on the ASCII
strings handled by the service. -/
def pyLowerS (s : String) : String :=
  ⟨s.data.map Char.toLower⟩

/-- Models `str.strip()`: drop whitespace from both ends. -/
def pyStripS (s : String) : String :=
  ⟨((s.data.dropWhile Char.isWhitespace).reverse.dropWhile Char.isWhitespace).reverse⟩

/-- Models `.strip().lower()`: succeeds only on a string value, any other
value raises `AttributeError` in Python. -/
def pyStripLower : CVal → Except String String
  | .s v => .ok (pyLowerS (pyStripS v))
  | _ => .error "AttributeError: no method strip"

/-- Decimal digits to a natural number. -/
def digitsToNat (l : List Char) : Nat :=
  l.foldl (fun acc c => acc * 10 + (c.toNat - 48)) 0

/-- Models `int(s)` on a string: optional sign, non-empty digit run,
surrounding whitespace tolerated; `none` models `ValueError`. -/
def pyParseInt (s : String) : Option Int :=
  let core : List Char → Option Nat := fun l =>
    if l.isEmpty then none
    else if l.all Char.isDigit then some (digitsToNat l) else none
  match (pyStripS s).data with
  | '+' :: rest => (core rest).map (fun n => (n : Int))
  | '-' :: rest => (core rest).map (fun n => -(n : Int))
  | l => (core l).map (fun n => (n : Int))

/-- Models `int(legacy_flag)` wrapped in `try/except (TypeError, ValueError)`
defaulting to 0, as in `resolve_cache_policy`: absent keys and `None` raise
`TypeError` (caught), unparsable strings raise `ValueError` (caught), booleans
are Python ints. -/
def pyIntOr0 : Option CVal → Int
  | Option.none => 0
  | some (.i n) => n
  | some (.b v) => if v then 1 else 0
  | some (.s v) => (pyParseInt v).getD 0
  | some .pynone => 0
  | some (.dict _) => 0
  | some (.list _) => 0

def CACHE_POLICY_NONE : String := "none"

def CACHE_POLICY_DAILY : String := "daily"

/-- Embeds `resolve_cache_policy` from `src/services/config_store.py` (the
same function, line for line, also lives in `src/mstr_herald/utils.py`).
A Python exception is modelled as `Except.error`: `.strip()` on a truthy
non-string `cache_policy` value raises `AttributeError`, and `cfg.get` on a
truthy non-dict raises `AttributeError`. -/
def resolveCachePolicy (cfg : Option CVal) : Except String String :=
  match cfg with
  | Option.none => .ok CACHE_POLICY_NONE
  | some c =>
    if ¬ c.truthy then .ok CACHE_POLICY_NONE
    else
      match c with
      | .dict d =>
        let raw : CVal :=
          match dictGet d "cache_policy" with
          | some v => if v.truthy then v else .s ""
          | Option.none => .s ""
        match pyStripLower raw with
        | .error e => .error e
        | .ok policy =>
          if policy = CACHE_POLICY_NONE ∨ policy = CACHE_POLICY_DAILY then .ok policy
          else .ok (if pyIntOr0 (dictGet d "is_csv_cached") > 0 then CACHE_POLICY_DAILY
                    else CACHE_POLICY_NONE)
      | _ => .error "AttributeError: no method get"

/-- Cell values of a tabular result. Floats are modelled at integral values
only (`f n` stands for the float `n.0`): every float value the verified claims
touch is integer-valued, and Python renders such floats as the integer digits
followed by `.0`. `dt` carries a datetime encoded as an integer code
(year*10000 + month*100 + day), so the code order is the calendar order. -/
inductive Val where
  | i (n : Int)
  | f (n : Int)
  | s (v : String)
  | dt (t : Int)
  | nan
deriving Repr, DecidableEq, Inhabited

/-- The pandas dtype of a column, as far as the source inspects it
(`is_numeric_dtype`, `is_datetime64_any_dtype`, `select_dtypes`). -/
inductive Dtype where
  | numeric
  | datetime
  | object
deriving Repr, DecidableEq, Inhabited

structure Column where
  name : String
  dtype : Dtype
  vals : List Val
deriving Repr, DecidableEq, Inhabited

/-- A pandas dataframe, column-major. -/
structure Df where
  cols : List Column
deriving Repr, DecidableEq, Inhabited

/-- Number of rows: the length of the first column (all columns of a
well-formed dataframe agree). -/
def nRows (df : Df) : Nat :=
  match df.cols with
  | [] => 0
  | c :: _ => c.vals.length

/-- All columns carry the same number of rows. -/
def Df.wf (df : Df) : Prop :=
  ∀ c ∈ df.cols, c.vals.length = nRows df

/-- Models `df.empty`: no columns or no rows. -/
def dfEmpty (df : Df) : Bool :=
  df.cols.isEmpty || nRows df == 0

def colNames (df : Df) : List String :=
  df.cols.map (·.name)

/-- Column values at position `j` (empty list when out of range). -/
def colValsAt (df : Df) (j : Nat) : List Val :=
  (df.cols.map (·.vals)).getD j []

/-- Normalize one Python slice bound against a length `n`. -/
def pySliceIdx (n : Nat) (x : Int) : Nat :=
  if x < 0 then ((n : Int) + x).toNat else min x.toNat n

/-- Models Python list/`iloc` slicing `l[a:b]`, including negative bounds. -/
def pySlice (l : List α) (a b : Int) : List α :=
  (l.take (pySliceIdx l.length b)).drop (pySliceIdx l.length a)

/-- Models `df.iloc[a:b]` (row slicing). -/
def dfSlice (df : Df) (a b : Int) : Df :=
  ⟨df.cols.map (fun c => { c with vals := pySlice c.vals a b })⟩

/-- Embeds `_paginate` from `src/services/report_service.py`: returns
`(sliced, total_rows, total_pages)`. `//` is Python floor division,
`Int.fdiv` here. -/
def paginateRS (df : Df) (page pageSize : Int) : Df × Int × Int :=
  let totalRows : Int := (nRows df : Int)
  let ps := if pageSize ≤ 0 then max totalRows 1 else pageSize
  let pg := if page ≤ 0 then 1 else page
  let start := (pg - 1) * ps
  let stop := start + ps
  let sliced := dfSlice df start stop
  let totalPages := if ps ≠ 0 then Int.fdiv (totalRows + ps - 1) ps else 1
  (sliced, totalRows, totalPages)

structure PagInfo where
  page : Int
  perPage : Int
  totalPages : Int
  totalRecords : Int
deriving Repr, DecidableEq

/-- Embeds `paginate_dataframe` from `src/services/pagination.py`.
Python computes `math.ceil(total_records / per_page)` by float division; for
the integer magnitudes a dataframe can hold this equals the integer ceiling
`(total + per_page - 1) // per_page`, used here. -/
def paginateDataframe (df : Df) (page perPage : Int) : Df × PagInfo :=
  let totalRecords : Int := (nRows df : Int)
  let totalPages := if perPage > 0 then Int.fdiv (totalRecords + perPage - 1) perPage else 1
  let pg := max 1 (min page (if totalPages > 0 then totalPages else 1))
  let start := (pg - 1) * perPage
  let stop := start + perPage
  (dfSlice df start stop, ⟨pg, perPage, totalPages, totalRecords⟩)

/-- Ceiling division on naturals, `(n + P - 1) / P`: the page count both
pagination functions compute for positive page sizes. -/
def ceilNat (n P : Nat) : Nat :=
  (n + P - 1) / P

/-- Charwise effect of `replace_turkish_characters` (dataframe_tools): the
replacement dict maps each Turkish letter to its ASCII counterpart; the
identity entries for "I" and "i" are charwise no-ops. -/
def trMap (c : Char) : Char :=
  if c = 'ç' then 'c' else if c = 'Ç' then 'C'
  else if c = 'ğ' then 'g' else if c = 'Ğ' then 'G'
  else if c = 'ı' then 'i' else if c = 'İ' then 'I'
  else if c = 'ö' then 'o' else if c = 'Ö' then 'O'
  else if c = 'ş' then 's' else if c = 'Ş' then 'S'
  else if c = 'ü' then 'u' else if c = 'Ü' then 'U'
  else c

/-- Models `unicodedata.normalize("NFKD", v).encode("ascii", "ignore")`:
non-ASCII characters are dropped. (NFKD decompositions of accented characters
outside the Turkish replacement set are not modelled; the subsequent regex
keeps only ASCII alphanumerics either way.) -/
def asciiIgnore (l : List Char) : List Char :=
  l.filter (fun c => c.toNat < 128)

/-- The regex character class `[0-9a-zA-Z]`. -/
def isAlnumA (c : Char) : Bool :=
  c.isAlpha || c.isDigit

/-- Fuel-driven worker for `runsP` (structural recursion so concrete inputs
reduce in the kernel). -/
def runsPF (p : Char → Bool) : Nat → List Char → List (List Char)
  | 0, _ => []
  | _ + 1, [] => []
  | fuel + 1, a :: l =>
    if p a then (a :: l.takeWhile p) :: runsPF p fuel (l.dropWhile p)
    else runsPF p fuel l

/-- Maximal runs of characters satisfying `p`: models
`re.sub(r"[^0-9a-zA-Z]+", " ", v).strip().split()` with `p` the class
`[0-9a-zA-Z]`. -/
def runsP (p : Char → Bool) (l : List Char) : List (List Char) :=
  runsPF p l.length l

/-- Worker for `pyTitle`, tracking whether the previous character was cased. -/
def pyTitleGo (prevCased : Bool) : List Char → List Char
  | [] => []
  | c :: cs =>
    (if c.isAlpha then (if prevCased then c.toLower else c.toUpper) else c) ::
      pyTitleGo c.isAlpha cs

/-- Models Python `str.title()` on the ASCII-alphanumeric fragments produced
by the regex split: a cased letter starts a new word (is uppercased) exactly
when the preceding character is not cased — so digits reset the word boundary
(`"5b".title() == "5B"`). -/
def pyTitle (l : List Char) : List Char :=
  pyTitleGo false l

/-- Embeds `is_lower_camel_case` from `src/services/dataframe_tools.py`:
non-empty, first character lowercase, and some uppercase later. -/
def isLowerCamelCase (s : String) : Bool :=
  match s.data with
  | [] => false
  | c :: rest => c.isLower && rest.any (·.isUpper)

/-- Embeds `to_ascii_camel` from `src/services/dataframe_tools.py`: Turkish
replacements, ASCII fold, split on non-alphanumerics, then lowercased head
fragment followed by title-cased tail fragments. -/
def toAsciiCamel (s : String) : String :=
  let v2 := asciiIgnore (s.data.map trMap)
  match runsP isAlnumA v2 with
  | [] => ""
  | h :: t =>
    let candidate := (h.map Char.toLower) ++ (t.map pyTitle).flatten
    if candidate.isEmpty then s else ⟨candidate⟩

/-- One column name through `normalise_columns`: keep it if already
lowerCamelCase, else camelize. -/
def colRename (s : String) : String :=
  if isLowerCamelCase s then s else toAsciiCamel s

/-- Embeds `normalise_columns` from `src/services/dataframe_tools.py`. -/
def normaliseColumns (df : Df) : Df :=
  ⟨df.cols.map (fun c => { c with name := colRename c.name })⟩

/-- The one family of names on which a second camelization changes the result:
the normalized name starts with a digit yet contains an uppercase letter
(produced by the `str.title()` digit-boundary behaviour). -/
def digitUpperQuirk (s : String) : Bool :=
  (match s.data with
   | [] => false
   | c :: _ => c.isDigit) && s.data.any (·.isUpper)

/-- Models `str(value)` for cell values: Python renders an integral float with
a trailing ".0", NaN as "nan", strings as themselves; the datetime repr is
stood in by the decimal rendering of the code (its exact text is irrelevant
to the claims). -/
def pyStr : Val → String
  | .i n => toString n
  | .f n => toString n ++ ".0"
  | .s v => v
  | .dt t => toString t
  | .nan => "nan"

/-- Models `re.sub(r"[^a-z]", "", column.lower())` from the agency-column
helpers: lowercase, then keep only the letters a-z. -/
def simplifyName (s : String) : String :=
  ⟨(s.data.map Char.toLower).filter (fun c => c.isLower)⟩

/-- The `_AGENCY_COLUMN_HINTS` set from `src/services/dataframe_tools.py`. -/
def AGENCY_COLUMN_HINTS : List String :=
  ["agency", "agencycode", "agencyid", "acentekodu", "acente", "acenteid"]

/-- Substring test (Python `pat in s`), structurally recursive. -/
def listIsInfixOf : List Char → List Char → Bool
  | pat, [] => pat.isEmpty
  | pat, a :: l => pat.isPrefixOf (a :: l) || listIsInfixOf pat l

/-- The column-match test of `normalise_agency_code_columns`: simplified name
in the hint set, or starting with "agency"/"acente". -/
def normAgencyHint (s : String) : Bool :=
  AGENCY_COLUMN_HINTS.contains (simplifyName s)
    || ("agency".data.isPrefixOf (simplifyName s).data)
    || ("acente".data.isPrefixOf (simplifyName s).data)

/-- The column-match test of `filter_by_agency`: simplified name in the hint
set, or containing any hint as a substring. -/
def filterAgencyHint (s : String) : Bool :=
  AGENCY_COLUMN_HINTS.contains (simplifyName s)
    || AGENCY_COLUMN_HINTS.any (fun hint => listIsInfixOf hint.data (simplifyName s).data)

/-- The per-value effect of `value.apply(lambda v: str(int(v)) if not
pd.isna(v) else v)` on a numeric-dtype column: numbers become the decimal
string of their integer part (integral floats lose the ".0"), NaN stays NaN.
Numeric-dtype pandas columns hold only numbers and NaN, so other shapes are
left unchanged (unreachable). -/
def normaliseAgencyVal : Val → Val
  | .i n => .s (toString n)
  | .f n => .s (toString n)
  | .nan => .nan
  | v => v

/-- Embeds `normalise_agency_code_columns` from
`src/services/dataframe_tools.py`: matched numeric columns get
`str(int(value))` per value, other matched columns are `astype(str)`;
either way the result is an object-dtype column. -/
def normaliseAgencyCodeColumns (df : Df) : Df :=
  ⟨df.cols.map (fun c =>
    if normAgencyHint c.name then
      if c.dtype = Dtype.numeric then
        { c with dtype := Dtype.object, vals := c.vals.map normaliseAgencyVal }
      else
        { c with dtype := Dtype.object, vals := c.vals.map (fun v => Val.s (pyStr v)) }
    else c)⟩

/-- Keep the rows whose mask entry is true (models boolean-mask selection
`df[mask]`). -/
def filterRows (df : Df) (mask : List Bool) : Df :=
  ⟨df.cols.map (fun c =>
    { c with vals := ((c.vals.zip mask).filter (·.2)).map (·.1) })⟩

/-- Embeds `filter_by_agency` from `src/services/dataframe_tools.py`: with no
code the table is returned unchanged; otherwise the first column whose name
matches the hints drives a string-equality mask (`astype(str) == str(code)`),
and a table with no matching column is returned unchanged. The
`try/except: continue` around the comparison is unreachable here because the
modelled string conversion is total. -/
def filterByAgency (df : Df) (agencyCode : Option String) : Df :=
  match agencyCode with
  | Option.none => df
  | some code =>
    match df.cols.find? (fun c => filterAgencyHint c.name) with
    | some c => filterRows df (c.vals.map (fun v => pyStr v == code))
    | Option.none => df

/-- The `DATE_COLUMN_LIST` from `src/mstr_herald/filter_utils.py`. -/
def DATE_COLUMN_LIST : List String :=
  ["policeOnayTarih", "policeBaslangicTarihi", "policeBitisTarihi",
   "teklifGecerlilikBitisTarih", "policeVadeBaslangic", "policeVadeBitis",
   "ihbarTarihi", "hasarTarihi", "acenteKurulusTarihi", "confirmDate",
   "polBegDate", "polEndDate", "begDate", "endDate", "propValidBegDate",
   "propValidEndDate", "policeTanzimTarihi", "girisTarihi", "sonKullanmaTarihi",
   "vadeTarihi", "kapanisTarihi", "enSonMuallakTarihi", "policeBaslangic",
   "policeBitis"]

/-- Result of Python/pandas date parsing: `pnone` is Python None, `nat` is
pandas NaT, `ts` a timestamp code (year*10000 + month*100 + day, so the code
order is the calendar order). -/
inductive PyDate where
  | pnone
  | nat
  | ts (t : Int)
deriving Repr, DecidableEq

/-- Split a character list at every occurrence of `sep` (Python `s.split(sep)`
semantics: no empty-run collapsing). -/
def splitOnChar (sep : Char) : List Char → List (List Char)
  | [] => [[]]
  | a :: l =>
    let r := splitOnChar sep l
    if a = sep then [] :: r
    else
      match r with
      | [] => [[a]]
      | h :: t => (a :: h) :: t

/-- Models `datetime.strptime(s, "%m/%d/%Y")` returning the date code: three
slash-separated digit groups, month 1..12, day 1..31. (Per-month day counts
and leap years are not modelled; the claims only use dates valid either way.)
-/
def parseMMDDYYYY (s : String) : Option Int :=
  match splitOnChar '/' s.data with
  | [m, d, y] =>
    if m ≠ [] ∧ m.length ≤ 2 ∧ m.all Char.isDigit ∧ d ≠ [] ∧ d.length ≤ 2
        ∧ d.all Char.isDigit ∧ y ≠ [] ∧ y.all Char.isDigit then
      if 1 ≤ digitsToNat m ∧ digitsToNat m ≤ 12 ∧ 1 ≤ digitsToNat d ∧ digitsToNat d ≤ 31 then
        some ((digitsToNat y : Int) * 10000 + (digitsToNat m : Int) * 100 + (digitsToNat d : Int))
      else none
    else none
  | _ => none

/-- Models ISO "YYYY-MM-DD" parsing (one of the formats
`pd.to_datetime` accepts). -/
def parseISO (s : String) : Option Int :=
  match splitOnChar '-' s.data with
  | [y, m, d] =>
    if y ≠ [] ∧ y.all Char.isDigit ∧ m ≠ [] ∧ m.length ≤ 2 ∧ m.all Char.isDigit
        ∧ d ≠ [] ∧ d.length ≤ 2 ∧ d.all Char.isDigit then
      if 1 ≤ digitsToNat m ∧ digitsToNat m ≤ 12 ∧ 1 ≤ digitsToNat d ∧ digitsToNat d ≤ 31 then
        some ((digitsToNat y : Int) * 10000 + (digitsToNat m : Int) * 100 + (digitsToNat d : Int))
      else none
    else none
  | _ => none

/-- Models `pd.to_datetime(s, errors="coerce")` on a string, for the formats
the service exercises (ISO and US-style); anything else is NaT. -/
def pyToDatetimeStr (s : String) : PyDate :=
  match parseISO s with
  | some t => .ts t
  | Option.none =>
    match parseMMDDYYYY s with
    | some t => .ts t
    | Option.none => .nat

/-- Embeds `_parse_date` from `src/mstr_herald/filter_utils.py`: falsy input
gives None; a valid "MM/DD/YYYY" parses via strptime; on `ValueError` the
fallback `pd.to_datetime(errors="coerce")` yields a timestamp or NaT. -/
def parseDateFU : Option String → PyDate
  | Option.none => .pnone
  | some s =>
    if s == "" then .pnone
    else
      match parseMMDDYYYY s with
      | some t => .ts t
      | Option.none => pyToDatetimeStr s

/-- Elementwise `pd.to_datetime(column, errors="coerce")`: datetime values
pass through, strings parse, NaN and other shapes become NaT (numeric
epoch conversion is outside the claims' scope). -/
def pyToDatetimeVal : Val → PyDate
  | .dt t => .ts t
  | .s v => pyToDatetimeStr v
  | _ => .nat

/-- Python truthiness of a parse result: None is falsy; NaT and timestamps
are truthy (NaT inherits datetime truthiness). -/
def PyDate.truthy : PyDate → Bool
  | .pnone => false
  | _ => true

/-- `>=` on parse results: any comparison touching NaT or None is false, as
in pandas. -/
def dateGE : PyDate → PyDate → Bool
  | .ts a, .ts b => a ≥ b
  | _, _ => false

/-- `<=` on parse results. -/
def dateLE : PyDate → PyDate → Bool
  | .ts a, .ts b => a ≤ b
  | _, _ => false

/-- Embeds `_filter_date_range` from filter_utils: coerce the column to
datetimes, parse the bounds, keep rows inside the (inclusive) range; a truthy
unparsable bound (NaT) eliminates every row, NaT cells never match a bound. -/
def filterDateRange (df : Df) (column : String) (startS endS : Option String) : Df :=
  match df.cols.find? (fun c => c.name == column) with
  | Option.none => df
  | some c =>
    let start := parseDateFU startS
    let stop := parseDateFU endS
    filterRows df (c.vals.map (fun v =>
      (if start.truthy then dateGE (pyToDatetimeVal v) start else true)
        && (if stop.truthy then dateLE (pyToDatetimeVal v) stop else true)))

/-- Models `float(value)` on the strings the service passes: integer literals
parse to the integral float; non-integral or non-numeric text is modelled as
a failure (the caller's except-path then returns the table unchanged). -/
def pyParseFloat (s : String) : Option Int :=
  pyParseInt s

/-- Pandas elementwise equality `column == value`: numbers compare
numerically across int/float, NaN never equals anything. -/
def pyEqVal : Val → Val → Bool
  | .i a, .i b => a == b
  | .i a, .f b => a == b
  | .f a, .i b => a == b
  | .f a, .f b => a == b
  | .s a, .s b => a == b
  | .dt a, .dt b => a == b
  | _, _ => false

/-- Equality of a datetime cell against a parsed bound (None and NaT match
nothing). -/
def dateEqVal : Val → PyDate → Bool
  | .dt a, .ts b => a == b
  | _, _ => false

/-- Embeds `_filter_exact` from filter_utils: numeric columns coerce the
value via `float` (failure returns the table unchanged), datetime columns via
`_parse_date`, other columns compare as strings. -/
def filterExact (df : Df) (column : String) (value : String) : Df :=
  match df.cols.find? (fun c => c.name == column) with
  | Option.none => df
  | some c =>
    match c.dtype with
    | Dtype.numeric =>
      match pyParseFloat value with
      | some n => filterRows df (c.vals.map (fun v => pyEqVal v (.f n)))
      | Option.none => df
    | Dtype.datetime =>
      filterRows df (c.vals.map (fun v => dateEqVal v (parseDateFU (some value))))
    | Dtype.object => filterRows df (c.vals.map (fun v => pyEqVal v (.s value)))

/-- Ordered-dict insert: update in place if the key exists, else append. -/
def sdictInsert (d : List (String × String)) (k v : String) : List (String × String) :=
  if d.any (fun p => p.1 == k) then d.map (fun p => if p.1 == k then (k, v) else p)
  else d ++ [(k, v)]

/-- Models `{k.lower(): v for k, v in filters.items()}`: first-occurrence
order, last value wins. -/
def lowerKeys (fs : List (String × String)) : List (String × String) :=
  fs.foldl (fun d p => sdictInsert d (pyLowerS p.1) p.2) []

def sdictGet (d : List (String × String)) (k : String) : Option String :=
  (d.find? (fun p => p.1 == k)).map (·.2)

/-- The `excluded_keys` set of `apply_filters`: each known date column's
`_beg_date` and `_end_date` parameter names. -/
def dateRangeKeys : List String :=
  (DATE_COLUMN_LIST.map (fun c => pyLowerS c ++ "_beg_date"))
    ++ (DATE_COLUMN_LIST.map (fun c => pyLowerS c ++ "_end_date"))

def optStrTruthy : Option String → Bool
  | some s => !(s == "")
  | Option.none => false

/-- One iteration of the date-range loop of `apply_filters`. -/
def dateStep (fs : List (String × String)) (acc : Df) (col : String) : Df :=
  if optStrTruthy (sdictGet fs (pyLowerS col ++ "_beg_date"))
      || optStrTruthy (sdictGet fs (pyLowerS col ++ "_end_date")) then
    if acc.cols.any (fun c => c.name == col) then
      filterDateRange acc col (sdictGet fs (pyLowerS col ++ "_beg_date"))
        (sdictGet fs (pyLowerS col ++ "_end_date"))
    else acc
  else acc

/-- One iteration of the exact-filter loop of `apply_filters`: skip excluded
date-range keys, else apply `_filter_exact` for every case-insensitively
matching column (the column list is read once at loop entry, row filtering
never changes it). -/
def exactStep (acc : Df) (kv : String × String) : Df :=
  if dateRangeKeys.contains kv.1 then acc
  else
    (acc.cols.map (·.name)).foldl
      (fun acc2 col => if pyLowerS col == kv.1 then filterExact acc2 col kv.2 else acc2) acc

/-- Embeds `apply_filters` from `src/mstr_herald/filter_utils.py`: lowercase
the keys, run the date-range pass over the known date columns, then the
exact-match pass over the remaining keys. -/
def applyFilters (df : Df) (filters : List (String × String)) : Df :=
  (lowerKeys filters).foldl exactStep
    (DATE_COLUMN_LIST.foldl (dateStep (lowerKeys filters)) df)

/-- Suffix-operator parsing of `_build_where_clause`
(`src/services/sql_fetcher.py`): base column name and SQL operator, testing
the suffixes in source order. -/
def parseSuffix (param : String) : String × String :=
  let ends : String → Bool := fun suf => suf.data.reverse.isPrefixOf param.data.reverse
  let cut : Nat → String := fun n => ⟨param.data.take (param.data.length - n)⟩
  if ends "_gte" then (cut 4, ">=")
  else if ends "_lte" then (cut 4, "<=")
  else if ends "_gt" then (cut 3, ">")
  else if ends "_lt" then (cut 3, "<")
  else if ends "_ne" then (cut 3, "!=")
  else if ends "_like" then (cut 5, "LIKE")
  else if ends "_in" then (cut 3, "IN")
  else (param, "=")

/-- One parameter's contribution in `_build_where_clause`: skip pagination
params, drop parameters whose base column is not in the catalog list, else
append the SQL condition and its bind parameters. -/
def whereStep (tableColumns : List String) (acc : List String × List String)
    (kv : String × String) : List String × List String :=
  if kv.1 == "page" || kv.1 == "per_page" then acc
  else if tableColumns.contains (parseSuffix kv.1).1 then
    if (parseSuffix kv.1).2 == "IN" then
      (acc.1 ++ ["[" ++ (parseSuffix kv.1).1 ++ "] IN (" ++ String.intercalate ","
          (((splitOnChar ',' kv.2.data).map (fun l => (⟨l⟩ : String))).map (fun _ => "?")) ++ ")"],
       acc.2 ++ (splitOnChar ',' kv.2.data).map (fun l => (⟨l⟩ : String)))
    else if (parseSuffix kv.1).2 == "LIKE" then
      (acc.1 ++ ["[" ++ (parseSuffix kv.1).1 ++ "] LIKE ?"], acc.2 ++ ["%" ++ kv.2 ++ "%"])
    else
      (acc.1 ++ ["[" ++ (parseSuffix kv.1).1 ++ "] " ++ (parseSuffix kv.1).2 ++ " ?"],
       acc.2 ++ [kv.2])
  else acc

/-- Embeds `_build_where_clause` from `src/services/sql_fetcher.py`: the WHERE
clause text and the bind parameters. -/
def buildWhereClause (tableColumns : List String)
    (queryParams : List (String × String)) : String × List String :=
  let cp := queryParams.foldl (whereStep tableColumns) ([], [])
  (if cp.1.isEmpty then "1=1" else String.intercalate " AND " cp.1, cp.2)

/-- Per-info-type entry of the refresher's cache metadata. -/
structure ITInfo where
  rows : Nat
  columns : List String
  cacheKey : String
deriving Repr, DecidableEq

/-- The metadata record `refresh_full_reports` stores per report. -/
structure MetaRec where
  report : String
  refreshedAt : String
  infoTypes : List (String × ITInfo)
  cachePolicy : String
  partialFlag : Bool
deriving Repr, DecidableEq

/-- A value stored in Redis: a pickled dataframe or a JSON metadata record.
Unpickling a metadata blob as a dataframe fails, which `get_dataframe` turns
into a cache miss. -/
inductive RVal where
  | df (d : Df)
  | meta (m : MetaRec)
deriving Repr, DecidableEq

/-- The Redis keyspace, threaded through the functions that touch it. -/
abbrev CacheSt : Type := List (String × RVal)

def redisGet (st : CacheSt) (k : String) : Option RVal :=
  (st.find? (fun p => p.1 == k)).map (·.2)

/-- Redis SET: overwrite the binding in place or append it. -/
def redisSet (st : CacheSt) (k : String) (v : RVal) : CacheSt :=
  match st with
  | [] => [(k, v)]
  | p :: rest => if p.1 == k then (k, v) :: rest else p :: redisSet rest k v

/-- Embeds `build_cache_key` from `src/services/cache_service.py` at its only
used scope "all"; the refresher builds the identical string inline. -/
def buildCacheKey (reportName infoType : String) : String :=
  reportName ++ ":all:" ++ infoType

/-- The `<report>:meta` key used for metadata in both cache_service and the
refresher. -/
def metaKeyR (reportName : String) : String :=
  reportName ++ ":meta"

/-- `cfg.get(k)` on a configuration value: raises `AttributeError` unless the
value is a mapping. -/
def cfgGet : CVal → String → Except String (Option CVal)
  | .dict d, k => .ok (dictGet d k)
  | _, _ => .error "AttributeError: no method get"

def DATA_POLICY_MICROSTRATEGY : String := "microstrategy"

def DATA_POLICY_POSTGRESQL : String := "postgresql"

/-- Modelled from the spec: `resolve_data_policy` is imported by
`report_service.py` and `config_admin.py` from `services.config_store`, but
its definition is not among the provided sources. The spec declares
`data_policy` an enum selecting the fetcher, and the admin blueprint
normalizes it as `(cfg.get("data_policy") or MICROSTRATEGY).strip().lower()`
with values outside the enum falling back to MicroStrategy; this definition
follows those words. -/
def resolveDataPolicy (cfg : CVal) : Except String String := do
  let raw ← cfgGet cfg "data_policy"
  let v : CVal :=
    match raw with
    | some x => if x.truthy then x else .s DATA_POLICY_MICROSTRATEGY
    | Option.none => .s DATA_POLICY_MICROSTRATEGY
  let p ← pyStripLower v
  pure (if p = DATA_POLICY_MICROSTRATEGY ∨ p = DATA_POLICY_POSTGRESQL then p
        else DATA_POLICY_MICROSTRATEGY)

/-- The error taxonomy of the read path, as the blueprint distinguishes it. -/
inductive RepErr where
  | reportNotFound (name : String)
  | unsupportedInfoType (msg : String)
  | pyExc (msg : String)
  | fetchErr (msg : String)
deriving Repr, DecidableEq

structure TableRef where
  schema : Option String
  table : String
deriving Repr, DecidableEq

/-- Embeds `_is_valid_identifier` from `src/services/postgres_service.py`
(ASCII alphanumerics; non-ASCII identifier characters are out of scope). -/
def isValidIdent (s : String) : Bool :=
  !(s == "") && s.data.all (fun ch => isAlnumA ch || ch = '_')

/-- Embeds `parse_table_reference` from `src/services/postgres_service.py`;
`Except.error` models the `ValueError` on invalid identifiers. With two or
more dot-separated parts only the first two are read, as in the source. -/
def parseTableReference (ref : Option String) : Except String (Option TableRef) :=
  match ref with
  | Option.none => .ok Option.none
  | some r =>
    if r == "" then .ok Option.none
    else
      let r2 := pyStripS r
      if r2 == "" then .ok Option.none
      else
        match splitOnChar '.' r2.data with
        | [one] =>
          if isValidIdent (pyStripS ⟨one⟩) then .ok (some ⟨Option.none, pyStripS ⟨one⟩⟩)
          else .error "ValueError: invalid Postgres identifier"
        | s1 :: s2 :: _ =>
          if isValidIdent ⟨s1⟩ && isValidIdent ⟨s2⟩ then .ok (some ⟨some ⟨s1⟩, ⟨s2⟩⟩)
          else .error "ValueError: invalid Postgres schema or table identifier"
        | [] => .ok Option.none

/-- Embeds `_validate_info_type` from `src/services/report_service.py`:
Postgres-backed reports accept only "summary"; MicroStrategy reports require
a truthy entry for the info_type in `viz_keys`. (A truthy non-dict `viz_keys`
raises in the model; Python would substring-test a string value, a shape no
real configuration has.) -/
def validateInfoType (cfg : CVal) (infoType : String) : Except RepErr Unit := do
  let dp ← (resolveDataPolicy cfg).mapError RepErr.pyExc
  if dp = DATA_POLICY_POSTGRESQL then
    if infoType ≠ "summary" then
      throw (RepErr.unsupportedInfoType "Postgres-backed reports only support info_type summary.")
    else pure ()
  else do
    let vkOpt ← (cfgGet cfg "viz_keys").mapError RepErr.pyExc
    let vk : CVal :=
      match vkOpt with
      | some x => if x.truthy then x else .dict []
      | Option.none => .dict []
    match vk with
    | .dict d =>
      match dictGet d infoType with
      | some vv =>
        if vv.truthy then pure ()
        else throw (RepErr.unsupportedInfoType "Visualization type is not configured.")
      | Option.none => throw (RepErr.unsupportedInfoType "Visualization type is not configured.")
    | _ => throw (RepErr.pyExc "TypeError: membership test on non-dict viz_keys")

/-- Drop the first column satisfying `p` (pandas `drop(columns=[c])` for the
single matched column). -/
def dropFirstP (p : Column → Bool) : List Column → List Column
  | [] => []
  | c :: cs => if p c then cs else c :: dropFirstP p cs

/-- Embeds `extract_cube_time` from dataframe_tools: the first column whose
simplified name is "datarefreshtime" is removed, its first value returned
(None when the frame has no rows or no such column). -/
def extractCubeTime (df : Df) : Df × Option Val :=
  match df.cols.find? (fun c => simplifyName c.name == "datarefreshtime") with
  | Option.none => (df, Option.none)
  | some c =>
    (⟨dropFirstP (fun c2 => simplifyName c2.name == "datarefreshtime") df.cols⟩,
     if dfEmpty df then Option.none else c.vals.head?)

/-- Embeds `_format_cube_time` from report_service: None and the literal
"NULL" give null, a Timestamp is rendered, anything else stringified. -/
def formatCubeTime : Option Val → Option String
  | Option.none => Option.none
  | some (.s v) => if v == "NULL" then Option.none else some v
  | some (.dt t) => some (toString t)
  | some w => some (pyStr w)

/-- One stringified record cell, per `coerce_datetime_columns` +
`stringify_dataframe`: NaN becomes "NULL", datetimes render, the rest take
their string form. -/
def recordVal : Val → String
  | .nan => "NULL"
  | .dt t => toString t
  | w => pyStr w

/-- Embeds `dataframe_to_records` from dataframe_tools. -/
def dataframeToRecords (df : Df) : List (List (String × String)) :=
  if dfEmpty df then []
  else (List.range (nRows df)).map (fun i =>
    df.cols.map (fun c => (c.name, recordVal (c.vals.getD i .nan))))

/-- Embeds `_prepare_dataframe` from report_service: normalise columns and
agency codes, scope by agency code, extract the refresh-time column, then
apply the non-agency filters in memory (the modelled `apply_filters` is
total, so the guarding try/except is not exercised; `reset_index` has no
analogue in the model). -/
def prepareDataframe (df : Df) (filters : List (String × String))
    (agencyCode : Option String) : Df × Option Val :=
  let working := filterByAgency (normaliseAgencyCodeColumns (normaliseColumns df)) agencyCode
  let ext := extractCubeTime working
  let nonAgencyFilters := filters.filter (fun kv =>
    !(pyLowerS kv.1 == "agency_name") && !(kv.2 == ""))
  (if nonAgencyFilters.isEmpty then ext.1 else applyFilters ext.1 nonAgencyFilters, ext.2)

/-- Embeds `_fetch_remote` from report_service. The raw fetchers
(`fetch_table_dataframe`, `fetch_report_dataframe`) are the black-box
collaborators the spec draws a boundary around, passed as parameters;
`connResult` stands for `create_connection()` (`conn.close()` in the
`finally` block has no observable effect here). -/
def fetchRemote
    (pgFetch : TableRef → Except String Df)
    (mstrFetch : String → CVal → List (String × String) → String → Except String Df)
    (connResult : Except String Unit)
    (reportName : String) (cfg : CVal) (infoType : String)
    (filters : List (String × String)) : Except RepErr Df := do
  let dp ← (resolveDataPolicy cfg).mapError RepErr.pyExc
  if dp = DATA_POLICY_POSTGRESQL then do
    let ref0 ← (cfgGet cfg "postgres_table").mapError RepErr.pyExc
    let refStr : Option String ←
      match ref0 with
      | Option.none => pure Option.none
      | some v =>
        if v.truthy then
          match v with
          | .s w => pure (some w)
          | _ => throw (RepErr.pyExc "AttributeError: no method strip")
        else pure Option.none
    match parseTableReference refStr with
    | .error e => throw (RepErr.pyExc e)
    | .ok Option.none => throw (RepErr.pyExc "ValueError: postgres_table must be defined")
    | .ok (some ref) => (pgFetch ref).mapError RepErr.fetchErr
  else do
    let _ ← connResult.mapError RepErr.fetchErr
    (mstrFetch reportName cfg filters infoType).mapError RepErr.fetchErr

/-- The JSON payload `get_report_payload` assembles. -/
structure Payload where
  data : List (List (String × String))
  report : String
  infoType : String
  page : Int
  pageSize : Int
  totalRows : Int
  totalPages : Int
  dataRefreshTime : Option String
  cachePolicy : String
  dataPolicy : String
  isCached : Bool
  cacheHit : Bool
  agency : Option String
deriving Repr, DecidableEq

/-- `cache_service.get_dataframe` followed by the orchestrator's
empty-frame check: a missing key, a non-dataframe blob (unpickling fails,
`get_dataframe` returns None) and a present-but-empty frame all give None. -/
def cacheLookup (st : CacheSt) (ck : String) : Option Df :=
  match redisGet st ck with
  | some (RVal.df d) => if dfEmpty d then Option.none else some d
  | some (RVal.meta _) => Option.none
  | Option.none => Option.none

/-- The cache key `get_report_payload` reads: Postgres-backed reports always
cache under the "summary" key. -/
def cacheKeyFor (reportName infoType dataPolicy : String) : String :=
  buildCacheKey reportName (if dataPolicy == DATA_POLICY_MICROSTRATEGY then infoType else "summary")

/-- Assembly of the response dictionary from `get_report_payload`:
`_prepare_dataframe`, `_paginate`, `dataframe_to_records` and the literal
payload fields. `df0` is the cache-read result, so `cache_hit = df0.isSome`
and `is_cached = use_cache`. -/
def finishPayload (reportName : String) (filters : List (String × String))
    (infoType : String) (page pageSize : Int) (agencyCode : Option String)
    (cachePolicy dataPolicy : String) (df0 : Option Df) (df : Df) : Payload :=
  { data := dataframeToRecords (paginateRS (prepareDataframe df filters agencyCode).1 page pageSize).1
    report := reportName
    infoType := infoType
    page := page
    pageSize := pageSize
    totalRows := (paginateRS (prepareDataframe df filters agencyCode).1 page pageSize).2.1
    totalPages := (paginateRS (prepareDataframe df filters agencyCode).1 page pageSize).2.2
    dataRefreshTime := formatCubeTime (prepareDataframe df filters agencyCode).2
    cachePolicy := cachePolicy
    dataPolicy := dataPolicy
    isCached := cachePolicy == CACHE_POLICY_DAILY
    cacheHit := df0.isSome
    agency := agencyCode }

/-- The body of `get_report_payload` after the configuration lookup
succeeded (`cfg` truthy). `use_cache and cache_key` collapses to `use_cache`
because `build_cache_key` always returns a truthy string. -/
def payloadForCfg
    (pgFetch : TableRef → Except String Df)
    (mstrFetch : String → CVal → List (String × String) → String → Except String Df)
    (connResult : Except String Unit)
    (reportName : String) (filters : List (String × String)) (infoType : String)
    (page pageSize : Int) (agencyCode : Option String)
    (st : CacheSt) (cfg : CVal) : Except RepErr Payload := do
  let _ ← validateInfoType cfg infoType
  let cachePolicy ← (resolveCachePolicy (some cfg)).mapError RepErr.pyExc
  let dataPolicy ← (resolveDataPolicy cfg).mapError RepErr.pyExc
  let df0 : Option Df :=
    if cachePolicy == CACHE_POLICY_DAILY then
      cacheLookup st (cacheKeyFor reportName infoType dataPolicy)
    else Option.none
  let df ←
    match df0 with
    | some d => pure d
    | Option.none => fetchRemote pgFetch mstrFetch connResult reportName cfg infoType filters
  pure (finishPayload reportName filters infoType page pageSize agencyCode
    cachePolicy dataPolicy df0 df)

/-- Embeds `get_report_payload` from `src/services/report_service.py`. The
YAML config, the raw fetchers and the MicroStrategy connection are inputs;
Redis is threaded as explicit state. The source calls only
`cache_service.get_dataframe` — never `set_dataframe`/`set_metadata` — so the
state component of the result is the input state. A present-but-empty cached
frame is discarded (`df = None`) before `cache_hit` is computed. -/
def getReportPayload
    (config : List (String × CVal))
    (pgFetch : TableRef → Except String Df)
    (mstrFetch : String → CVal → List (String × String) → String → Except String Df)
    (connResult : Except String Unit)
    (reportName : String) (filters : List (String × String)) (infoType : String)
    (page pageSize : Int) (agencyCode : Option String)
    (st : CacheSt) : Except RepErr Payload × CacheSt :=
  ((do
    let cfg : CVal ←
      match dictGet config reportName with
      | Option.none => throw (RepErr.reportNotFound reportName)
      | some c =>
        if c.truthy then pure c else throw (RepErr.reportNotFound reportName)
    payloadForCfg pgFetch mstrFetch connResult reportName filters infoType
      page pageSize agencyCode st cfg), st)

inductive RouteBody where
  | payload (p : Payload)
  | err (msg : String)
deriving Repr, DecidableEq

/-- Embeds the exception mapping of `fetch_report` in
`src/web/blueprints/reports.py`: 200 for success, 404 for ReportNotFound
(with an error body), 400 for UnsupportedInfoType, 500 otherwise. -/
def fetchReportRoute (result : Except RepErr Payload) : Nat × RouteBody :=
  match result with
  | .ok p => (200, .payload p)
  | .error (.reportNotFound _) => (404, .err "Report not found in configuration.")
  | .error (.unsupportedInfoType msg) => (400, .err msg)
  | .error (.pyExc _) => (500, .err "Internal server error")
  | .error (.fetchErr _) => (500, .err "Internal server error")

/-- Embeds `_to_camel_no_tr` from `src/mstr_herald/utils.py`: like
`to_ascii_camel` but with no Turkish transliteration and no
already-lower-camel guard. -/
def toCamelNoTr (s : String) : String :=
  match runsP isAlnumA (asciiIgnore s.data) with
  | [] => ""
  | h :: t => ⟨(h.map Char.toLower) ++ (t.map pyTitle).flatten⟩

/-- The column-renaming step of the refresher:
`df.columns = [_to_camel_no_tr(c) for c in df.columns]`. -/
def camelCols (df : Df) : Df :=
  ⟨df.cols.map (fun c => { c with name := toCamelNoTr c.name })⟩

/-- Embeds `normalize_agency_code_columns` from
`src/cache_refresher/full_report_refresher.py`: a column whose lowercased
name contains "acente" or "agency" and whose dtype kind is integer or float
gets `str(int(x))` per non-NaN value. -/
def refresherNormalizeAgency (df : Df) : Df :=
  ⟨df.cols.map (fun c =>
    if (listIsInfixOf "acente".data (pyLowerS c.name).data
        || listIsInfixOf "agency".data (pyLowerS c.name).data)
        && (c.dtype == Dtype.numeric) then
      { c with dtype := Dtype.object, vals := c.vals.map normaliseAgencyVal }
    else c)⟩

/-- The summary dictionary `refresh_full_reports` returns. -/
structure RefreshSummary where
  requested : List String
  refreshed : List (String × MetaRec)
  skipped : List (String × String)
  errors : List (String × List String)
deriving Repr, DecidableEq

/-- Python dict assignment `d[k] = v`: replace in place or append. -/
def rdictInsert {α : Type} (d : List (String × α)) (k : String) (v : α) :
    List (String × α) :=
  match d with
  | [] => [(k, v)]
  | p :: rest => if p.1 == k then (k, v) :: rest else p :: rdictInsert rest k v

/-- Python `d.setdefault(k, []).append(msg)`. -/
def errAppend (d : List (String × List String)) (k : String) (msg : String) :
    List (String × List String) :=
  match d with
  | [] => [(k, [msg])]
  | p :: rest => if p.1 == k then (p.1, p.2 ++ [msg]) :: rest else p :: errAppend rest k msg

/-- `[it for it, viz_key in (cfg.get("viz_keys") or {}).items() if viz_key]`;
a truthy non-dict `viz_keys` raises (`AttributeError: items`). -/
def infoTypesOf (cfg : CVal) : Except String (List String) := do
  let vkOpt ← cfgGet cfg "viz_keys"
  let vk : CVal :=
    match vkOpt with
    | some x => if x.truthy then x else .dict []
    | Option.none => .dict []
  match vk with
  | .dict d => .ok ((d.filter (fun p => (p.2).truthy)).map (·.1))
  | _ => .error "AttributeError: no method items"

/-- `True` on Except.ok. -/
def exOk {ε α : Type} : Except ε α → Bool
  | .ok _ => true
  | .error _ => false

/-- One info_type iteration of `refresh_full_reports`: fetch the CSV, camelize
the columns, normalize agency codes, pickle into Redis and record the
per-type metadata, or record the error string. The accumulator is
(redis state, info_types metadata, errors_for_report). -/
def infoTypeStep (fetchCsv : String → String → Except String Df) (reportName : String)
    (acc : CacheSt × List (String × ITInfo) × List String) (infoType : String) :
    CacheSt × List (String × ITInfo) × List String :=
  match fetchCsv reportName infoType with
  | .ok d =>
    let d2 := refresherNormalizeAgency (camelCols d)
    (redisSet acc.1 (buildCacheKey reportName infoType) (RVal.df d2),
     rdictInsert acc.2.1 infoType ⟨nRows d2, colNames d2, buildCacheKey reportName infoType⟩,
     acc.2.2)
  | .error e => (acc.1, acc.2.1, acc.2.2 ++ [infoType ++ ": " ++ e])

/-- The per-info-type metadata entry recorded for a successful fetch. -/
def itMeta (fetchCsv : String → String → Except String Df) (r it : String) : ITInfo :=
  match fetchCsv r it with
  | .ok d =>
    ⟨nRows (refresherNormalizeAgency (camelCols d)),
     colNames (refresherNormalizeAgency (camelCols d)), buildCacheKey r it⟩
  | .error _ => ⟨0, [], buildCacheKey r it⟩

/-- The error string recorded for a failed fetch. -/
def itErr (fetchCsv : String → String → Except String Df) (r it : String) : String :=
  match fetchCsv r it with
  | .error e => it ++ ": " ++ e
  | .ok _ => ""

/-- The tail of one report iteration after the per-info-type loop ran:
`folded` is (redis state, info_types metadata, errors_for_report). If no
info_type succeeded the report is skipped and no metadata is written;
otherwise the metadata record (with `partial = bool(errors_for_report)`) is
stored under `<name>:meta` and recorded in `refreshed`; in both branches a
non-empty error list is recorded under `errors`. -/
def processFolded (now name : String)
    (folded : CacheSt × List (String × ITInfo) × List String)
    (res : RefreshSummary) : CacheSt × RefreshSummary :=
  if folded.2.1.isEmpty then
    (folded.1,
     if folded.2.2.isEmpty then
       { res with skipped := rdictInsert res.skipped name "All info types failed to refresh." }
     else
       { res with
         skipped := rdictInsert res.skipped name "All info types failed to refresh."
         errors := rdictInsert res.errors name folded.2.2 })
  else
    (redisSet folded.1 (metaKeyR name)
       (RVal.meta ⟨name, now, folded.2.1, CACHE_POLICY_DAILY, !folded.2.2.isEmpty⟩),
     if folded.2.2.isEmpty then
       { res with refreshed := (rdictInsert res.refreshed name
           ⟨name, now, folded.2.1, CACHE_POLICY_DAILY, !folded.2.2.isEmpty⟩) }
     else
       { res with
         refreshed := (rdictInsert res.refreshed name
           ⟨name, now, folded.2.1, CACHE_POLICY_DAILY, !folded.2.2.isEmpty⟩)
         errors := rdictInsert res.errors name folded.2.2 })

/-- One report iteration of the main loop of `refresh_full_reports`.
Exceptions outside the per-info-type try/except (a truthy non-dict
`viz_keys`) propagate through the `Except` layer. Python quotes the policy
value in the skip message with apostrophes, elided here. -/
def processReport (fetchCsv : String → String → Except String Df) (now : String)
    (acc : Except String (CacheSt × RefreshSummary)) (item : String × CVal) :
    Except String (CacheSt × RefreshSummary) := do
  let (st, res) ← acc
  let infoTypes ← infoTypesOf item.2
  if infoTypes.isEmpty then
    pure (st, { res with skipped := rdictInsert res.skipped item.1 "No viz_keys defined for caching." })
  else
    pure (processFolded now item.1 (infoTypes.foldl (infoTypeStep fetchCsv item.1) (st, [], [])) res)

/-- The errors_for_report list a run of the per-info-type loop accumulates. -/
def errsOf (fetchCsv : String → String → Except String Df) (r : String) :
    List String → List String
  | [] => []
  | it :: rest =>
    match fetchCsv r it with
    | .ok _ => errsOf fetchCsv r rest
    | .error e => (it ++ ": " ++ e) :: errsOf fetchCsv r rest

/-- One name of the explicit `report_names` classification loop. -/
def classifyRequested (config : List (String × CVal))
    (acc : Except String (List (String × CVal) × RefreshSummary)) (name : String) :
    Except String (List (String × CVal) × RefreshSummary) := do
  let (tp, res) ← acc
  match dictGet config name with
  | Option.none =>
    pure (tp, { res with errors := errAppend res.errors name "Report not defined in configuration." })
  | some cfg => do
    let policy ← resolveCachePolicy (some cfg)
    if policy == CACHE_POLICY_DAILY then pure (rdictInsert tp name cfg, res)
    else
      pure (tp, { res with skipped := (rdictInsert res.skipped name
        ("cache_policy is " ++ policy ++ ", refresh ignored.")) })

/-- The `daily_reports` dict comprehension; `resolve_cache_policy` may raise
on a malformed entry, which aborts the whole call. -/
def dailyReportsOf (config : List (String × CVal)) : Except String (List (String × CVal)) :=
  config.foldlM (fun acc p => do
    let pol ← resolveCachePolicy (some p.2)
    pure (if pol == CACHE_POLICY_DAILY then acc ++ [p] else acc)) []

/-- Embeds `refresh_full_reports` from
`src/cache_refresher/full_report_refresher.py`. `fetchCsv` is the black-box
`fetch_report_csv` applied to the already-created connection, `connResult`
models `create_connection()`, `now` the formatted `datetime.utcnow()`. An
uncaught Python exception is the `Except.error` case (cache writes made
before an uncaught exception are outside the model, which only describes
normal returns); Redis is threaded as explicit state. -/
def refreshFullReports (config : List (String × CVal))
    (fetchCsv : String → String → Except String Df)
    (connResult : Except String Unit) (now : String)
    (reportNames : Option (List String)) (st : CacheSt) :
    Except String (RefreshSummary × CacheSt) := do
  let daily ← dailyReportsOf config
  let requested :=
    match reportNames with
    | some ns => ns
    | Option.none => daily.map (·.1)
  let res0 : RefreshSummary := ⟨requested, [], [], []⟩
  let tpres ←
    match reportNames with
    | some ns => ns.foldl (classifyRequested config) (.ok ([], res0))
    | Option.none => .ok (daily, res0)
  if tpres.1.isEmpty then pure (tpres.2, st)
  else
    match connResult with
    | .error _ =>
      pure (tpres.1.foldl (fun r p =>
        { r with errors := errAppend r.errors p.1 "MicroStrategy connection unavailable." }) tpres.2, st)
    | .ok _ => do
      let stres ← tpres.1.foldl (processReport fetchCsv now) (.ok (st, tpres.2))
      pure (stres.2, stres.1)

/-- `True` exactly on an `UnsupportedInfoTypeError` outcome. -/
def exIsUnsup {α : Type} : Except RepErr α → Bool
  | .error (RepErr.unsupportedInfoType _) => true
  | _ => false

/-- Every dataframe pickled in the given Redis state is empty. -/
def allCachedEmpty (st : CacheSt) : Bool :=
  st.all (fun p =>
    match p.2 with
    | RVal.df d => dfEmpty d
    | RVal.meta _ => true)

/-- `info_type in viz_keys and viz_keys[info_type]` for a dict-shaped
`viz_keys`. -/
def vizTruthy (d : List (String × CVal)) (it : String) : Bool :=
  match dictGet d it with
  | some v => v.truthy
  | Option.none => false

/-- A string key is bound in an association list. -/
def hasKey {α : Type} (d : List (String × α)) (n : String) : Bool :=
  d.any (fun p => p.1 == n)

/-- A report name appears in the refreshed, skipped or errors section of a
refresh summary. -/
def accounted (res : RefreshSummary) (n : String) : Bool :=
  hasKey res.refreshed n || hasKey res.skipped n || hasKey res.errors n

-- ===================== end of definitions, theorems below =====================

/-- C4 counterexample: on the mapping whose `cache_policy` field holds the
integer `1` (a truthy non-string), `resolve_cache_policy` evaluates
`(1).strip()` and raises `AttributeError` instead of returning an enum value,
so it is not total over all input mappings. -/
theorem resolveCachePolicy_int_policy_raises :
    resolveCachePolicy (some (.dict [("cache_policy", .i 1)])) =
      .error "AttributeError: no method strip" := by rfl

/-- C4 (amended): `resolve_cache_policy` returns exactly "none" or "daily" and
never raises, for `None` and for every mapping whose `cache_policy` field,
when present and truthy, is a string; in particular for `None`, for the empty
mapping, for an unparsable legacy flag (which yields "none"), and for
conflicting explicit+legacy fields (the explicit field wins). -/
theorem resolveCachePolicy_total_for_mappings (d : List (String × CVal))
    (h : ∀ v, dictGet d "cache_policy" = some v → v.truthy → ∃ w, v = CVal.s w) :
    (∃ s, resolveCachePolicy (some (.dict d)) = .ok s ∧
      (s = CACHE_POLICY_NONE ∨ s = CACHE_POLICY_DAILY))
    ∧ resolveCachePolicy Option.none = .ok CACHE_POLICY_NONE
    ∧ resolveCachePolicy (some (.dict [])) = .ok CACHE_POLICY_NONE
    ∧ resolveCachePolicy (some (.dict [("is_csv_cached", .s "not-a-number")])) =
        .ok CACHE_POLICY_NONE
    ∧ resolveCachePolicy (some (.dict [("cache_policy", .s "none"), ("is_csv_cached", .i 7)])) =
        .ok CACHE_POLICY_NONE
    ∧ resolveCachePolicy (some (.dict [("cache_policy", .s "daily"), ("is_csv_cached", .i 0)])) =
        .ok CACHE_POLICY_DAILY := by
  refine ⟨?_, by rfl, by rfl, by rfl, by rfl, by rfl⟩
  by_cases ht : (CVal.dict d).truthy
  · have hraw : ∃ u : String,
        (match dictGet d "cache_policy" with
         | some v => if v.truthy then v else CVal.s ""
         | Option.none => CVal.s "") = CVal.s u := by
      rcases hv : dictGet d "cache_policy" with _ | v
      · exact ⟨"", rfl⟩
      · by_cases hvt : v.truthy
        · obtain ⟨w, rfl⟩ := h v hv hvt
          exact ⟨w, by simp [hvt]⟩
        · exact ⟨"", by simp [hvt]⟩
      -- the amended hypothesis rules out truthy non-string policy fields
    obtain ⟨u, hu⟩ := hraw
    simp only [resolveCachePolicy, ht, not_true_eq_false, if_false, hu, pyStripLower]
    by_cases hp : pyLowerS (pyStripS u) = CACHE_POLICY_NONE ∨
        pyLowerS (pyStripS u) = CACHE_POLICY_DAILY
    · exact ⟨pyLowerS (pyStripS u), by simp [hp], hp⟩
    · by_cases hleg : pyIntOr0 (dictGet d "is_csv_cached") > 0
      · exact ⟨CACHE_POLICY_DAILY, by simp [hp, hleg], Or.inr rfl⟩
      · exact ⟨CACHE_POLICY_NONE, by simp [hp, hleg], Or.inl rfl⟩
  · exact ⟨CACHE_POLICY_NONE, by simp [resolveCachePolicy, ht], Or.inl rfl⟩

/-- C4 witness: the amended theorem applied at a concrete legacy-only mapping. -/
theorem resolveCachePolicy_total_for_mappings_witness :
    ∃ s, resolveCachePolicy (some (.dict [("is_csv_cached", .s "5")])) = .ok s ∧
      (s = CACHE_POLICY_NONE ∨ s = CACHE_POLICY_DAILY) :=
  (resolveCachePolicy_total_for_mappings [("is_csv_cached", .s "5")]
    (by intro v hv; simp [dictGet, List.find?] at hv)).1

theorem take_min_length (l : List α) (x : Nat) : l.take (min x l.length) = l.take x := by
  rcases le_total x l.length with h | h
  · rw [min_eq_left h]
  · rw [min_eq_right h, List.take_length (l := l), List.take_of_length_le h]

theorem drop_min_length (l : List α) (x : Nat) : l.drop (min x l.length) = l.drop x := by
  rcases le_total x l.length with h | h
  · rw [min_eq_left h]
  · rw [min_eq_right h, List.drop_length, List.drop_eq_nil_of_le h]

theorem drop_min_length_take (l : List α) (a b : Nat) :
    (l.take b).drop (min a l.length) = (l.take b).drop a := by
  rcases le_total a l.length with h | h
  · rw [min_eq_left h]
  · have hlen : (l.take b).length ≤ l.length := by
      simp only [List.length_take]
      omega
    rw [min_eq_right h, List.drop_eq_nil_of_le hlen,
      List.drop_eq_nil_of_le (le_trans hlen h)]

theorem pySlice_nonneg (l : List α) (a b : Int) (ha : 0 ≤ a) (hb : 0 ≤ b) :
    pySlice l a b = (l.drop a.toNat).take (b.toNat - a.toNat) := by
  unfold pySlice pySliceIdx
  rw [if_neg (by omega), if_neg (by omega), take_min_length, drop_min_length_take]
  exact List.drop_take b.toNat a.toNat l

theorem pySlice_nil (a b : Int) : pySlice ([] : List α) a b = [] := by
  simp [pySlice]

theorem getD_map_nilfix (f : List Val → List Val) (hf : f [] = [])
    (L : List (List Val)) (j : Nat) : (L.map f).getD j [] = f (L.getD j []) := by
  induction L generalizing j with
  | nil => simp [hf]
  | cons x xs ih =>
    cases j with
    | zero => simp
    | succ n => simpa using ih n

theorem colValsAt_mapCols (f : List Val → List Val) (hf : f [] = []) (df : Df) (j : Nat) :
    colValsAt ⟨df.cols.map (fun c => { c with vals := f c.vals })⟩ j = f (colValsAt df j) := by
  unfold colValsAt
  rw [List.map_map]
  rw [show ((fun c : Column => c.vals) ∘ fun c : Column => { c with vals := f c.vals })
      = (f ∘ fun c : Column => c.vals) from rfl, ← List.map_map]
  exact getD_map_nilfix f hf _ j

theorem colValsAt_length_le (df : Df) (hw : Df.wf df) (j : Nat) :
    (colValsAt df j).length ≤ nRows df := by
  unfold colValsAt
  by_cases hj : j < (df.cols.map (·.vals)).length
  · rw [List.getD_eq_getElem _ _ hj]
    simp only [List.getElem_map]
    have hjb : j < df.cols.length := by simpa using hj
    have hm : df.cols[j] ∈ df.cols := List.getElem_mem hjb
    exact le_of_eq (hw _ hm)
  · rw [List.getD_eq_default _ _ (by omega)]
    exact Nat.zero_le _

theorem flatten_chunks (P : Nat) :
    ∀ (tp : Nat) (l : List Val), l.length ≤ tp * P →
      ((List.range tp).map (fun k => (l.drop (k * P)).take P)).flatten = l := by
  intro tp
  induction tp with
  | zero =>
    intro l hl
    simp only [Nat.zero_mul, Nat.le_zero] at hl
    have : l = [] := List.length_eq_zero.mp hl
    simp [this]
  | succ n ih =>
    intro l hl
    rw [List.range_succ_eq_map]
    simp only [List.map_cons, List.map_map, List.flatten_cons, Nat.zero_mul, List.drop_zero]
    have hcongr : ∀ k, ((l.drop (Nat.succ k * P)).take P) = (((l.drop P).drop (k * P)).take P) := by
      intro k
      rw [Nat.succ_mul, Nat.add_comm (k * P) P, List.drop_drop]
    have hmap : (List.range n).map ((fun k => (l.drop (k * P)).take P) ∘ Nat.succ)
        = (List.range n).map (fun k => ((l.drop P).drop (k * P)).take P) :=
      List.map_congr_left (fun k _ => hcongr k)
    rw [hmap, ih (l.drop P) ?_]
    · exact List.take_append_drop P l
    · simp only [List.length_drop]
      have hmul : (n + 1) * P = n * P + P := by
        rw [Nat.add_mul, Nat.one_mul]
      omega

theorem natCeil_bounds (n P : Nat) (hP : 0 < P) :
    n ≤ ceilNat n P * P ∧ ceilNat n P * P ≤ n + P - 1 := by
  unfold ceilNat
  constructor
  · have h1 := Nat.div_add_mod (n + P - 1) P
    have h2 : (n + P - 1) % P < P := Nat.mod_lt _ hP
    have h3 : P * ((n + P - 1) / P) = ((n + P - 1) / P) * P := Nat.mul_comm ..
    omega
  · exact Nat.div_mul_le_self ..

theorem paginateRS_totalPages (df : Df) (page P : Int) (hP : 0 < P) :
    (paginateRS df page P).2.2 = ((ceilNat (nRows df) P.toNat : Nat) : Int) := by
  have hPeq : P = (P.toNat : Int) := by omega
  have hcast : ((nRows df : Int) + P - 1) = ((nRows df + P.toNat - 1 : Nat) : Int) := by omega
  simp only [paginateRS]
  rw [if_neg (show ¬ P ≤ 0 by omega)]
  rw [if_pos (show P ≠ 0 by omega), hcast]
  conv_lhs => rw [hPeq]
  exact (Int.ofNat_fdiv ..).symm

theorem colValsAt_dfSlice (df : Df) (a b : Int) (j : Nat) :
    colValsAt (dfSlice df a b) j = pySlice (colValsAt df j) a b :=
  colValsAt_mapCols (fun v => pySlice v a b) (pySlice_nil ..) df j

theorem paginateRS_page_cols (df : Df) (P : Int) (k : Nat) (hP : 0 < P) (j : Nat) :
    colValsAt ((paginateRS df ((k : Int) + 1) P).1) j =
      ((colValsAt df j).drop (k * P.toNat)).take P.toNat := by
  have hp : P = (P.toNat : Int) := by omega
  have e1 : ((k : Int) + 1 - 1) * P = ((k * P.toNat : Nat) : Int) := by
    push_cast
    rw [Int.toNat_of_nonneg hP.le]
    ring
  have e2 : ((k : Int) + 1 - 1) * P + P = ((k * P.toNat + P.toNat : Nat) : Int) := by
    push_cast
    rw [Int.toNat_of_nonneg hP.le]
    ring
  simp only [paginateRS]
  rw [if_neg (show ¬ P ≤ 0 by omega), if_neg (show ¬ ((k : Int) + 1) ≤ 0 by omega)]
  rw [colValsAt_dfSlice, pySlice_nonneg _ _ _ (by rw [e1]; omega) (by rw [e2]; omega)]
  rw [e2, e1, Int.toNat_natCast, Int.toNat_natCast, Nat.add_sub_cancel_left (k * P.toNat) P.toNat]

theorem fdivCeil_cast (n : Nat) (P : Int) (hP : 0 < P) :
    Int.fdiv ((n : Int) + P - 1) P = ((ceilNat n P.toNat : Nat) : Int) := by
  have hPeq : P = (P.toNat : Int) := by omega
  have hcast : ((n : Int) + P - 1) = ((n + P.toNat - 1 : Nat) : Int) := by omega
  rw [hcast]
  conv_lhs => rw [hPeq]
  exact (Int.ofNat_fdiv ..).symm

theorem paginateDataframe_totalPages (df : Df) (page P : Int) (hP : 0 < P) :
    (paginateDataframe df page P).2.totalPages
      = ((ceilNat (nRows df) P.toNat : Nat) : Int) := by
  simp only [paginateDataframe]
  rw [if_pos hP]
  exact fdivCeil_cast (nRows df) P hP

theorem paginateDataframe_page_cols (df : Df) (P : Int) (k : Nat) (hP : 0 < P) (j : Nat)
    (hk : ((k : Int) + 1) ≤ (paginateDataframe df 1 P).2.totalPages) :
    colValsAt ((paginateDataframe df ((k : Int) + 1) P).1) j =
      ((colValsAt df j).drop (k * P.toNat)).take P.toNat := by
  have htp := paginateDataframe_totalPages df 1 P hP
  rw [htp] at hk
  have e1 : ((k : Int) + 1 - 1) * P = ((k * P.toNat : Nat) : Int) := by
    push_cast
    rw [Int.toNat_of_nonneg hP.le]
    ring
  have e2 : ((k : Int) + 1 - 1) * P + P = ((k * P.toNat + P.toNat : Nat) : Int) := by
    push_cast
    rw [Int.toNat_of_nonneg hP.le]
    ring
  simp only [paginateDataframe]
  rw [if_pos hP, fdivCeil_cast (nRows df) P hP]
  rw [if_pos (show (0:Int) < ((ceilNat (nRows df) P.toNat : Nat) : Int) by omega)]
  rw [show max 1 (min ((k : Int) + 1) ((ceilNat (nRows df) P.toNat : Nat) : Int))
      = (k : Int) + 1 by omega]
  rw [colValsAt_dfSlice, pySlice_nonneg _ _ _ (by rw [e1]; omega) (by rw [e2]; omega)]
  rw [e2, e1, Int.toNat_natCast, Int.toNat_natCast, Nat.add_sub_cancel_left (k * P.toNat) P.toNat]

theorem dfSlice_full (df : Df) (hw : Df.wf df) (b : Int) (hb : (nRows df : Int) ≤ b) :
    dfSlice df 0 b = df := by
  have hcols : df.cols.map (fun c => { c with vals := pySlice c.vals 0 b }) = df.cols := by
    have hpt : ∀ c ∈ df.cols, (fun c : Column => { c with vals := pySlice c.vals 0 b }) c = id c := by
      intro c hc
      have hlen := hw c hc
      have : pySlice c.vals 0 b = c.vals := by
        rw [pySlice_nonneg _ _ _ le_rfl (by omega)]
        simp only [Int.toNat_zero, List.drop_zero, Nat.sub_zero]
        exact List.take_of_length_le (by omega)
      simp [this]
    rw [List.map_congr_left hpt, List.map_id]
  unfold dfSlice
  rw [hcols]

/-- C5 (amended): pagination correctness. For the orchestrator's `_paginate`
every property of the claim holds: for any well-formed table and any page size
P>0, concatenating the pages 1..total_pages reproduces each column in order,
each row exactly once; a page beyond the last yields an empty slice;
page_size<=0 is treated as one page containing every row; page<1 is treated as
page 1; and total_pages is the ceiling of total_rows/page_size (characterized
by its two defining bounds). For `paginate_dataframe` the concatenation and
total_pages properties also hold, but a page beyond the last is clamped to the
last page instead of yielding an empty slice, and page_size<=0 yields the raw
slice `iloc[0:page_size]` rather than the whole table (see the
counterexample). -/
theorem pagination_c5 (df : Df) (P page : Int) (j : Nat)
    (hw : Df.wf df) (hP : 0 < P) :
    ( ((List.range (paginateRS df 1 P).2.2.toNat).map
        (fun k : Nat => colValsAt ((paginateRS df ((k : Int) + 1) P).1) j)).flatten
        = colValsAt df j )
    ∧ ((paginateRS df 1 P).2.2 < page →
        colValsAt ((paginateRS df page P).1) j = [])
    ∧ (∀ Q pg2 : Int, Q ≤ 0 → pg2 ≤ 1 → (paginateRS df pg2 Q).1 = df)
    ∧ (∀ Q pg2 : Int, pg2 ≤ 0 → paginateRS df pg2 Q = paginateRS df 1 Q)
    ∧ ((nRows df : Int) ≤ (paginateRS df page P).2.2 * P
        ∧ ((paginateRS df page P).2.2 - 1) * P < (nRows df : Int))
    ∧ ( ((List.range (paginateDataframe df 1 P).2.totalPages.toNat).map
        (fun k : Nat => colValsAt ((paginateDataframe df ((k : Int) + 1) P).1) j)).flatten
        = colValsAt df j )
    ∧ ((nRows df : Int) ≤ (paginateDataframe df page P).2.totalPages * P
        ∧ ((paginateDataframe df page P).2.totalPages - 1) * P < (nRows df : Int))
    ∧ (1 ≤ (paginateDataframe df 1 P).2.totalPages →
        (paginateDataframe df 1 P).2.totalPages < page →
        paginateDataframe df page P =
          paginateDataframe df ((paginateDataframe df 1 P).2.totalPages) P) := by
  have hp : P = (P.toNat : Int) := by omega
  have hq1 := (natCeil_bounds (nRows df) P.toNat (by omega)).1
  have hq2 := (natCeil_bounds (nRows df) P.toNat (by omega)).2
  have hlen := colValsAt_length_le df hw j
  refine ⟨?_, ?_, ?_, ?_, ?_, ?_, ?_, ?_⟩
  · rw [paginateRS_totalPages df 1 P hP, Int.toNat_natCast]
    rw [List.map_congr_left (fun k _ => paginateRS_page_cols df P k hP j)]
    exact flatten_chunks P.toNat _ _ (le_trans hlen hq1)
  · intro hpage
    rw [paginateRS_totalPages df 1 P hP] at hpage
    have hpgpos : ¬ page ≤ 0 := by omega
    have hstart0 : (0:Int) ≤ (page - 1) * P := mul_nonneg (by omega) hP.le
    have hstart : ((ceilNat (nRows df) P.toNat * P.toNat : Nat) : Int)
        ≤ (page - 1) * P := by
      have := mul_le_mul_of_nonneg_right
        (show ((ceilNat (nRows df) P.toNat : Nat) : Int) ≤ page - 1 by omega) hP.le
      calc ((ceilNat (nRows df) P.toNat * P.toNat : Nat) : Int)
          = ((ceilNat (nRows df) P.toNat : Nat) : Int) * P := by
            push_cast [Int.toNat_of_nonneg hP.le]; ring
        _ ≤ (page - 1) * P := this
    simp only [paginateRS]
    rw [if_neg (show ¬ P ≤ 0 by omega), if_neg hpgpos]
    rw [colValsAt_dfSlice, pySlice_nonneg _ _ _ hstart0 (by nlinarith)]
    rw [List.drop_eq_nil_of_le (by omega), List.take_nil]
  · intro Q pg2 hQ hpg2
    simp only [paginateRS]
    rw [if_pos hQ]
    have hpg : (if pg2 ≤ 0 then (1:Int) else pg2) = 1 := by
      by_cases hc : pg2 ≤ 0
      · rw [if_pos hc]
      · rw [if_neg hc]
        omega
    rw [hpg, show ((1:Int) - 1) * (max ((nRows df : Int)) 1) = 0 by ring, zero_add]
    exact dfSlice_full df hw _ (le_max_left ..)
  · intro Q pg2 hpg2
    simp only [paginateRS]
    rw [if_pos hpg2, if_neg (show ¬ (1:Int) ≤ 0 by omega)]
  · rw [paginateRS_totalPages df page P hP]
    constructor
    · calc ((nRows df : Int)) ≤ ((ceilNat (nRows df) P.toNat * P.toNat : Nat) : Int) := by
            exact_mod_cast hq1
        _ = ((ceilNat (nRows df) P.toNat : Nat) : Int) * P := by push_cast [Int.toNat_of_nonneg hP.le]; ring
    · rw [show (((ceilNat (nRows df) P.toNat : Nat) : Int) - 1) * P
          = ((ceilNat (nRows df) P.toNat * P.toNat : Nat) : Int) - P by
            push_cast [Int.toNat_of_nonneg hP.le]; ring]
      omega
  · rw [paginateDataframe_totalPages df 1 P hP, Int.toNat_natCast]
    rw [List.map_congr_left (fun k hk => paginateDataframe_page_cols df P k hP j (by
      rw [paginateDataframe_totalPages df 1 P hP]
      have := List.mem_range.mp hk
      omega))]
    exact flatten_chunks P.toNat _ _ (le_trans hlen hq1)
  · rw [paginateDataframe_totalPages df page P hP]
    constructor
    · calc ((nRows df : Int)) ≤ ((ceilNat (nRows df) P.toNat * P.toNat : Nat) : Int) := by
            exact_mod_cast hq1
        _ = ((ceilNat (nRows df) P.toNat : Nat) : Int) * P := by push_cast [Int.toNat_of_nonneg hP.le]; ring
    · rw [show (((ceilNat (nRows df) P.toNat : Nat) : Int) - 1) * P
          = ((ceilNat (nRows df) P.toNat * P.toNat : Nat) : Int) - P by
            push_cast [Int.toNat_of_nonneg hP.le]; ring]
      omega
  · intro hge hgt
    rw [paginateDataframe_totalPages df 1 P hP] at hge hgt ⊢
    simp only [paginateDataframe]
    rw [if_pos hP, fdivCeil_cast (nRows df) P hP]
    rw [if_pos (show (0:Int) < ((ceilNat (nRows df) P.toNat : Nat) : Int) by omega)]
    rw [show max 1 (min page ((ceilNat (nRows df) P.toNat : Nat) : Int))
        = ((ceilNat (nRows df) P.toNat : Nat) : Int) by omega]
    rw [show max 1 (min (((ceilNat (nRows df) P.toNat : Nat)) : Int)
          ((ceilNat (nRows df) P.toNat : Nat) : Int))
        = ((ceilNat (nRows df) P.toNat : Nat) : Int) by omega]

/-- C5 counterexample: on a one-row table, `paginate_dataframe` clamps page 5
with page size 1 to the last page (total_pages = 1) and returns that row
instead of the empty slice the claim requires; and with page_size 0 it returns
an empty slice instead of one page containing every row. (`_paginate`, also
cited by the claim, does yield an empty slice there, as the amended theorem
proves.) -/
theorem paginateDataframe_counterexample :
    (paginateDataframe ⟨[⟨"a", .object, [.i 1]⟩]⟩ 5 1).2.totalPages = 1
    ∧ colValsAt ((paginateDataframe ⟨[⟨"a", .object, [.i 1]⟩]⟩ 5 1).1) 0 = [.i 1]
    ∧ colValsAt ((paginateDataframe ⟨[⟨"a", .object, [.i 1]⟩]⟩ 1 0).1) 0 = [] := by
  refine ⟨by decide, by decide, by decide⟩

theorem charOfNat_toNat (n : Nat) (h : n.isValidChar) : (Char.ofNat n).toNat = n := by
  rw [Char.ofNat, dif_pos h]
  rfl

theorem isUpper_iff (c : Char) : c.isUpper = true ↔ 65 ≤ c.toNat ∧ c.toNat ≤ 90 := by
  simp only [Char.isUpper, ge_iff_le, Bool.and_eq_true, decide_eq_true_eq]
  exact ⟨fun ⟨h1, h2⟩ => ⟨h1, h2⟩, fun ⟨h1, h2⟩ => ⟨h1, h2⟩⟩

theorem isLower_iff (c : Char) : c.isLower = true ↔ 97 ≤ c.toNat ∧ c.toNat ≤ 122 := by
  simp only [Char.isLower, ge_iff_le, Bool.and_eq_true, decide_eq_true_eq]
  exact ⟨fun ⟨h1, h2⟩ => ⟨h1, h2⟩, fun ⟨h1, h2⟩ => ⟨h1, h2⟩⟩

theorem isDigit_iff (c : Char) : c.isDigit = true ↔ 48 ≤ c.toNat ∧ c.toNat ≤ 57 := by
  simp only [Char.isDigit, ge_iff_le, Bool.and_eq_true, decide_eq_true_eq]
  exact ⟨fun ⟨h1, h2⟩ => ⟨h1, h2⟩, fun ⟨h1, h2⟩ => ⟨h1, h2⟩⟩

theorem alnum_lt128 (c : Char) (h : isAlnumA c = true) : c.toNat < 128 := by
  rcases Bool.or_eq_true_iff.mp h with ha | hd
  · rcases Bool.or_eq_true_iff.mp ha with hu | hl
    · have := (isUpper_iff c).mp hu
      omega
    · have := (isLower_iff c).mp hl
      omega
  · have := (isDigit_iff c).mp hd
    omega

theorem bool_false_of_not_true {b : Bool} (h : ¬ b = true) : b = false := by
  cases b
  · rfl
  · exact absurd rfl h

theorem toLower_of_not_upper (c : Char) (h : c.isUpper = false) : c.toLower = c := by
  rw [Char.toLower, if_neg]
  intro hc
  rw [(isUpper_iff c).mpr ⟨hc.1, hc.2⟩] at h
  exact Bool.noConfusion h

theorem toLower_toNat_of_upper (c : Char) (h : c.isUpper = true) :
    c.toLower.toNat = c.toNat + 32 := by
  obtain ⟨h1, h2⟩ := (isUpper_iff c).mp h
  rw [Char.toLower, if_pos ⟨h1, h2⟩]
  exact charOfNat_toNat _ (Or.inl (by omega))

theorem toUpper_of_not_lower (c : Char) (h : c.isLower = false) : c.toUpper = c := by
  rw [Char.toUpper, if_neg]
  intro hc
  rw [(isLower_iff c).mpr ⟨hc.1, hc.2⟩] at h
  exact Bool.noConfusion h

theorem toUpper_toNat_of_lower (c : Char) (h : c.isLower = true) :
    c.toUpper.toNat = c.toNat - 32 := by
  obtain ⟨h1, h2⟩ := (isLower_iff c).mp h
  rw [Char.toUpper, if_pos ⟨h1, h2⟩]
  exact charOfNat_toNat _ (Or.inl (by omega))

theorem isLower_isUpper_false (c : Char) (h : c.isLower = true) : c.isUpper = false := by
  have hl := (isLower_iff c).mp h
  apply bool_false_of_not_true
  intro hu
  have := (isUpper_iff c).mp hu
  omega

theorem toLower_isUpper_false (c : Char) : c.toLower.isUpper = false := by
  by_cases h : c.isUpper = true
  · have h2 := toLower_toNat_of_upper c h
    have h3 := (isUpper_iff c).mp h
    apply bool_false_of_not_true
    intro hu
    have := (isUpper_iff c.toLower).mp hu
    omega
  · rw [toLower_of_not_upper c (bool_false_of_not_true h)]
    exact bool_false_of_not_true h

theorem toLower_alnum (c : Char) (h : isAlnumA c = true) : isAlnumA c.toLower = true := by
  by_cases hu : c.isUpper = true
  · have h2 := toLower_toNat_of_upper c hu
    have h3 := (isUpper_iff c).mp hu
    have hl : c.toLower.isLower = true := (isLower_iff _).mpr (by omega)
    unfold isAlnumA Char.isAlpha
    rw [hl]
    simp
  · rw [toLower_of_not_upper c (bool_false_of_not_true hu)]
    exact h

theorem toUpper_alnum (c : Char) (h : isAlnumA c = true) : isAlnumA c.toUpper = true := by
  by_cases hl : c.isLower = true
  · have h2 := toUpper_toNat_of_lower c hl
    have h3 := (isLower_iff c).mp hl
    have hu : c.toUpper.isUpper = true := (isUpper_iff _).mpr (by omega)
    unfold isAlnumA Char.isAlpha
    rw [hu]
    simp
  · rw [toUpper_of_not_lower c (bool_false_of_not_true hl)]
    exact h

theorem pyTitleGo_alnum (l : List Char) (h : ∀ c ∈ l, isAlnumA c = true) :
    ∀ (b : Bool), ∀ c ∈ pyTitleGo b l, isAlnumA c = true := by
  induction l with
  | nil =>
    intro b c hc
    simp [pyTitleGo] at hc
  | cons a l ih =>
    intro b c hc
    rw [pyTitleGo] at hc
    rcases List.mem_cons.mp hc with h1 | h2
    · subst h1
      have ha := h a (by simp)
      by_cases hA : a.isAlpha = true
      · rw [hA]
        by_cases hb : b = true
        · subst hb
          simpa using toLower_alnum a ha
        · rw [bool_false_of_not_true hb]
          simpa using toUpper_alnum a ha
      · rw [bool_false_of_not_true hA]
        simpa using ha
    · exact ih (fun c hc => h c (by simp [hc])) a.isAlpha c h2

theorem takeWhile_all (p : Char → Bool) : ∀ (l : List Char), (∀ c ∈ l, p c = true) →
    l.takeWhile p = l
  | [], _ => rfl
  | a :: l, h => by
    rw [List.takeWhile_cons, if_pos (h a (by simp))]
    rw [takeWhile_all p l (fun c hc => h c (by simp [hc]))]

theorem dropWhile_all (p : Char → Bool) : ∀ (l : List Char), (∀ c ∈ l, p c = true) →
    l.dropWhile p = []
  | [], _ => rfl
  | a :: l, h => by
    rw [List.dropWhile_cons, if_pos (h a (by simp))]
    exact dropWhile_all p l (fun c hc => h c (by simp [hc]))

theorem length_dropWhile_le2 (p : Char → Bool) : ∀ l : List Char,
    (l.dropWhile p).length ≤ l.length
  | [] => le_rfl
  | a :: l => by
    rw [List.dropWhile_cons]
    by_cases h : p a = true
    · rw [if_pos h]
      exact le_trans (length_dropWhile_le2 p l) (Nat.le_succ _)
    · rw [if_neg (by simp [h])]

theorem runsPF_nil (p : Char → Bool) (fuel : Nat) : runsPF p fuel [] = [] := by
  cases fuel <;> rfl

theorem runsPF_mem (p : Char → Bool) : ∀ (fuel : Nat) (l : List Char), l.length ≤ fuel →
    ∀ r ∈ runsPF p fuel l, r ≠ [] ∧ ∀ c ∈ r, p c = true := by
  intro fuel
  induction fuel with
  | zero =>
    intro l hl r hr
    simp [runsPF] at hr
  | succ n ih =>
    intro l hl r hr
    match l with
    | [] => simp [runsPF_nil] at hr
    | a :: l2 =>
      rw [runsPF] at hr
      by_cases hpa : p a = true
      · rw [if_pos hpa] at hr
        rcases List.mem_cons.mp hr with h1 | h2
        · subst h1
          refine ⟨by simp, ?_⟩
          intro c hc
          rcases List.mem_cons.mp hc with rfl | hm
          · exact hpa
          · exact List.mem_takeWhile_imp hm
        · exact ih (l2.dropWhile p)
            (le_trans (length_dropWhile_le2 p l2) (by simpa using hl)) r h2
      · rw [if_neg hpa] at hr
        exact ih l2 (by simpa using hl) r hr

theorem runsP_mem (p : Char → Bool) (l : List Char) :
    ∀ r ∈ runsP p l, r ≠ [] ∧ ∀ c ∈ r, p c = true :=
  runsPF_mem p l.length l le_rfl

theorem runsPF_single (p : Char → Bool) (fuel : Nat) (l : List Char) (hl : l.length ≤ fuel)
    (hne : l ≠ []) (hall : ∀ c ∈ l, p c = true) : runsPF p fuel l = [l] := by
  match fuel, l with
  | 0, l =>
    exact absurd (List.length_eq_zero.mp (Nat.le_zero.mp hl)) hne
  | n + 1, [] => exact absurd rfl hne
  | n + 1, a :: l2 =>
    rw [runsPF, if_pos (hall a (by simp))]
    rw [takeWhile_all p l2 (fun c hc => hall c (by simp [hc]))]
    rw [dropWhile_all p l2 (fun c hc => hall c (by simp [hc]))]
    rw [runsPF_nil]

theorem runsP_single (p : Char → Bool) (l : List Char) (hne : l ≠ [])
    (hall : ∀ c ∈ l, p c = true) : runsP p l = [l] :=
  runsPF_single p l.length l le_rfl hne hall

set_option maxHeartbeats 1000000 in
theorem trMap_ascii (c : Char) (h : c.toNat < 128) : trMap c = c := by
  unfold trMap
  split_ifs with h1 h2 h3 h4 h5 h6 h7 h8 h9 h10 h11 h12
  · rw [h1] at h; exact absurd h (by decide)
  · rw [h2] at h; exact absurd h (by decide)
  · rw [h3] at h; exact absurd h (by decide)
  · rw [h4] at h; exact absurd h (by decide)
  · rw [h5] at h; exact absurd h (by decide)
  · rw [h6] at h; exact absurd h (by decide)
  · rw [h7] at h; exact absurd h (by decide)
  · rw [h8] at h; exact absurd h (by decide)
  · rw [h9] at h; exact absurd h (by decide)
  · rw [h10] at h; exact absurd h (by decide)
  · rw [h11] at h; exact absurd h (by decide)
  · rw [h12] at h; exact absurd h (by decide)
  · rfl

theorem toAsciiCamel_eq (s : String) :
    toAsciiCamel s =
      (match runsP isAlnumA (asciiIgnore (s.data.map trMap)) with
       | [] => ""
       | h :: t =>
         (if ((h.map Char.toLower) ++ (t.map pyTitle).flatten).isEmpty then s
          else ⟨(h.map Char.toLower) ++ (t.map pyTitle).flatten⟩)) := rfl

theorem toAsciiCamel_nil (s : String)
    (hr : runsP isAlnumA (asciiIgnore (s.data.map trMap)) = []) : toAsciiCamel s = "" := by
  rw [toAsciiCamel_eq, hr]

theorem toAsciiCamel_cons (s : String) (h : List Char) (t : List (List Char))
    (hr : runsP isAlnumA (asciiIgnore (s.data.map trMap)) = h :: t) :
    toAsciiCamel s =
      (if ((h.map Char.toLower) ++ (t.map pyTitle).flatten).isEmpty then s
       else ⟨(h.map Char.toLower) ++ (t.map pyTitle).flatten⟩) := by
  rw [toAsciiCamel_eq, hr]

theorem digitUpperQuirk_cons (c : Char) (l : List Char) :
    digitUpperQuirk ⟨c :: l⟩ = (c.isDigit && (c :: l).any (·.isUpper)) := rfl

theorem isLowerCamelCase_cons (c : Char) (l : List Char) :
    isLowerCamelCase ⟨c :: l⟩ = (c.isLower && l.any (·.isUpper)) := rfl

theorem toAsciiCamel_fix (s : String) (hne : s.data ≠ [])
    (halnum : ∀ c ∈ s.data, isAlnumA c = true)
    (hnoupper : ∀ c ∈ s.data, c.isUpper = false) : toAsciiCamel s = s := by
  have hmap : s.data.map trMap = s.data := by
    rw [List.map_congr_left (fun c hc => trMap_ascii c (alnum_lt128 c (halnum c hc)))]
    exact List.map_id s.data
  have hascii : asciiIgnore s.data = s.data :=
    List.filter_eq_self.mpr (fun c hc => by simpa using alnum_lt128 c (halnum c hc))
  have hruns : runsP isAlnumA s.data = [s.data] := runsP_single _ s.data hne halnum
  have hlow : s.data.map Char.toLower = s.data := by
    rw [List.map_congr_left (fun c hc => toLower_of_not_upper c (hnoupper c hc))]
    exact List.map_id s.data
  have hcons := toAsciiCamel_cons s s.data [] (by rw [hmap, hascii, hruns])
  simp only [List.map_nil, List.flatten_nil, List.append_nil, hlow] at hcons
  have hie : s.data.isEmpty = false := by
    cases hd : s.data with
    | nil => exact absurd hd hne
    | cons a t => rfl
  rw [hie] at hcons
  simp only [Bool.false_eq_true, if_false] at hcons
  rw [hcons]

theorem toAsciiCamel_image_fix (s : String)
    (hq : digitUpperQuirk (toAsciiCamel s) = false)
    (hn : isLowerCamelCase (toAsciiCamel s) = false) :
    toAsciiCamel (toAsciiCamel s) = toAsciiCamel s := by
  rcases hr : runsP isAlnumA (asciiIgnore (s.data.map trMap)) with _ | ⟨h, t⟩
  · rw [toAsciiCamel_nil s hr]
    rfl
  · have hprops := runsP_mem isAlnumA (asciiIgnore (s.data.map trMap))
    have hh := hprops h (by rw [hr]; exact List.mem_cons_self ..)
    rcases hhd : h with _ | ⟨c0, h2⟩
    · exact absurd rfl (hhd ▸ hh.1)
    have hcstruct : (h.map Char.toLower) ++ (t.map pyTitle).flatten
        = Char.toLower c0 :: ((h2.map Char.toLower) ++ (t.map pyTitle).flatten) := by
      rw [hhd]
      simp
    have he := toAsciiCamel_cons s h t hr
    rw [hcstruct] at he
    simp only [List.isEmpty_cons, Bool.false_eq_true, if_false] at he
    set rest := (h2.map Char.toLower) ++ (t.map pyTitle).flatten with hrest
    have halnum2 : ∀ c ∈ Char.toLower c0 :: rest, isAlnumA c = true := by
      intro c hc
      rcases List.mem_cons.mp hc with rfl | hc2
      · exact toLower_alnum c0 (hh.2 c0 (by rw [hhd]; exact List.mem_cons_self ..))
      · rcases List.mem_append.mp hc2 with hc3 | hc4
        · obtain ⟨d, hd, rfl⟩ := List.mem_map.mp hc3
          exact toLower_alnum d (hh.2 d (by rw [hhd]; exact List.mem_cons_of_mem _ hd))
        · obtain ⟨fr, hfr, hcfr⟩ := List.mem_flatten.mp hc4
          obtain ⟨fr0, hfr0, rfl⟩ := List.mem_map.mp hfr
          have hfr0props := hprops fr0 (by rw [hr]; exact List.mem_cons_of_mem _ hfr0)
          exact pyTitleGo_alnum fr0 hfr0props.2 false c hcfr
    have hnou : ∀ c ∈ Char.toLower c0 :: rest, c.isUpper = false := by
      by_cases hup : (Char.toLower c0 :: rest).any (·.isUpper) = true
      · exfalso
        rw [he] at hq hn
        by_cases hd : (Char.toLower c0).isDigit = true
        · rw [digitUpperQuirk_cons] at hq
          rw [hd, hup] at hq
          exact Bool.noConfusion hq
        · have halc0 := halnum2 (Char.toLower c0) (List.mem_cons_self ..)
          have hupc0 := toLower_isUpper_false c0
          have hlc0 : (Char.toLower c0).isLower = true := by
            rcases Bool.or_eq_true_iff.mp halc0 with ha | hdg
            · rcases Bool.or_eq_true_iff.mp ha with hu2 | hl2
              · rw [hupc0] at hu2
                exact Bool.noConfusion hu2
              · exact hl2
            · exact absurd hdg hd
          have hrestup : rest.any (·.isUpper) = true := by
            rw [List.any_cons] at hup
            rcases Bool.or_eq_true_iff.mp hup with h1 | h2
            · exact Bool.noConfusion (hupc0 ▸ h1)
            · exact h2
          rw [isLowerCamelCase_cons, hlc0, hrestup] at hn
          exact Bool.noConfusion hn
      · intro c hc
        have := List.any_eq_false.mp (bool_false_of_not_true hup) c hc
        exact bool_false_of_not_true this
    rw [he]
    exact toAsciiCamel_fix ⟨Char.toLower c0 :: rest⟩ (by simp) halnum2 hnou

theorem colRename_fix (s : String) (h : digitUpperQuirk (colRename s) = false) :
    colRename (colRename s) = colRename s := by
  unfold colRename at h ⊢
  by_cases hlcc : isLowerCamelCase s = true
  · rw [if_pos hlcc, if_pos hlcc]
  · rw [if_neg hlcc] at h ⊢
    by_cases hlcc2 : isLowerCamelCase (toAsciiCamel s) = true
    · rw [if_pos hlcc2]
    · rw [if_neg hlcc2]
      exact toAsciiCamel_image_fix s h (bool_false_of_not_true hlcc2)

/-- C6 (amended): the column-renaming normalization is idempotent on every
table whose normalized column names do not both start with a digit and
contain an uppercase letter. (The excluded family exists because Python's
`str.title()` uppercases a letter that follows a digit, while a second
camelization lowercases the whole fragment — see the counterexample.) -/
theorem normaliseColumns_idempotent (df : Df)
    (h : ∀ c ∈ df.cols, digitUpperQuirk (colRename c.name) = false) :
    normaliseColumns (normaliseColumns df) = normaliseColumns df := by
  unfold normaliseColumns
  simp only [List.map_map]
  congr 1
  apply List.map_congr_left
  intro c hc
  have hfix := colRename_fix c.name (h c hc)
  simp only [Function.comp_apply]
  rw [hfix]

/-- C6 witness: idempotence applied at a concrete table with a Turkish
column header. -/
theorem normaliseColumns_idempotent_witness :
    normaliseColumns (normaliseColumns ⟨[⟨"Acente Kodu", .object, []⟩]⟩)
      = normaliseColumns ⟨[⟨"Acente Kodu", .object, []⟩]⟩ :=
  normaliseColumns_idempotent ⟨[⟨"Acente Kodu", .object, []⟩]⟩ (by
    intro c hc
    rw [List.mem_singleton] at hc
    subst hc
    decide)

/-- C6 counterexample: for the column name "4a 5b" one normalization yields
"4a5B" (`str.title()` uppercases the letter after the digit) but a second
normalization yields "4a5b", so applying the renaming twice differs from
applying it once. -/
theorem normaliseColumns_not_idempotent :
    normaliseColumns (normaliseColumns ⟨[⟨"4a 5b", .object, []⟩]⟩)
      ≠ normaliseColumns ⟨[⟨"4a 5b", .object, []⟩]⟩ := by decide

/-- C5 witness: the amended pagination theorem applied at a concrete 3-row
table with page size 2 and the out-of-range page 5 for `_paginate`. -/
theorem pagination_c5_witness :
    colValsAt ((paginateRS ⟨[⟨"a", .object, [.i 1, .i 2, .i 3]⟩]⟩ 5 2).1) 0 = [] :=
  (pagination_c5 ⟨[⟨"a", .object, [.i 1, .i 2, .i 3]⟩]⟩ 2 5 0
      (by
        intro c hc
        rw [List.mem_singleton] at hc
        subst hc
        rfl)
      (by decide)).2.1 (by decide)

theorem find?_first {α : Type} (p : α → Bool) : ∀ (l : List α) (i : Nat) (a : α),
    l[i]? = some a → p a = true →
    (∀ j b, j < i → l[j]? = some b → p b = false) → l.find? p = some a := by
  intro l
  induction l with
  | nil =>
    intro i a ha
    simp at ha
  | cons x xs ih =>
    intro i a ha hp hfirst
    cases i with
    | zero =>
      simp at ha
      subst ha
      rw [List.find?_cons, hp]
    | succ n =>
      have hx : p x = false := hfirst 0 x (Nat.succ_pos n) (by simp)
      rw [List.find?_cons, hx]
      exact ih n a (by simpa using ha) hp
        (fun j b hj hb => hfirst (j + 1) b (by omega) (by simpa using hb))

theorem normaliseAgency_name (c : Column) :
    ((fun c : Column =>
      if normAgencyHint c.name then
        if c.dtype = Dtype.numeric then
          { c with dtype := Dtype.object, vals := c.vals.map normaliseAgencyVal }
        else
          { c with dtype := Dtype.object, vals := c.vals.map (fun v => Val.s (pyStr v)) }
      else c) c).name = c.name := by
  by_cases h1 : normAgencyHint c.name <;> by_cases h2 : c.dtype = Dtype.numeric <;>
    simp [h1, h2]

/-- C7: agency-code scoping round-trip. (a) normalization renders the numeric
agency value 100100.0 as the string "100100" with no decimal point, while the
raw float would stringify as "100100.0"; (b) after normalization, filtering by
an entity code keeps exactly the rows whose (stringified) agency value in the
first hint-matching column equals the code; (c) a table with no agency-hint
column passes through entity-code filtering unchanged. -/
theorem agency_roundtrip_c7 (df : Df) (code : String) (i : Nat) (c : Column)
    (hci : df.cols[i]? = some c)
    (hfirst : ∀ j c2, j < i → df.cols[j]? = some c2 → filterAgencyHint c2.name = false)
    (hhint : filterAgencyHint c.name = true)
    (hnorm : normAgencyHint c.name = true)
    (hdtype : c.dtype = Dtype.numeric) :
    (filterByAgency (normaliseAgencyCodeColumns df) (some code)
      = filterRows (normaliseAgencyCodeColumns df)
          (c.vals.map (fun v => pyStr (normaliseAgencyVal v) == code)))
    ∧ pyStr (normaliseAgencyVal (Val.f 100100)) = "100100"
    ∧ pyStr (Val.f 100100) = "100100.0"
    ∧ (∀ df2 : Df, (∀ c2 ∈ df2.cols, filterAgencyHint c2.name = false) →
        filterByAgency df2 (some code) = df2) := by
  refine ⟨?_, by decide, by decide, ?_⟩
  · have hmapped : (normaliseAgencyCodeColumns df).cols[i]? =
        some { c with dtype := Dtype.object, vals := c.vals.map normaliseAgencyVal } := by
      unfold normaliseAgencyCodeColumns
      rw [List.getElem?_map, hci]
      simp [hnorm, hdtype]
    have hfind : (normaliseAgencyCodeColumns df).cols.find? (fun c2 => filterAgencyHint c2.name)
        = some { c with dtype := Dtype.object, vals := c.vals.map normaliseAgencyVal } := by
      apply find?_first _ _ i _ hmapped (by simpa using hhint)
      intro j b hj hb
      unfold normaliseAgencyCodeColumns at hb
      rw [List.getElem?_map] at hb
      cases hcj : df.cols[j]? with
      | none => rw [hcj] at hb; exact Option.noConfusion hb
      | some c2 =>
        rw [hcj] at hb
        have hname : b.name = c2.name := by
          have := normaliseAgency_name c2
          injection hb with hb2
          rw [← hb2]
          exact this
        rw [hname]
        exact hfirst j c2 hj hcj
    unfold filterByAgency
    rw [hfind]
    show filterRows (normaliseAgencyCodeColumns df)
        ((c.vals.map normaliseAgencyVal).map (fun v => pyStr v == code))
      = filterRows (normaliseAgencyCodeColumns df)
          (c.vals.map (fun v => pyStr (normaliseAgencyVal v) == code))
    rw [List.map_map]
    rfl
  · intro df2 hno
    unfold filterByAgency
    rw [List.find?_eq_none.mpr (fun c2 hc2 => by simp [hno c2 hc2])]

/-- C7 witness: the round trip at a concrete table whose numeric agency
column holds 100100.0, 5.0 and NaN — exactly the 100100.0 row survives. -/
theorem agency_roundtrip_c7_witness :
    filterByAgency
        (normaliseAgencyCodeColumns ⟨[⟨"Acente Kodu", .numeric, [.f 100100, .f 5, .nan]⟩]⟩)
        (some "100100")
      = filterRows
          (normaliseAgencyCodeColumns ⟨[⟨"Acente Kodu", .numeric, [.f 100100, .f 5, .nan]⟩]⟩)
          [true, false, false] :=
  ((agency_roundtrip_c7 ⟨[⟨"Acente Kodu", .numeric, [.f 100100, .f 5, .nan]⟩]⟩ "100100" 0
      ⟨"Acente Kodu", .numeric, [.f 100100, .f 5, .nan]⟩ rfl
      (fun j c2 hj _ => absurd hj (Nat.not_lt_zero j))
      (by decide) (by decide) rfl).1).trans (by decide)

theorem colNames_filterRows (df : Df) (mask : List Bool) :
    colNames (filterRows df mask) = colNames df := by
  unfold colNames filterRows
  rw [List.map_map]
  rfl

theorem colNames_filterDateRange (df : Df) (col : String) (b e : Option String) :
    colNames (filterDateRange df col b e) = colNames df := by
  unfold filterDateRange
  split
  · rfl
  · exact colNames_filterRows ..

theorem colNames_filterExact (df : Df) (col value : String) :
    colNames (filterExact df col value) = colNames df := by
  unfold filterExact
  split
  · rfl
  · split
    · split
      · exact colNames_filterRows ..
      · rfl
    · exact colNames_filterRows ..
    · exact colNames_filterRows ..

theorem colNames_foldl {β : Type} (step : Df → β → Df)
    (h : ∀ acc b, colNames (step acc b) = colNames acc) :
    ∀ (l : List β) (acc : Df), colNames (l.foldl step acc) = colNames acc := by
  intro l
  induction l with
  | nil => intro acc; rfl
  | cons x xs ih =>
    intro acc
    rw [List.foldl_cons, ih, h]

theorem colNames_dateStep (fs : List (String × String)) (acc : Df) (col : String) :
    colNames (dateStep fs acc col) = colNames acc := by
  unfold dateStep
  split
  · split
    · exact colNames_filterDateRange ..
    · rfl
  · rfl

theorem colNames_exactStep (acc : Df) (kv : String × String) :
    colNames (exactStep acc kv) = colNames acc := by
  unfold exactStep
  split
  · rfl
  · apply colNames_foldl
    intro acc2 col
    show colNames (if pyLowerS col == kv.1 then filterExact acc2 col kv.2 else acc2)
      = colNames acc2
    split
    · exact colNames_filterExact ..
    · rfl

theorem foldl_congr_steps {β : Type} (f g : Df → β → Df) (l : List β)
    (h : ∀ acc b, b ∈ l → f acc b = g acc b) : ∀ acc, l.foldl f acc = l.foldl g acc := by
  induction l with
  | nil => intro acc; rfl
  | cons x xs ih =>
    intro acc
    rw [List.foldl_cons, List.foldl_cons, h acc x (by simp)]
    exact ih (fun acc b hb => h acc b (by simp [hb])) _

theorem foldl_id_steps {β : Type} (f : Df → β → Df) (l : List β)
    (h : ∀ acc b, b ∈ l → f acc b = acc) : ∀ acc, l.foldl f acc = acc := by
  induction l with
  | nil => intro acc; rfl
  | cons x xs ih =>
    intro acc
    rw [List.foldl_cons, h acc x (by simp)]
    exact ih (fun acc b hb => h acc b (by simp [hb])) _

theorem sdictGet_append_ne (d : List (String × String)) (k v key : String)
    (h : (key == k) = false) : sdictGet (d ++ [(k, v)]) key = sdictGet d key := by
  unfold sdictGet
  rw [List.find?_append]
  rcases hf : d.find? (fun p => p.1 == key) with _ | p
  · rw [hf, Option.none_or]
    have hne : (k == key) = false := by
      simp only [beq_eq_false_iff_ne] at h ⊢
      exact fun he => h he.symm
    simp [List.find?_cons, hne]
  · rw [hf]
    rfl

theorem lowerKeys_append (fs : List (String × String)) (k v : String) :
    lowerKeys (fs ++ [(k, v)]) = sdictInsert (lowerKeys fs) (pyLowerS k) v := by
  unfold lowerKeys
  rw [List.foldl_append]
  rfl

theorem sdictInsert_new (d : List (String × String)) (k v : String)
    (h : d.any (fun p => p.1 == k) = false) : sdictInsert d k v = d ++ [(k, v)] := by
  unfold sdictInsert
  rw [if_neg]
  rw [h]
  exact Bool.false_ne_true

/-- C8 (amended): a filter key that matches no column case-insensitively AND
is not one of the recognized date-range parameter names (`<datecol>_beg_date`
/ `<datecol>_end_date`) is dropped by the in-memory filter: the result equals
applying the same filters with that key omitted. Likewise the SQL WHERE
builder drops any parameter whose base column is not in the catalog column
list, leaving clause and bind parameters unchanged. (A date-range key such as
`begdate_beg_date` also matches no column, yet does filter — see the
counterexample — which is the one correction to the claim.) -/
theorem unknown_filter_key_c8 (df : Df) (filters : List (String × String)) (k v : String)
    (hnocol : ∀ col ∈ colNames df, (pyLowerS col == pyLowerS k) = false)
    (hnodate : dateRangeKeys.contains (pyLowerS k) = false)
    (hnew : (lowerKeys filters).any (fun p => p.1 == pyLowerS k) = false)
    (cols : List String) (qparams : List (String × String)) (k2 v2 : String)
    (hk2 : cols.contains (parseSuffix k2).1 = false) :
    applyFilters df (filters ++ [(k, v)]) = applyFilters df filters
    ∧ buildWhereClause cols (qparams ++ [(k2, v2)]) = buildWhereClause cols qparams := by
  constructor
  · have hkeyne : ∀ key ∈ dateRangeKeys, (key == pyLowerS k) = false := by
      intro key hkey
      rw [beq_eq_false_iff_ne]
      intro he
      subst he
      have h2 : dateRangeKeys.contains (pyLowerS k) = true := List.elem_eq_true_of_mem hkey
      rw [h2] at hnodate
      exact Bool.noConfusion hnodate
    unfold applyFilters
    rw [lowerKeys_append, sdictInsert_new _ _ _ hnew]
    have hdf : DATE_COLUMN_LIST.foldl (dateStep (lowerKeys filters ++ [(pyLowerS k, v)])) df
        = DATE_COLUMN_LIST.foldl (dateStep (lowerKeys filters)) df := by
      apply foldl_congr_steps
      intro acc col hcol
      unfold dateStep
      rw [sdictGet_append_ne _ _ _ _ (hkeyne _ (List.mem_append_left _
            (List.mem_map.mpr ⟨col, hcol, rfl⟩)))]
      rw [sdictGet_append_ne _ _ _ _ (hkeyne _ (List.mem_append_right _
            (List.mem_map.mpr ⟨col, hcol, rfl⟩)))]
    rw [hdf, List.foldl_append]
    have hnames : colNames ((lowerKeys filters).foldl exactStep
        (DATE_COLUMN_LIST.foldl (dateStep (lowerKeys filters)) df)) = colNames df := by
      rw [colNames_foldl exactStep colNames_exactStep,
        colNames_foldl (dateStep (lowerKeys filters)) (colNames_dateStep _)]
    rw [show ∀ (b : Df), List.foldl exactStep b [(pyLowerS k, v)] = exactStep b (pyLowerS k, v)
        from fun b => rfl]
    unfold exactStep
    rw [if_neg (by rw [hnodate]; exact Bool.false_ne_true)]
    apply foldl_id_steps
    intro acc2 col hcol
    have hcol2 : col ∈ colNames ((lowerKeys filters).foldl exactStep
        (DATE_COLUMN_LIST.foldl (dateStep (lowerKeys filters)) df)) := hcol
    rw [hnames] at hcol2
    have hfalse : (pyLowerS col == pyLowerS k) = false := hnocol col hcol2
    show (if pyLowerS col == pyLowerS k then filterExact acc2 col v else acc2) = acc2
    rw [hfalse]
    rfl
  · unfold buildWhereClause
    rw [List.foldl_append]
    rw [show ∀ (a : List String × List String),
        List.foldl (whereStep cols) a [(k2, v2)] = whereStep cols a (k2, v2) from fun a => rfl]
    have hstep : ∀ a, whereStep cols a (k2, v2) = a := by
      intro a
      unfold whereStep
      split_ifs with h1 h2 h3 h4
      · rfl
      · exact absurd h2 (by
          show ¬ (cols.contains (parseSuffix k2).1 = true)
          rw [hk2]
          exact Bool.noConfusion)
      · exact absurd h2 (by
          show ¬ (cols.contains (parseSuffix k2).1 = true)
          rw [hk2]
          exact Bool.noConfusion)
      · exact absurd h2 (by
          show ¬ (cols.contains (parseSuffix k2).1 = true)
          rw [hk2]
          exact Bool.noConfusion)
      · rfl
    rw [hstep]

/-- C8 witness: an unknown key `doesnotexist=foo` added to a valid in-memory
filter, and to a valid SQL parameter set, leaves both results unchanged. -/
theorem unknown_filter_key_c8_witness :
    applyFilters ⟨[⟨"city", .object, [.s "ankara", .s "izmir"]⟩]⟩
        ([("city", "ankara")] ++ [("doesnotexist", "foo")])
      = applyFilters ⟨[⟨"city", .object, [.s "ankara", .s "izmir"]⟩]⟩ [("city", "ankara")]
    ∧ buildWhereClause ["price"] ([("price_gte", "10")] ++ [("doesnotexist", "foo")])
      = buildWhereClause ["price"] [("price_gte", "10")] :=
  unknown_filter_key_c8 ⟨[⟨"city", .object, [.s "ankara", .s "izmir"]⟩]⟩
    [("city", "ankara")] "doesnotexist" "foo"
    (by
      intro col hcol
      rw [show colNames ⟨[⟨"city", .object, [.s "ankara", .s "izmir"]⟩]⟩ = ["city"] from rfl,
        List.mem_singleton] at hcol
      subst hcol
      decide)
    (by decide) (by decide)
    ["price"] [("price_gte", "10")] "doesnotexist" "foo" (by decide)

/-- C8 counterexample: the filter key `begdate_beg_date` matches no column of
a table with column `begDate` (case-insensitive comparison of the full key),
yet `apply_filters` does not ignore it: it drives an inclusive date-range
filter on `begDate` and removes rows, so the result differs from omitting the
key. -/
theorem applyFilters_unknown_key_counterexample :
    ((⟨[⟨"begDate", .object, [.s "01/01/1990"]⟩]⟩ : Df).cols.map
        (fun c => pyLowerS c.name)).contains (pyLowerS "begdate_beg_date") = false
    ∧ applyFilters ⟨[⟨"begDate", .object, [.s "01/01/1990"]⟩]⟩
        [("begdate_beg_date", "01/01/2020")]
      ≠ applyFilters ⟨[⟨"begDate", .object, [.s "01/01/1990"]⟩]⟩ [] :=
  ⟨by decide, by decide⟩

/-- C10: the read path never writes to the cache. For every invocation of
`get_report_payload` — cache hit, daily-policy miss with live fetch, or any
error — the Redis state after the call is exactly the state before it, so
cache entries and metadata change only through the batch refresher. -/
theorem get_report_payload_never_writes_c10
    (config : List (String × CVal)) (pgFetch : TableRef → Except String Df)
    (mstrFetch : String → CVal → List (String × String) → String → Except String Df)
    (connResult : Except String Unit) (reportName : String)
    (filters : List (String × String)) (infoType : String)
    (page pageSize : Int) (agencyCode : Option String) (st : CacheSt) :
    (getReportPayload config pgFetch mstrFetch connResult reportName filters
      infoType page pageSize agencyCode st).2 = st := rfl

theorem cacheLookup_nil (ck : String) : cacheLookup [] ck = Option.none := rfl

theorem cacheLookup_allEmpty (st : CacheSt) (h : allCachedEmpty st = true)
    (ck : String) : cacheLookup st ck = Option.none := by
  unfold cacheLookup
  cases hg : redisGet st ck with
  | none => rfl
  | some v =>
    cases v with
    | meta m => rfl
    | df d =>
      have hd : dfEmpty d = true := by
        unfold redisGet at hg
        cases hf : st.find? (fun p => p.1 == ck) with
        | none => rw [hf] at hg; exact Option.noConfusion hg
        | some p =>
          rw [hf] at hg
          have hg2 : p.2 = RVal.df d := by
            have h3 : some p.2 = some (RVal.df d) := hg
            exact Option.some.inj h3
          have hmem := List.mem_of_find?_eq_some hf
          unfold allCachedEmpty at h
          rw [List.all_eq_true] at h
          have h2 := h p hmem
          rw [hg2] at h2
          exact h2
      show (if dfEmpty d = true then Option.none else some d) = Option.none
      rw [hd]
      simp

theorem payloadForCfg_empty_cache
    (pgFetch : TableRef → Except String Df)
    (mstrFetch : String → CVal → List (String × String) → String → Except String Df)
    (connResult : Except String Unit) (reportName : String)
    (filters : List (String × String)) (infoType : String)
    (page pageSize : Int) (agencyCode : Option String) (st : CacheSt)
    (h : allCachedEmpty st = true) (cfg : CVal) :
    payloadForCfg pgFetch mstrFetch connResult reportName filters infoType
      page pageSize agencyCode st cfg
      = payloadForCfg pgFetch mstrFetch connResult reportName filters infoType
        page pageSize agencyCode [] cfg := by
  unfold payloadForCfg
  simp only [cacheLookup_allEmpty st h, cacheLookup_nil]

theorem payloadForCfg_nil_cacheHit
    (pgFetch : TableRef → Except String Df)
    (mstrFetch : String → CVal → List (String × String) → String → Except String Df)
    (connResult : Except String Unit) (reportName : String)
    (filters : List (String × String)) (infoType : String)
    (page pageSize : Int) (agencyCode : Option String) (cfg : CVal) (p : Payload)
    (hp : payloadForCfg pgFetch mstrFetch connResult reportName filters infoType
      page pageSize agencyCode [] cfg = Except.ok p) : p.cacheHit = false := by
  unfold payloadForCfg at hp
  cases hv : validateInfoType cfg infoType with
  | error e => rw [hv] at hp; exact Except.noConfusion hp
  | ok u =>
    rw [hv] at hp
    cases hcp : resolveCachePolicy (some cfg) with
    | error s =>
      have hp2 : (Except.error (RepErr.pyExc s) : Except RepErr Payload) = Except.ok p := by
        rw [hcp] at hp; exact hp
      exact Except.noConfusion hp2
    | ok cp =>
      rw [hcp] at hp
      cases hdp : resolveDataPolicy cfg with
      | error s =>
        have hp2 : (Except.error (RepErr.pyExc s) : Except RepErr Payload) = Except.ok p := by
          rw [hdp] at hp; exact hp
        exact Except.noConfusion hp2
      | ok dp =>
        rw [hdp] at hp
        have hK : (if (cp == CACHE_POLICY_DAILY) then
            cacheLookup ([] : CacheSt) (cacheKeyFor reportName infoType dp)
            else (Option.none : Option Df)) = Option.none := by
          rw [cacheLookup_nil]; exact ite_self _
        have hp3 : (match (if (cp == CACHE_POLICY_DAILY) then
              cacheLookup ([] : CacheSt) (cacheKeyFor reportName infoType dp)
              else (Option.none : Option Df)) with
            | some d => (Except.ok (finishPayload reportName filters infoType page pageSize
                agencyCode cp dp (if (cp == CACHE_POLICY_DAILY) then
                  cacheLookup ([] : CacheSt) (cacheKeyFor reportName infoType dp)
                  else (Option.none : Option Df)) d) : Except RepErr Payload)
            | Option.none => Except.bind
                (fetchRemote pgFetch mstrFetch connResult reportName cfg infoType filters)
                (fun df => Except.ok (finishPayload reportName filters infoType page pageSize
                  agencyCode cp dp (if (cp == CACHE_POLICY_DAILY) then
                    cacheLookup ([] : CacheSt) (cacheKeyFor reportName infoType dp)
                    else (Option.none : Option Df)) df))) = Except.ok p := hp
        rw [hK] at hp3
        have hp4 : Except.bind
            (fetchRemote pgFetch mstrFetch connResult reportName cfg infoType filters)
            (fun df => Except.ok (finishPayload reportName filters infoType page pageSize
              agencyCode cp dp Option.none df)) = Except.ok p := hp3
        cases hfr : fetchRemote pgFetch mstrFetch connResult reportName cfg infoType filters with
        | error e =>
          rw [hfr] at hp4
          have hp5 : (Except.error e : Except RepErr Payload) = Except.ok p := hp4
          exact Except.noConfusion hp5
        | ok d =>
          rw [hfr] at hp4
          have hp5 : Except.ok (finishPayload reportName filters infoType page pageSize
              agencyCode cp dp Option.none d) = Except.ok p := hp4
          have hp6 := Except.ok.inj hp5
          rw [← hp6]
          rfl

/-- C1: an empty cached dataframe is treated as a cache miss. If every
dataframe pickled in the Redis state is empty (in particular the one under
the key the orchestrator reads), `get_report_payload` behaves exactly as it
does on an empty cache — it performs the live source fetch — and any payload
it returns reports `cache_hit = false` rather than zero rows from the
cache. -/
theorem empty_cached_frame_is_miss_c1
    (config : List (String × CVal)) (pgFetch : TableRef → Except String Df)
    (mstrFetch : String → CVal → List (String × String) → String → Except String Df)
    (connResult : Except String Unit) (reportName : String)
    (filters : List (String × String)) (infoType : String)
    (page pageSize : Int) (agencyCode : Option String) (st : CacheSt)
    (h : allCachedEmpty st = true) :
    (getReportPayload config pgFetch mstrFetch connResult reportName filters
        infoType page pageSize agencyCode st).1
      = (getReportPayload config pgFetch mstrFetch connResult reportName filters
        infoType page pageSize agencyCode []).1
    ∧ ∀ p, (getReportPayload config pgFetch mstrFetch connResult reportName filters
        infoType page pageSize agencyCode st).1 = Except.ok p → p.cacheHit = false := by
  have hpe := payloadForCfg_empty_cache pgFetch mstrFetch connResult reportName
    filters infoType page pageSize agencyCode st h
  constructor
  · simp only [getReportPayload]
    simp only [hpe]
  · intro p hp
    simp only [getReportPayload] at hp
    simp only [hpe] at hp
    cases hc : dictGet config reportName with
    | none =>
      rw [hc] at hp
      exact Except.noConfusion hp
    | some c =>
      rw [hc] at hp
      have hpi : (if c.truthy = true then
          payloadForCfg pgFetch mstrFetch connResult reportName filters infoType
            page pageSize agencyCode [] c
          else (Except.error (RepErr.reportNotFound reportName) : Except RepErr Payload))
          = Except.ok p := hp
      cases hct : c.truthy with
      | false =>
        rw [hct] at hpi
        have hp2 : (Except.error (RepErr.reportNotFound reportName) : Except RepErr Payload)
            = Except.ok p := hpi
        exact Except.noConfusion hp2
      | true =>
        rw [hct] at hpi
        have hp2 : payloadForCfg pgFetch mstrFetch connResult reportName filters infoType
            page pageSize agencyCode [] c = Except.ok p := hpi
        exact payloadForCfg_nil_cacheHit pgFetch mstrFetch connResult reportName filters
          infoType page pageSize agencyCode c p hp2

/-- C1 witness: a daily-policy report whose cached frame under
`r:all:summary` is present but empty; the call equals the empty-cache call
and any successful payload has `cache_hit = false`. -/
theorem empty_cached_frame_is_miss_c1_witness :
    allCachedEmpty [("r:all:summary", RVal.df ⟨[⟨"a", Dtype.object, []⟩]⟩)] = true
    ∧ ((getReportPayload
        [("r", CVal.dict [("viz_keys", CVal.dict [("summary", CVal.b true)]),
          ("cache_policy", CVal.s "daily")])]
        (fun _ => Except.error "pg") (fun _ _ _ _ => Except.ok ⟨[⟨"a", Dtype.object, [Val.s "x"]⟩]⟩)
        (Except.ok ()) "r" [] "summary" 1 50 Option.none
        [("r:all:summary", RVal.df ⟨[⟨"a", Dtype.object, []⟩]⟩)]).1
      = (getReportPayload
        [("r", CVal.dict [("viz_keys", CVal.dict [("summary", CVal.b true)]),
          ("cache_policy", CVal.s "daily")])]
        (fun _ => Except.error "pg") (fun _ _ _ _ => Except.ok ⟨[⟨"a", Dtype.object, [Val.s "x"]⟩]⟩)
        (Except.ok ()) "r" [] "summary" 1 50 Option.none []).1
    ∧ ∀ p, (getReportPayload
        [("r", CVal.dict [("viz_keys", CVal.dict [("summary", CVal.b true)]),
          ("cache_policy", CVal.s "daily")])]
        (fun _ => Except.error "pg") (fun _ _ _ _ => Except.ok ⟨[⟨"a", Dtype.object, [Val.s "x"]⟩]⟩)
        (Except.ok ()) "r" [] "summary" 1 50 Option.none
        [("r:all:summary", RVal.df ⟨[⟨"a", Dtype.object, []⟩]⟩)]).1 = Except.ok p
        → p.cacheHit = false) :=
  ⟨by decide,
   empty_cached_frame_is_miss_c1
     [("r", CVal.dict [("viz_keys", CVal.dict [("summary", CVal.b true)]),
       ("cache_policy", CVal.s "daily")])]
     (fun _ => Except.error "pg") (fun _ _ _ _ => Except.ok ⟨[⟨"a", Dtype.object, [Val.s "x"]⟩]⟩)
     (Except.ok ()) "r" [] "summary" 1 50 Option.none
     [("r:all:summary", RVal.df ⟨[⟨"a", Dtype.object, []⟩]⟩)] (by decide)⟩

theorem exIsUnsup_error_congr {α β : Type} (e : RepErr) :
    exIsUnsup (Except.error e : Except RepErr β)
      = exIsUnsup (Except.error e : Except RepErr α) := by
  cases e <;> rfl

theorem exIsUnsup_bind {α β : Type} (x : Except RepErr α) (g : α → Except RepErr β)
    (hx : exIsUnsup x = false) (hg : ∀ a, exIsUnsup (g a) = false) :
    exIsUnsup (x >>= g) = false := by
  cases x with
  | error e =>
    have h2 : (Except.error e >>= g : Except RepErr β) = Except.error e := rfl
    rw [h2, exIsUnsup_error_congr (α := α) e]
    exact hx
  | ok a =>
    have h2 : (Except.ok a >>= g : Except RepErr β) = g a := rfl
    rw [h2]
    exact hg a

theorem exIsUnsup_mapError_py {α : Type} (x : Except String α) :
    exIsUnsup (x.mapError RepErr.pyExc) = false := by
  cases x <;> rfl

theorem exIsUnsup_mapError_fetch {α : Type} (x : Except String α) :
    exIsUnsup (x.mapError RepErr.fetchErr) = false := by
  cases x <;> rfl

theorem fetchRemote_not_unsup (pgFetch : TableRef → Except String Df)
    (mstrFetch : String → CVal → List (String × String) → String → Except String Df)
    (connResult : Except String Unit) (reportName : String) (cfg : CVal)
    (infoType : String) (filters : List (String × String)) :
    exIsUnsup (fetchRemote pgFetch mstrFetch connResult reportName cfg infoType filters)
      = false := by
  unfold fetchRemote
  apply exIsUnsup_bind
  · exact exIsUnsup_mapError_py _
  · intro dp
    split
    · apply exIsUnsup_bind
      · exact exIsUnsup_mapError_py _
      · intro ref0
        cases ref0 with
        | none => rfl
        | some v =>
          cases hvt : v.truthy with
          | false =>
            show exIsUnsup (if v.truthy = true then _ else _) = false
            rw [hvt]
            rfl
          | true =>
            show exIsUnsup (if v.truthy = true then _ else _) = false
            rw [hvt]
            cases v with
            | s w =>
              show exIsUnsup (match parseTableReference (some w) with
                | .error e => (throw (RepErr.pyExc e) : Except RepErr Df)
                | .ok Option.none => throw (RepErr.pyExc "ValueError: postgres_table must be defined")
                | .ok (some ref) => (pgFetch ref).mapError RepErr.fetchErr) = false
              cases hpt : parseTableReference (some w) with
              | error e => rfl
              | ok r =>
                cases r with
                | none => rfl
                | some ref => exact exIsUnsup_mapError_fetch _
            | i n => rfl
            | b bv => rfl
            | pynone => rfl
            | dict d => rfl
            | list l => rfl
    · apply exIsUnsup_bind
      · exact exIsUnsup_mapError_fetch _
      · intro u
        exact exIsUnsup_mapError_fetch _

theorem payloadForCfg_unsup
    (pgFetch : TableRef → Except String Df)
    (mstrFetch : String → CVal → List (String × String) → String → Except String Df)
    (connResult : Except String Unit) (reportName : String)
    (filters : List (String × String)) (infoType : String)
    (page pageSize : Int) (agencyCode : Option String) (st : CacheSt) (cfg : CVal) :
    exIsUnsup (payloadForCfg pgFetch mstrFetch connResult reportName filters infoType
        page pageSize agencyCode st cfg)
      = exIsUnsup (validateInfoType cfg infoType) := by
  unfold payloadForCfg
  cases hv : validateInfoType cfg infoType with
  | error e =>
    exact exIsUnsup_error_congr (α := Unit) e
  | ok u =>
    have hr : exIsUnsup (Except.ok u : Except RepErr Unit) = false := rfl
    rw [hr]
    apply exIsUnsup_bind
    · rfl
    · intro x
      apply exIsUnsup_bind
      · exact exIsUnsup_mapError_py _
      · intro cachePolicy
        apply exIsUnsup_bind
        · exact exIsUnsup_mapError_py _
        · intro dataPolicy
          cases hdf : (if cachePolicy == CACHE_POLICY_DAILY then
              cacheLookup st (cacheKeyFor reportName infoType dataPolicy)
            else (Option.none : Option Df)) with
          | some d => rfl
          | none =>
            apply exIsUnsup_bind
            · exact fetchRemote_not_unsup _ _ _ _ _ _ _
            · intro df
              rfl

/-- C9 (amended): the error contract of the read path. (a) A report name
with no configuration entry raises ReportNotFoundError, mapped to HTTP 404
with an error body; (b) a name that IS present but whose configuration
mapping is falsy (e.g. empty) ALSO raises ReportNotFoundError — so "exactly
when the name is absent" does not hold; (c) with a truthy configuration the
call raises UnsupportedInfoTypeError exactly when `_validate_info_type`
does; (d) for MicroStrategy-backed reports with a dict-shaped `viz_keys`
that is exactly when the requested info_type has no truthy entry there;
(e) for Postgres-backed reports exactly when info_type is not "summary";
(f) UnsupportedInfoTypeError is mapped to HTTP 400. -/
theorem report_error_mapping_c9
    (config : List (String × CVal)) (pgFetch : TableRef → Except String Df)
    (mstrFetch : String → CVal → List (String × String) → String → Except String Df)
    (connResult : Except String Unit) (reportName : String)
    (filters : List (String × String)) (infoType : String)
    (page pageSize : Int) (agencyCode : Option String) (st : CacheSt) :
    (dictGet config reportName = Option.none →
      (getReportPayload config pgFetch mstrFetch connResult reportName filters infoType
          page pageSize agencyCode st).1 = Except.error (RepErr.reportNotFound reportName)
      ∧ fetchReportRoute (getReportPayload config pgFetch mstrFetch connResult reportName
          filters infoType page pageSize agencyCode st).1
        = (404, RouteBody.err "Report not found in configuration."))
    ∧ (∀ c, dictGet config reportName = some c → c.truthy = false →
      (getReportPayload config pgFetch mstrFetch connResult reportName filters infoType
          page pageSize agencyCode st).1 = Except.error (RepErr.reportNotFound reportName))
    ∧ (∀ cfg, dictGet config reportName = some cfg → cfg.truthy = true →
      exIsUnsup (getReportPayload config pgFetch mstrFetch connResult reportName filters
          infoType page pageSize agencyCode st).1
        = exIsUnsup (validateInfoType cfg infoType))
    ∧ (∀ cfg d, resolveDataPolicy cfg = Except.ok DATA_POLICY_MICROSTRATEGY →
      cfgGet cfg "viz_keys" = Except.ok (some (CVal.dict d)) →
      exIsUnsup (validateInfoType cfg infoType) = !(vizTruthy d infoType))
    ∧ (∀ cfg, resolveDataPolicy cfg = Except.ok DATA_POLICY_POSTGRESQL →
      exIsUnsup (validateInfoType cfg infoType) = !(infoType == "summary"))
    ∧ (∀ m, fetchReportRoute (Except.error (RepErr.unsupportedInfoType m))
        = (400, RouteBody.err m)) := by
  refine ⟨?_, ?_, ?_, ?_, ?_, ?_⟩
  · intro h
    have h1 : (getReportPayload config pgFetch mstrFetch connResult reportName filters
        infoType page pageSize agencyCode st).1
        = Except.error (RepErr.reportNotFound reportName) := by
      simp only [getReportPayload]
      rw [h]
      rfl
    exact ⟨h1, by rw [h1]; rfl⟩
  · intro c hc hct
    simp only [getReportPayload]
    rw [hc]
    show (if c.truthy = true then
        Except.bind (Except.ok c : Except RepErr CVal)
          (fun cfg => payloadForCfg pgFetch mstrFetch connResult reportName filters infoType
            page pageSize agencyCode st cfg)
      else Except.bind (Except.error (RepErr.reportNotFound reportName) : Except RepErr CVal)
          (fun cfg => payloadForCfg pgFetch mstrFetch connResult reportName filters infoType
            page pageSize agencyCode st cfg))
      = Except.error (RepErr.reportNotFound reportName)
    rw [hct]
    rfl
  · intro cfg hc hct
    simp only [getReportPayload]
    rw [hc]
    show exIsUnsup (if cfg.truthy = true then
        Except.bind (Except.ok cfg : Except RepErr CVal)
          (fun x => payloadForCfg pgFetch mstrFetch connResult reportName filters infoType
            page pageSize agencyCode st x)
      else Except.bind (Except.error (RepErr.reportNotFound reportName) : Except RepErr CVal)
          (fun x => payloadForCfg pgFetch mstrFetch connResult reportName filters infoType
            page pageSize agencyCode st x))
      = exIsUnsup (validateInfoType cfg infoType)
    rw [hct]
    exact payloadForCfg_unsup pgFetch mstrFetch connResult reportName filters infoType
      page pageSize agencyCode st cfg
  · intro cfg d hdp hvk
    cases d with
    | nil =>
      have h2 : validateInfoType cfg infoType
          = Except.error (RepErr.unsupportedInfoType "Visualization type is not configured.") := by
        unfold validateInfoType
        rw [hdp, hvk]
        rfl
      rw [h2]
      rfl
    | cons p ps =>
      have h2 : validateInfoType cfg infoType = (match dictGet (p :: ps) infoType with
          | some vv => if vv.truthy = true then Except.ok ()
              else Except.error (RepErr.unsupportedInfoType "Visualization type is not configured.")
          | Option.none =>
              Except.error (RepErr.unsupportedInfoType "Visualization type is not configured.")) := by
        unfold validateInfoType
        rw [hdp, hvk]
        rfl
      rw [h2]
      have h3 : vizTruthy (p :: ps) infoType = (match dictGet (p :: ps) infoType with
          | some v => v.truthy
          | Option.none => false) := rfl
      rw [h3]
      cases hdg : dictGet (p :: ps) infoType with
      | none => rfl
      | some v =>
        show exIsUnsup (if v.truthy = true then (Except.ok () : Except RepErr Unit)
            else Except.error (RepErr.unsupportedInfoType "Visualization type is not configured."))
          = !(v.truthy)
        cases hvt : v.truthy with
        | false => rfl
        | true => rfl
  · intro cfg hdp
    have h2 : validateInfoType cfg infoType = (if infoType ≠ "summary" then
        Except.error (RepErr.unsupportedInfoType "Postgres-backed reports only support info_type summary.")
        else Except.ok ()) := by
      unfold validateInfoType
      rw [hdp]
      rfl
    rw [h2]
    by_cases his : infoType = "summary"
    · subst his
      rw [if_neg (fun h => h rfl)]
      rfl
    · rw [if_pos his]
      rw [show (infoType == "summary") = false from beq_eq_false_iff_ne.mpr his]
      rfl
  · intro m
    rfl

/-- C9 witness: the amended error contract applied at concrete inputs — a
missing name gives 404; for a present truthy MicroStrategy config the
UnsupportedInfoType outcome tracks `_validate_info_type`, which tracks the
`viz_keys` entry; a Postgres config rejects exactly non-"summary". -/
theorem report_error_mapping_c9_witness :
    dictGet [("r", CVal.dict [("viz_keys", CVal.dict [("summary", CVal.b true)])])] "q"
      = Option.none
    ∧ fetchReportRoute (getReportPayload
        [("r", CVal.dict [("viz_keys", CVal.dict [("summary", CVal.b true)])])]
        (fun _ => Except.error "pg") (fun _ _ _ _ => Except.error "ms") (Except.ok ())
        "q" [] "summary" 1 50 Option.none []).1
      = (404, RouteBody.err "Report not found in configuration.")
    ∧ (dictGet [("r", CVal.dict [("viz_keys", CVal.dict [("summary", CVal.b true)])])] "r"
        = some (CVal.dict [("viz_keys", CVal.dict [("summary", CVal.b true)])])
      ∧ (CVal.dict [("viz_keys", CVal.dict [("summary", CVal.b true)])]).truthy = true
      ∧ exIsUnsup (getReportPayload
          [("r", CVal.dict [("viz_keys", CVal.dict [("summary", CVal.b true)])])]
          (fun _ => Except.error "pg") (fun _ _ _ _ => Except.error "ms") (Except.ok ())
          "r" [] "detail" 1 50 Option.none []).1
        = exIsUnsup (validateInfoType
            (CVal.dict [("viz_keys", CVal.dict [("summary", CVal.b true)])]) "detail"))
    ∧ (resolveDataPolicy (CVal.dict [("viz_keys", CVal.dict [("summary", CVal.b true)])])
        = Except.ok DATA_POLICY_MICROSTRATEGY
      ∧ cfgGet (CVal.dict [("viz_keys", CVal.dict [("summary", CVal.b true)])]) "viz_keys"
        = Except.ok (some (CVal.dict [("summary", CVal.b true)]))
      ∧ exIsUnsup (validateInfoType
          (CVal.dict [("viz_keys", CVal.dict [("summary", CVal.b true)])]) "detail")
        = !(vizTruthy [("summary", CVal.b true)] "detail"))
    ∧ (resolveDataPolicy (CVal.dict [("data_policy", CVal.s "postgresql")])
        = Except.ok DATA_POLICY_POSTGRESQL
      ∧ exIsUnsup (validateInfoType (CVal.dict [("data_policy", CVal.s "postgresql")]) "detail")
        = !(("detail" : String) == "summary")) := by
  have T1 := report_error_mapping_c9
    [("r", CVal.dict [("viz_keys", CVal.dict [("summary", CVal.b true)])])]
    (fun _ => Except.error "pg") (fun _ _ _ _ => Except.error "ms") (Except.ok ())
    "q" [] "summary" 1 50 Option.none []
  have T2 := report_error_mapping_c9
    [("r", CVal.dict [("viz_keys", CVal.dict [("summary", CVal.b true)])])]
    (fun _ => Except.error "pg") (fun _ _ _ _ => Except.error "ms") (Except.ok ())
    "r" [] "detail" 1 50 Option.none []
  refine ⟨rfl, (T1.1 rfl).2, ⟨rfl, rfl, ?_⟩, ⟨rfl, rfl, ?_⟩, ⟨rfl, ?_⟩⟩
  · exact T2.2.2.1 (CVal.dict [("viz_keys", CVal.dict [("summary", CVal.b true)])]) rfl rfl
  · exact T2.2.2.2.1 (CVal.dict [("viz_keys", CVal.dict [("summary", CVal.b true)])])
      [("summary", CVal.b true)] rfl rfl
  · exact T2.2.2.2.2.1 (CVal.dict [("data_policy", CVal.s "postgresql")]) rfl

/-- C9 counterexample: the report name "r" IS present in the configuration —
`config.get("r")` returns its (empty) mapping — yet `get_report_payload`
raises ReportNotFoundError and the route answers 404, because the code tests
`if not cfg:`; this refutes "fails with ReportNotFound exactly when the
requested report name is absent from the configuration". -/
theorem reportNotFound_despite_present_c9 :
    dictGet [("r", CVal.dict [])] "r" = some (CVal.dict [])
    ∧ (getReportPayload [("r", CVal.dict [])] (fun _ => Except.error "pg")
        (fun _ _ _ _ => Except.error "ms") (Except.ok ()) "r" [] "summary" 1 50
        Option.none []).1 = Except.error (RepErr.reportNotFound "r")
    ∧ fetchReportRoute (getReportPayload [("r", CVal.dict [])] (fun _ => Except.error "pg")
        (fun _ _ _ _ => Except.error "ms") (Except.ok ()) "r" [] "summary" 1 50
        Option.none []).1 = (404, RouteBody.err "Report not found in configuration.") :=
  ⟨rfl, rfl, rfl⟩

theorem redisGet_nil (k : String) : redisGet [] k = Option.none := rfl

theorem redisGet_cons (p : String × RVal) (rest : CacheSt) (k : String) :
    redisGet (p :: rest) k = if (p.1 == k) = true then some p.2 else redisGet rest k := by
  by_cases h : (p.1 == k) = true
  · rw [if_pos h]
    unfold redisGet
    rw [List.find?_cons_of_pos (p := fun q : String × RVal => q.1 == k) _ h]
    rfl
  · rw [if_neg h]
    unfold redisGet
    rw [List.find?_cons_of_neg (p := fun q : String × RVal => q.1 == k) _ h]

theorem redisGet_set_same (st : CacheSt) (k : String) (v : RVal) :
    redisGet (redisSet st k v) k = some v := by
  induction st with
  | nil =>
    unfold redisSet
    rw [redisGet_cons]
    simp
  | cons p rest ih =>
    unfold redisSet
    by_cases h : (p.1 == k) = true
    · rw [if_pos h, redisGet_cons]
      simp
    · rw [if_neg h, redisGet_cons, if_neg h]
      exact ih

theorem redisGet_set_other (st : CacheSt) (k k2 : String) (v : RVal)
    (h : (k == k2) = false) : redisGet (redisSet st k v) k2 = redisGet st k2 := by
  induction st with
  | nil =>
    unfold redisSet
    rw [redisGet_cons, if_neg (by simp [h]), redisGet_nil]
  | cons p rest ih =>
    unfold redisSet
    by_cases hp : (p.1 == k) = true
    · rw [if_pos hp, redisGet_cons, redisGet_cons]
      have hp1 : p.1 = k := eq_of_beq hp
      have h1 : (((k, v) : String × RVal).1 == k2) = false := h
      have h2 : (p.1 == k2) = false := by rw [hp1]; exact h
      rw [h1, h2]
      simp
    · rw [if_neg hp, redisGet_cons, redisGet_cons, ih]

theorem hasKey_rdictInsert {α : Type} (d : List (String × α)) (k : String) (v : α)
    (n : String) : hasKey (rdictInsert d k v) n = (hasKey d n || (k == n)) := by
  induction d with
  | nil =>
    unfold rdictInsert hasKey
    simp
  | cons p rest ih =>
    unfold rdictInsert
    by_cases hp : (p.1 == k) = true
    · rw [if_pos hp]
      unfold hasKey
      rw [List.any_cons, List.any_cons]
      have hp1 : p.1 = k := eq_of_beq hp
      rw [hp1]
      cases hkn : (k == n) <;> cases hr : rest.any (fun q => q.1 == n) <;> simp [hkn, hr]
    · rw [if_neg hp]
      unfold hasKey
      rw [List.any_cons, List.any_cons]
      have ih2 : (rdictInsert rest k v).any (fun q => q.1 == n)
          = (rest.any (fun q => q.1 == n) || (k == n)) := ih
      rw [ih2]
      cases hpn : (p.1 == n) <;> simp

theorem hasKey_errAppend (d : List (String × List String)) (k : String) (msg : String)
    (n : String) : hasKey (errAppend d k msg) n = (hasKey d n || (k == n)) := by
  induction d with
  | nil =>
    unfold errAppend hasKey
    simp
  | cons p rest ih =>
    unfold errAppend
    by_cases hp : (p.1 == k) = true
    · rw [if_pos hp]
      unfold hasKey
      rw [List.any_cons, List.any_cons]
      have hp1 : p.1 = k := eq_of_beq hp
      rw [hp1]
      cases hkn : (k == n) <;> cases hr : rest.any (fun q => q.1 == n) <;> simp [hkn, hr]
    · rw [if_neg hp]
      unfold hasKey
      rw [List.any_cons, List.any_cons]
      have ih2 : (errAppend rest k msg).any (fun q => q.1 == n)
          = (rest.any (fun q => q.1 == n) || (k == n)) := ih
      rw [ih2]
      cases hpn : (p.1 == n) <;> simp

theorem accounted_skipIns (res : RefreshSummary) (k v n : String) :
    accounted { res with skipped := rdictInsert res.skipped k v } n
      = (accounted res n || (k == n)) := by
  show (hasKey res.refreshed n || hasKey (rdictInsert res.skipped k v) n
      || hasKey res.errors n) = _
  unfold accounted
  rw [hasKey_rdictInsert]
  cases hasKey res.refreshed n <;> cases hasKey res.skipped n <;>
    cases hasKey res.errors n <;> cases (k == n) <;> rfl

theorem accounted_refrIns (res : RefreshSummary) (k : String) (m : MetaRec) (n : String) :
    accounted { res with refreshed := rdictInsert res.refreshed k m } n
      = (accounted res n || (k == n)) := by
  show (hasKey (rdictInsert res.refreshed k m) n || hasKey res.skipped n
      || hasKey res.errors n) = _
  unfold accounted
  rw [hasKey_rdictInsert]
  cases hasKey res.refreshed n <;> cases hasKey res.skipped n <;>
    cases hasKey res.errors n <;> cases (k == n) <;> rfl

theorem accounted_errApp (res : RefreshSummary) (k msg n : String) :
    accounted { res with errors := errAppend res.errors k msg } n
      = (accounted res n || (k == n)) := by
  show (hasKey res.refreshed n || hasKey res.skipped n
      || hasKey (errAppend res.errors k msg) n) = _
  unfold accounted
  rw [hasKey_errAppend]
  cases hasKey res.refreshed n <;> cases hasKey res.skipped n <;>
    cases hasKey res.errors n <;> cases (k == n) <;> rfl

theorem accounted_skipErrIns (res : RefreshSummary) (k v : String) (es : List String)
    (n : String) :
    accounted { res with
        skipped := rdictInsert res.skipped k v
        errors := rdictInsert res.errors k es } n
      = (accounted res n || (k == n)) := by
  show (hasKey res.refreshed n || hasKey (rdictInsert res.skipped k v) n
      || hasKey (rdictInsert res.errors k es) n) = _
  unfold accounted
  rw [hasKey_rdictInsert, hasKey_rdictInsert]
  cases hasKey res.refreshed n <;> cases hasKey res.skipped n <;>
    cases hasKey res.errors n <;> cases (k == n) <;> rfl

theorem accounted_refrErrIns (res : RefreshSummary) (k : String) (m : MetaRec)
    (es : List String) (n : String) :
    accounted { res with
        refreshed := rdictInsert res.refreshed k m
        errors := rdictInsert res.errors k es } n
      = (accounted res n || (k == n)) := by
  show (hasKey (rdictInsert res.refreshed k m) n || hasKey res.skipped n
      || hasKey (rdictInsert res.errors k es) n) = _
  unfold accounted
  rw [hasKey_rdictInsert, hasKey_rdictInsert]
  cases hasKey res.refreshed n <;> cases hasKey res.skipped n <;>
    cases hasKey res.errors n <;> cases (k == n) <;> rfl

theorem processFolded_accounted (now name : String)
    (folded : CacheSt × List (String × ITInfo) × List String)
    (res : RefreshSummary) (n : String) :
    accounted (processFolded now name folded res).2 n
      = (accounted res n || (name == n)) := by
  unfold processFolded
  split
  · split
    · exact accounted_skipIns res name _ n
    · exact accounted_skipErrIns res name _ _ n
  · split
    · exact accounted_refrIns res name _ n
    · exact accounted_refrErrIns res name _ _ n

theorem classify_foldl_error (config : List (String × CVal)) (names : List String)
    (s : String) :
    names.foldl (classifyRequested config) (Except.error s) = Except.error s := by
  induction names with
  | nil => rfl
  | cons n rest ih =>
    rw [List.foldl_cons]
    have h : classifyRequested config (Except.error s) n = Except.error s := rfl
    rw [h]
    exact ih

theorem process_foldl_error (fetchCsv : String → String → Except String Df) (now : String)
    (items : List (String × CVal)) (s : String) :
    items.foldl (processReport fetchCsv now) (Except.error s) = Except.error s := by
  induction items with
  | nil => rfl
  | cons p rest ih =>
    rw [List.foldl_cons]
    have h : processReport fetchCsv now (Except.error s) p = Except.error s := rfl
    rw [h]
    exact ih

theorem classify_fold (config : List (String × CVal)) (names : List String) :
    ∀ (tp0 : List (String × CVal)) (res0 : RefreshSummary) (tp : List (String × CVal))
      (res : RefreshSummary),
    names.foldl (classifyRequested config) (Except.ok (tp0, res0)) = Except.ok (tp, res) →
    (∀ n, (accounted res0 n || hasKey tp0 n) = true → (accounted res n || hasKey tp n) = true)
    ∧ (∀ n ∈ names, (accounted res n || hasKey tp n) = true) := by
  induction names with
  | nil =>
    intro tp0 res0 tp res hrun
    rw [List.foldl_nil] at hrun
    have h2 := Except.ok.inj hrun
    injection h2 with h3 h4
    subst h3
    subst h4
    exact ⟨fun n hn => hn, fun n hn => absurd hn (List.not_mem_nil n)⟩
  | cons m rest ih =>
    intro tp0 res0 tp res hrun
    rw [List.foldl_cons] at hrun
    cases hd : dictGet config m with
    | none =>
      have hstep : classifyRequested config (Except.ok (tp0, res0)) m
          = Except.ok (tp0, { res0 with
              errors := errAppend res0.errors m "Report not defined in configuration." }) := by
        unfold classifyRequested
        rw [hd]
        rfl
      rw [hstep] at hrun
      obtain ⟨ihm, ihn⟩ := ih tp0 _ tp res hrun
      constructor
      · intro n hn
        apply ihm
        rw [accounted_errApp]
        cases h1 : accounted res0 n <;> cases h2 : hasKey tp0 n <;>
          cases h3 : (m == n) <;> simp_all
      · intro n hn
        rw [List.mem_cons] at hn
        cases hn with
        | inl he =>
          subst he
          apply ihm
          rw [accounted_errApp]
          simp
        | inr he => exact ihn n he
    | some cfg =>
      cases hpol : resolveCachePolicy (some cfg) with
      | error s =>
        have hstep : classifyRequested config (Except.ok (tp0, res0)) m = Except.error s := by
          unfold classifyRequested
          rw [hd]
          show (Except.bind (resolveCachePolicy (some cfg)) (fun policy =>
              if (policy == CACHE_POLICY_DAILY) = true then
                pure (rdictInsert tp0 m cfg, res0)
              else pure (tp0, { res0 with skipped := (rdictInsert res0.skipped m
                  ("cache_policy is " ++ policy ++ ", refresh ignored.")) })))
            = Except.error s
          rw [hpol]
          rfl
        rw [hstep, classify_foldl_error] at hrun
        exact Except.noConfusion hrun
      | ok policy =>
        cases hp : (policy == CACHE_POLICY_DAILY) with
        | true =>
          have hstep : classifyRequested config (Except.ok (tp0, res0)) m
              = Except.ok (rdictInsert tp0 m cfg, res0) := by
            unfold classifyRequested
            rw [hd]
            show (Except.bind (resolveCachePolicy (some cfg)) (fun policy =>
                if (policy == CACHE_POLICY_DAILY) = true then
                  pure (rdictInsert tp0 m cfg, res0)
                else pure (tp0, { res0 with skipped := (rdictInsert res0.skipped m
                    ("cache_policy is " ++ policy ++ ", refresh ignored.")) })))
              = Except.ok (rdictInsert tp0 m cfg, res0)
            rw [hpol]
            show (if (policy == CACHE_POLICY_DAILY) = true then
                (pure (rdictInsert tp0 m cfg, res0) : Except String (List (String × CVal) × RefreshSummary))
              else pure (tp0, { res0 with skipped := (rdictInsert res0.skipped m
                  ("cache_policy is " ++ policy ++ ", refresh ignored.")) }))
              = Except.ok (rdictInsert tp0 m cfg, res0)
            rw [hp]
            rfl
          rw [hstep] at hrun
          obtain ⟨ihm, ihn⟩ := ih _ _ tp res hrun
          constructor
          · intro n hn
            apply ihm
            rw [hasKey_rdictInsert]
            cases h1 : accounted res0 n <;> cases h2 : hasKey tp0 n <;>
              cases h3 : (m == n) <;> simp_all
          · intro n hn
            rw [List.mem_cons] at hn
            cases hn with
            | inl he =>
              subst he
              apply ihm
              rw [hasKey_rdictInsert]
              simp
            | inr he => exact ihn n he
        | false =>
          have hstep : classifyRequested config (Except.ok (tp0, res0)) m
              = Except.ok (tp0, { res0 with skipped := (rdictInsert res0.skipped m
                  ("cache_policy is " ++ policy ++ ", refresh ignored.")) }) := by
            unfold classifyRequested
            rw [hd]
            show (Except.bind (resolveCachePolicy (some cfg)) (fun policy =>
                if (policy == CACHE_POLICY_DAILY) = true then
                  pure (rdictInsert tp0 m cfg, res0)
                else pure (tp0, { res0 with skipped := (rdictInsert res0.skipped m
                    ("cache_policy is " ++ policy ++ ", refresh ignored.")) })))
              = Except.ok (tp0, { res0 with skipped := (rdictInsert res0.skipped m
                  ("cache_policy is " ++ policy ++ ", refresh ignored.")) })
            rw [hpol]
            show (if (policy == CACHE_POLICY_DAILY) = true then
                (pure (rdictInsert tp0 m cfg, res0) : Except String (List (String × CVal) × RefreshSummary))
              else pure (tp0, { res0 with skipped := (rdictInsert res0.skipped m
                  ("cache_policy is " ++ policy ++ ", refresh ignored.")) }))
              = Except.ok (tp0, { res0 with skipped := (rdictInsert res0.skipped m
                  ("cache_policy is " ++ policy ++ ", refresh ignored.")) })
            rw [hp]
            rfl
          rw [hstep] at hrun
          obtain ⟨ihm, ihn⟩ := ih tp0 _ tp res hrun
          constructor
          · intro n hn
            apply ihm
            rw [accounted_skipIns]
            cases h1 : accounted res0 n <;> cases h2 : hasKey tp0 n <;>
              cases h3 : (m == n) <;> simp_all
          · intro n hn
            rw [List.mem_cons] at hn
            cases hn with
            | inl he =>
              subst he
              apply ihm
              rw [accounted_skipIns]
              simp
            | inr he => exact ihn n he

theorem process_fold (fetchCsv : String → String → Except String Df) (now : String)
    (items : List (String × CVal)) :
    ∀ (st0 : CacheSt) (res0 : RefreshSummary) (st : CacheSt) (res : RefreshSummary),
    items.foldl (processReport fetchCsv now) (Except.ok (st0, res0)) = Except.ok (st, res) →
    (∀ n, accounted res0 n = true → accounted res n = true)
    ∧ (∀ p ∈ items, accounted res p.1 = true) := by
  induction items with
  | nil =>
    intro st0 res0 st res hrun
    rw [List.foldl_nil] at hrun
    have h2 := Except.ok.inj hrun
    injection h2 with h3 h4
    subst h3
    subst h4
    exact ⟨fun n hn => hn, fun p hp => absurd hp (List.not_mem_nil p)⟩
  | cons item rest ih =>
    intro st0 res0 st res hrun
    rw [List.foldl_cons] at hrun
    cases hit : infoTypesOf item.2 with
    | error s =>
      have hstep : processReport fetchCsv now (Except.ok (st0, res0)) item
          = Except.error s := by
        unfold processReport
        rw [hit]
        rfl
      rw [hstep, process_foldl_error] at hrun
      exact Except.noConfusion hrun
    | ok its =>
      cases hemp : its.isEmpty with
      | true =>
        have hstep : processReport fetchCsv now (Except.ok (st0, res0)) item
            = Except.ok (st0, { res0 with skipped := (rdictInsert res0.skipped item.1
                "No viz_keys defined for caching.") }) := by
          unfold processReport
          rw [hit]
          show (if its.isEmpty = true then
              (pure (st0, { res0 with skipped := (rdictInsert res0.skipped item.1
                "No viz_keys defined for caching.") }) : Except String (CacheSt × RefreshSummary))
            else pure (processFolded now item.1
              (its.foldl (infoTypeStep fetchCsv item.1) (st0, [], [])) res0))
            = Except.ok (st0, { res0 with skipped := (rdictInsert res0.skipped item.1
                "No viz_keys defined for caching.") })
          rw [hemp]
          rfl
        rw [hstep] at hrun
        obtain ⟨ihm, ihn⟩ := ih st0 _ st res hrun
        constructor
        · intro n hn
          apply ihm
          rw [accounted_skipIns, hn]
          rfl
        · intro p hp
          rw [List.mem_cons] at hp
          cases hp with
          | inl he =>
            subst he
            apply ihm
            rw [accounted_skipIns]
            simp
          | inr he => exact ihn p he
      | false =>
        have hstep : processReport fetchCsv now (Except.ok (st0, res0)) item
            = Except.ok (processFolded now item.1
                (its.foldl (infoTypeStep fetchCsv item.1) (st0, [], [])) res0) := by
          unfold processReport
          rw [hit]
          show (if its.isEmpty = true then
              (pure (st0, { res0 with skipped := (rdictInsert res0.skipped item.1
                "No viz_keys defined for caching.") }) : Except String (CacheSt × RefreshSummary))
            else pure (processFolded now item.1
              (its.foldl (infoTypeStep fetchCsv item.1) (st0, [], [])) res0))
            = Except.ok (processFolded now item.1
                (its.foldl (infoTypeStep fetchCsv item.1) (st0, [], [])) res0)
          rw [hemp]
          rfl
        rw [hstep] at hrun
        have hpair : (processFolded now item.1
            (its.foldl (infoTypeStep fetchCsv item.1) (st0, [], [])) res0)
            = ((processFolded now item.1
                (its.foldl (infoTypeStep fetchCsv item.1) (st0, [], [])) res0).1,
               (processFolded now item.1
                (its.foldl (infoTypeStep fetchCsv item.1) (st0, [], [])) res0).2) := rfl
        rw [hpair] at hrun
        obtain ⟨ihm, ihn⟩ := ih _ _ st res hrun
        constructor
        · intro n hn
          apply ihm
          rw [processFolded_accounted, hn]
          rfl
        · intro p hp
          rw [List.mem_cons] at hp
          cases hp with
          | inl he =>
            subst he
            apply ihm
            rw [processFolded_accounted]
            simp
          | inr he => exact ihn p he

theorem connfail_fold (items : List (String × CVal)) :
    ∀ (res0 : RefreshSummary),
    (∀ n, accounted res0 n = true →
      accounted (items.foldl (fun r p =>
        { r with errors := errAppend r.errors p.1 "MicroStrategy connection unavailable." })
        res0) n = true)
    ∧ (∀ p ∈ items,
      accounted (items.foldl (fun r p2 =>
        { r with errors := errAppend r.errors p2.1 "MicroStrategy connection unavailable." })
        res0) p.1 = true) := by
  induction items with
  | nil =>
    intro res0
    exact ⟨fun n hn => hn, fun p hp => absurd hp (List.not_mem_nil p)⟩
  | cons item rest ih =>
    intro res0
    rw [List.foldl_cons]
    obtain ⟨ihm, ihn⟩ := ih ({ res0 with
      errors := errAppend res0.errors item.1 "MicroStrategy connection unavailable." })
    constructor
    · intro n hn
      apply ihm
      rw [accounted_errApp, hn]
      rfl
    · intro p hp
      rw [List.mem_cons] at hp
      cases hp with
      | inl he =>
        subst he
        apply ihm
        rw [accounted_errApp]
        simp
      | inr he => exact ihn p he

theorem rdictInsert_isEmpty {α : Type} (d : List (String × α)) (k : String) (v : α) :
    (rdictInsert d k v).isEmpty = false := by
  cases d with
  | nil => rfl
  | cons p rest =>
    unfold rdictInsert
    by_cases h : (p.1 == k) = true
    · rw [if_pos h]
      rfl
    · rw [if_neg h]
      rfl

theorem infoTypeStep_ok (fetchCsv : String → String → Except String Df) (r : String)
    (st0 : CacheSt) (m0 : List (String × ITInfo)) (e0 : List String) (it : String)
    (d : Df) (hf : fetchCsv r it = Except.ok d) :
    infoTypeStep fetchCsv r (st0, m0, e0) it
      = (redisSet st0 (buildCacheKey r it) (RVal.df (refresherNormalizeAgency (camelCols d))),
         rdictInsert m0 it ⟨nRows (refresherNormalizeAgency (camelCols d)),
           colNames (refresherNormalizeAgency (camelCols d)), buildCacheKey r it⟩,
         e0) := by
  unfold infoTypeStep
  rw [hf]

theorem infoTypeStep_err (fetchCsv : String → String → Except String Df) (r : String)
    (st0 : CacheSt) (m0 : List (String × ITInfo)) (e0 : List String) (it : String)
    (e : String) (hf : fetchCsv r it = Except.error e) :
    infoTypeStep fetchCsv r (st0, m0, e0) it = (st0, m0, e0 ++ [it ++ ": " ++ e]) := by
  unfold infoTypeStep
  rw [hf]

theorem its_fold_errs (fetchCsv : String → String → Except String Df) (r : String) :
    ∀ (its : List String) (st0 : CacheSt) (m0 : List (String × ITInfo)) (e0 : List String),
    (its.foldl (infoTypeStep fetchCsv r) (st0, m0, e0)).2.2 = e0 ++ errsOf fetchCsv r its := by
  intro its
  induction its with
  | nil =>
    intro st0 m0 e0
    rw [List.foldl_nil]
    show e0 = e0 ++ errsOf fetchCsv r []
    rw [show errsOf fetchCsv r [] = [] from rfl, List.append_nil]
  | cons it rest ih =>
    intro st0 m0 e0
    rw [List.foldl_cons]
    cases hf : fetchCsv r it with
    | ok d =>
      rw [infoTypeStep_ok fetchCsv r st0 m0 e0 it d hf, ih]
      have he0 : errsOf fetchCsv r (it :: rest) = (match fetchCsv r it with
          | Except.ok a => errsOf fetchCsv r rest
          | Except.error e2 => (it ++ ": " ++ e2) :: errsOf fetchCsv r rest) := rfl
      have he : errsOf fetchCsv r (it :: rest) = errsOf fetchCsv r rest := by
        rw [he0, hf]
      rw [he]
    | error e =>
      rw [infoTypeStep_err fetchCsv r st0 m0 e0 it e hf, ih]
      have he0 : errsOf fetchCsv r (it :: rest) = (match fetchCsv r it with
          | Except.ok a => errsOf fetchCsv r rest
          | Except.error e2 => (it ++ ": " ++ e2) :: errsOf fetchCsv r rest) := rfl
      have he : errsOf fetchCsv r (it :: rest) = (it ++ ": " ++ e) :: errsOf fetchCsv r rest := by
        rw [he0, hf]
      rw [he, List.append_assoc, List.singleton_append]

theorem its_fold_meta_nonempty (fetchCsv : String → String → Except String Df) (r : String) :
    ∀ (its : List String) (st0 : CacheSt) (m0 : List (String × ITInfo)) (e0 : List String),
    m0.isEmpty = false →
    ((its.foldl (infoTypeStep fetchCsv r) (st0, m0, e0)).2.1).isEmpty = false := by
  intro its
  induction its with
  | nil =>
    intro st0 m0 e0 h
    exact h
  | cons it rest ih =>
    intro st0 m0 e0 h
    rw [List.foldl_cons]
    cases hf : fetchCsv r it with
    | ok d =>
      rw [infoTypeStep_ok fetchCsv r st0 m0 e0 it d hf]
      exact ih _ _ _ (rdictInsert_isEmpty m0 it _)
    | error e =>
      rw [infoTypeStep_err fetchCsv r st0 m0 e0 it e hf]
      exact ih _ _ _ h

theorem its_fold_meta_empty (fetchCsv : String → String → Except String Df) (r : String) :
    ∀ (its : List String) (st0 : CacheSt) (e0 : List String),
    ((its.foldl (infoTypeStep fetchCsv r) (st0, [], e0)).2.1).isEmpty
      = its.all (fun it => !(exOk (fetchCsv r it))) := by
  intro its
  induction its with
  | nil =>
    intro st0 e0
    rfl
  | cons it rest ih =>
    intro st0 e0
    rw [List.foldl_cons]
    cases hf : fetchCsv r it with
    | ok d =>
      rw [infoTypeStep_ok fetchCsv r st0 [] e0 it d hf]
      have hm := its_fold_meta_nonempty fetchCsv r rest
        (redisSet st0 (buildCacheKey r it) (RVal.df (refresherNormalizeAgency (camelCols d))))
        (rdictInsert [] it ⟨nRows (refresherNormalizeAgency (camelCols d)),
          colNames (refresherNormalizeAgency (camelCols d)), buildCacheKey r it⟩)
        e0 (rdictInsert_isEmpty [] it _)
      rw [hm]
      have ha : (it :: rest).all (fun it2 => !(exOk (fetchCsv r it2))) = false := by
        simp only [List.all_cons]
        rw [hf]
        rfl
      rw [ha]
    | error e =>
      rw [infoTypeStep_err fetchCsv r st0 [] e0 it e hf, ih]
      have ha : (it :: rest).all (fun it2 => !(exOk (fetchCsv r it2)))
          = rest.all (fun it2 => !(exOk (fetchCsv r it2))) := by
        simp only [List.all_cons]
        rw [hf]
        rfl
      rw [ha]

theorem its_fold_frame (fetchCsv : String → String → Except String Df) (r : String) :
    ∀ (its : List String) (st0 : CacheSt) (m0 : List (String × ITInfo)) (e0 : List String)
      (k : String),
    (∀ it ∈ its, (buildCacheKey r it == k) = false) →
    redisGet (its.foldl (infoTypeStep fetchCsv r) (st0, m0, e0)).1 k = redisGet st0 k := by
  intro its
  induction its with
  | nil =>
    intro st0 m0 e0 k h
    rfl
  | cons it rest ih =>
    intro st0 m0 e0 k h
    rw [List.foldl_cons]
    cases hf : fetchCsv r it with
    | ok d =>
      rw [infoTypeStep_ok fetchCsv r st0 m0 e0 it d hf]
      rw [ih _ _ _ k (fun it2 hm => h it2 (List.mem_cons_of_mem it hm))]
      exact redisGet_set_other st0 _ k _ (h it (List.mem_cons_self it rest))
    | error e =>
      rw [infoTypeStep_err fetchCsv r st0 m0 e0 it e hf]
      exact ih _ _ _ k (fun it2 hm => h it2 (List.mem_cons_of_mem it hm))

theorem its_fold_allfail_state (fetchCsv : String → String → Except String Df) (r : String) :
    ∀ (its : List String) (st0 : CacheSt) (m0 : List (String × ITInfo)) (e0 : List String),
    (∀ it ∈ its, exOk (fetchCsv r it) = false) →
    (its.foldl (infoTypeStep fetchCsv r) (st0, m0, e0)).1 = st0 := by
  intro its
  induction its with
  | nil =>
    intro st0 m0 e0 h
    rfl
  | cons it rest ih =>
    intro st0 m0 e0 h
    rw [List.foldl_cons]
    cases hf : fetchCsv r it with
    | ok d =>
      have h2 := h it (List.mem_cons_self it rest)
      rw [hf] at h2
      exact Bool.noConfusion h2
    | error e =>
      rw [infoTypeStep_err fetchCsv r st0 m0 e0 it e hf]
      exact ih _ _ _ (fun it2 hm => h it2 (List.mem_cons_of_mem it hm))

theorem buildCacheKey_inj (r a b : String) (h : buildCacheKey r a = buildCacheKey r b) :
    a = b := by
  unfold buildCacheKey at h
  have h2 : (r ++ ":all:").data ++ a.data = (r ++ ":all:").data ++ b.data := by
    rw [← String.data_append (r ++ ":all:") a, ← String.data_append (r ++ ":all:") b, h]
  exact String.ext (List.append_cancel_left h2)

theorem metaKey_ne_dataKey (r a : String) : (metaKeyR r == buildCacheKey r a) = false := by
  apply beq_eq_false_iff_ne.mpr
  intro h
  have h3 : (metaKeyR r).data = (buildCacheKey r a).data := by rw [h]
  unfold metaKeyR buildCacheKey at h3
  rw [String.data_append r ":meta", String.data_append (r ++ ":all:") a,
    String.data_append r ":all:", List.append_assoc] at h3
  have h4 := List.append_cancel_left h3
  have h5 : (':' :: 'm' :: 'e' :: 't' :: 'a' :: [] : List Char)
      = ':' :: 'a' :: 'l' :: 'l' :: ':' :: a.data := h4
  injection h5 with h6 h7
  injection h7 with h8 h9
  exact absurd h8 (by decide)

theorem its_fold_read (fetchCsv : String → String → Except String Df) (r : String) :
    ∀ (its : List String), its.Nodup →
    ∀ (st0 : CacheSt) (m0 : List (String × ITInfo)) (e0 : List String) (it : String) (d : Df),
    it ∈ its → fetchCsv r it = Except.ok d →
    redisGet (its.foldl (infoTypeStep fetchCsv r) (st0, m0, e0)).1 (buildCacheKey r it)
      = some (RVal.df (refresherNormalizeAgency (camelCols d))) := by
  intro its
  induction its with
  | nil =>
    intro hnd st0 m0 e0 it d hmem hfd
    exact absurd hmem (List.not_mem_nil it)
  | cons it0 rest ih =>
    intro hnd st0 m0 e0 it d hmem hfd
    rw [List.nodup_cons] at hnd
    rw [List.foldl_cons]
    rw [List.mem_cons] at hmem
    cases hmem with
    | inl he =>
      subst he
      rw [infoTypeStep_ok fetchCsv r st0 m0 e0 it d hfd]
      rw [its_fold_frame fetchCsv r rest _ _ _ (buildCacheKey r it) ?hfr]
      · exact redisGet_set_same st0 (buildCacheKey r it) _
      case hfr =>
        intro it2 hm2
        apply beq_eq_false_iff_ne.mpr
        intro heq
        exact hnd.1 (buildCacheKey_inj r it2 it heq ▸ hm2)
    | inr he =>
      cases hf0 : fetchCsv r it0 with
      | ok d0 =>
        rw [infoTypeStep_ok fetchCsv r st0 m0 e0 it0 d0 hf0]
        exact ih hnd.2 _ _ _ it d he hfd
      | error e =>
        rw [infoTypeStep_err fetchCsv r st0 m0 e0 it0 e hf0]
        exact ih hnd.2 _ _ _ it d he hfd

theorem refreshFullReports_shape (config : List (String × CVal))
    (fetchCsv : String → String → Except String Df) (connResult : Except String Unit)
    (now : String) (names : List String) (st : CacheSt) (dl : List (String × CVal))
    (tp : List (String × CVal)) (res1 : RefreshSummary)
    (hdl : dailyReportsOf config = Except.ok dl)
    (hcl : names.foldl (classifyRequested config)
      (Except.ok ([], (⟨names, [], [], []⟩ : RefreshSummary))) = Except.ok (tp, res1)) :
    refreshFullReports config fetchCsv connResult now (some names) st
      = (if tp.isEmpty then Except.ok (res1, st)
         else match connResult with
           | Except.error e => Except.ok (tp.foldl (fun r p =>
               { r with errors := errAppend r.errors p.1 "MicroStrategy connection unavailable." })
               res1, st)
           | Except.ok u =>
             Except.bind (tp.foldl (processReport fetchCsv now) (Except.ok (st, res1)))
               (fun stres => Except.ok (stres.2, stres.1))) := by
  unfold refreshFullReports
  rw [hdl]
  show (Except.bind (names.foldl (classifyRequested config)
      (Except.ok ([], (⟨names, [], [], []⟩ : RefreshSummary))))
    (fun tpres =>
      if tpres.1.isEmpty then Except.ok (tpres.2, st)
      else match connResult with
        | Except.error e => Except.ok (tpres.1.foldl (fun r p =>
            { r with errors := errAppend r.errors p.1 "MicroStrategy connection unavailable." })
            tpres.2, st)
        | Except.ok u =>
          Except.bind (tpres.1.foldl (processReport fetchCsv now) (Except.ok (st, tpres.2)))
            (fun stres => Except.ok (stres.2, stres.1)))) = _
  rw [hcl]
  rfl

theorem refreshFullReports_classify_error (config : List (String × CVal))
    (fetchCsv : String → String → Except String Df) (connResult : Except String Unit)
    (now : String) (names : List String) (st : CacheSt) (dl : List (String × CVal))
    (s : String)
    (hdl : dailyReportsOf config = Except.ok dl)
    (hcl : names.foldl (classifyRequested config)
      (Except.ok ([], (⟨names, [], [], []⟩ : RefreshSummary))) = Except.error s) :
    refreshFullReports config fetchCsv connResult now (some names) st = Except.error s := by
  unfold refreshFullReports
  rw [hdl]
  show (Except.bind (names.foldl (classifyRequested config)
      (Except.ok ([], (⟨names, [], [], []⟩ : RefreshSummary))))
    (fun tpres =>
      if tpres.1.isEmpty then Except.ok (tpres.2, st)
      else match connResult with
        | Except.error e => Except.ok (tpres.1.foldl (fun r p =>
            { r with errors := errAppend r.errors p.1 "MicroStrategy connection unavailable." })
            tpres.2, st)
        | Except.ok u =>
          Except.bind (tpres.1.foldl (processReport fetchCsv now) (Except.ok (st, tpres.2)))
            (fun stres => Except.ok (stres.2, stres.1)))) = Except.error s
  rw [hcl]
  rfl

theorem errsOf_isEmpty (fetchCsv : String → String → Except String Df) (r : String) :
    ∀ (its : List String),
    (errsOf fetchCsv r its).isEmpty = its.all (fun it => exOk (fetchCsv r it)) := by
  intro its
  induction its with
  | nil => rfl
  | cons it rest ih =>
    have he0 : errsOf fetchCsv r (it :: rest) = (match fetchCsv r it with
        | Except.ok a => errsOf fetchCsv r rest
        | Except.error e2 => (it ++ ": " ++ e2) :: errsOf fetchCsv r rest) := rfl
    cases hf : fetchCsv r it with
    | ok d =>
      rw [he0, hf]
      simp only [List.all_cons]
      rw [hf, ih]
      rfl
    | error e =>
      rw [he0, hf]
      simp only [List.all_cons]
      rw [hf]
      rfl

theorem any_not_eq_not_all (p : String → Bool) : ∀ (l : List String),
    l.any (fun x => !(p x)) = !(l.all p) := by
  intro l
  induction l with
  | nil => rfl
  | cons a rest ih =>
    simp only [List.any_cons, List.all_cons]
    rw [ih]
    cases p a <;> cases rest.all p <;> rfl

theorem hasKey_exists {α : Type} (d : List (String × α)) (n : String)
    (h : hasKey d n = true) : ∃ p ∈ d, p.1 = n := by
  unfold hasKey at h
  rw [List.any_eq_true] at h
  obtain ⟨p, hp, he⟩ := h
  exact ⟨p, hp, eq_of_beq he⟩

/-- C2: the refresh batch never aborts because one report's source fetch
fails. (a) Whenever a run over an explicit report set returns a summary,
every requested name is accounted for in `refreshed`, `skipped` or `errors`.
(b) For two configured daily reports A ≠ B where every fetch of A throws and
every fetch of B succeeds, the run over {A, B} completes, puts B in
`refreshed` and A in `errors`, and B's camelized, agency-normalized frames
are written to Redis under `B:all:<info_type>`. -/
theorem refresh_never_aborts_c2
    (config : List (String × CVal)) (fetchCsv : String → String → Except String Df)
    (connResult : Except String Unit) (now : String) (names : List String)
    (res : RefreshSummary) (st st2 : CacheSt)
    (A B : String) (cfgA cfgB : CVal) (itsA itsB : List String)
    (dl : List (String × CVal))
    (hrun : refreshFullReports config fetchCsv connResult now (some names) st
      = Except.ok (res, st2))
    (hAB : (A == B) = false)
    (hdl : dailyReportsOf config = Except.ok dl)
    (hA : dictGet config A = some cfgA) (hB : dictGet config B = some cfgB)
    (hpolA : resolveCachePolicy (some cfgA) = Except.ok CACHE_POLICY_DAILY)
    (hpolB : resolveCachePolicy (some cfgB) = Except.ok CACHE_POLICY_DAILY)
    (hitsA : infoTypesOf cfgA = Except.ok itsA) (hitsB : infoTypesOf cfgB = Except.ok itsB)
    (hneA : itsA.isEmpty = false) (hneB : itsB.isEmpty = false)
    (hndB : itsB.Nodup)
    (hfa : ∀ it ∈ itsA, exOk (fetchCsv A it) = false)
    (hfb : ∀ it ∈ itsB, exOk (fetchCsv B it) = true) :
    (∀ n ∈ names, accounted res n = true)
    ∧ (∃ res2 st3,
        refreshFullReports config fetchCsv (Except.ok ()) now (some [A, B]) st
          = Except.ok (res2, st3)
        ∧ hasKey res2.refreshed B = true
        ∧ hasKey res2.errors A = true
        ∧ ∀ it d, it ∈ itsB → fetchCsv B it = Except.ok d →
            redisGet st3 (buildCacheKey B it)
              = some (RVal.df (refresherNormalizeAgency (camelCols d)))) := by
  constructor
  · -- (a) accounting
    cases hcl : names.foldl (classifyRequested config)
        (Except.ok ([], (⟨names, [], [], []⟩ : RefreshSummary))) with
    | error s =>
      rw [refreshFullReports_classify_error config fetchCsv connResult now names st dl s
        hdl hcl] at hrun
      exact Except.noConfusion hrun
    | ok pr =>
      obtain ⟨tp, res1⟩ := pr
      rw [refreshFullReports_shape config fetchCsv connResult now names st dl tp res1
        hdl hcl] at hrun
      obtain ⟨clmono, clall⟩ := classify_fold config names []
        (⟨names, [], [], []⟩ : RefreshSummary) tp res1 hcl
      cases hemp : tp.isEmpty with
      | true =>
        rw [hemp] at hrun
        have hrun2 : (Except.ok (res1, st) : Except String (RefreshSummary × CacheSt))
            = Except.ok (res, st2) := hrun
        have h2 := Except.ok.inj hrun2
        injection h2 with h3 h4
        intro n hn
        have hc := clall n hn
        have htp : tp = [] := List.isEmpty_iff.mp hemp
        rw [htp] at hc
        rw [show hasKey ([] : List (String × CVal)) n = false from rfl, Bool.or_false] at hc
        rw [← h3]
        exact hc
      | false =>
        rw [hemp] at hrun
        cases hconn : connResult with
        | error ce =>
          rw [hconn] at hrun
          have hrun2 : (Except.ok (tp.foldl (fun r p => { r with
              errors := errAppend r.errors p.1 "MicroStrategy connection unavailable." })
              res1, st) : Except String (RefreshSummary × CacheSt))
              = Except.ok (res, st2) := hrun
          have h2 := Except.ok.inj hrun2
          injection h2 with h3 h4
          obtain ⟨cfmono, cfall⟩ := connfail_fold tp res1
          intro n hn
          have hc := clall n hn
          cases horr : accounted res1 n with
          | true =>
            rw [← h3]
            exact cfmono n horr
          | false =>
            rw [horr, Bool.false_or] at hc
            obtain ⟨p, hp, hpn⟩ := hasKey_exists tp n hc
            rw [← h3, ← hpn]
            exact cfall p hp
        | ok u =>
          rw [hconn] at hrun
          cases hpf : tp.foldl (processReport fetchCsv now) (Except.ok (st, res1)) with
          | error s2 =>
            rw [hpf] at hrun
            exact Except.noConfusion hrun
          | ok pr2 =>
            obtain ⟨stp, resp⟩ := pr2
            rw [hpf] at hrun
            have hrun2 : (Except.ok (resp, stp) : Except String (RefreshSummary × CacheSt))
                = Except.ok (res, st2) := hrun
            have h2 := Except.ok.inj hrun2
            injection h2 with h3 h4
            obtain ⟨pfmono, pfall⟩ := process_fold fetchCsv now tp st res1 stp resp hpf
            intro n hn
            have hc := clall n hn
            cases horr : accounted res1 n with
            | true =>
              rw [← h3]
              exact pfmono n horr
            | false =>
              rw [horr, Bool.false_or] at hc
              obtain ⟨p, hp, hpn⟩ := hasKey_exists tp n hc
              rw [← h3, ← hpn]
              exact pfall p hp
  · -- (b) the two-report scenario
    have hstepA : classifyRequested config
        (Except.ok ([], (⟨[A, B], [], [], []⟩ : RefreshSummary))) A
        = Except.ok ([(A, cfgA)], (⟨[A, B], [], [], []⟩ : RefreshSummary)) := by
      unfold classifyRequested
      rw [hA]
      show (Except.bind (resolveCachePolicy (some cfgA)) (fun policy =>
          if (policy == CACHE_POLICY_DAILY) = true then
            pure (rdictInsert [] A cfgA, (⟨[A, B], [], [], []⟩ : RefreshSummary))
          else pure ([], { (⟨[A, B], [], [], []⟩ : RefreshSummary) with
            skipped := (rdictInsert [] A
              ("cache_policy is " ++ policy ++ ", refresh ignored.")) })))
        = Except.ok ([(A, cfgA)], (⟨[A, B], [], [], []⟩ : RefreshSummary))
      rw [hpolA]
      rfl
    have hriB : rdictInsert [(A, cfgA)] B cfgB = [(A, cfgA), (B, cfgB)] := by
      unfold rdictInsert
      have hc : (((A, cfgA) : String × CVal).1 == B) = false := hAB
      rw [hc]
      rfl
    have hstepB : classifyRequested config
        (Except.ok ([(A, cfgA)], (⟨[A, B], [], [], []⟩ : RefreshSummary))) B
        = Except.ok ([(A, cfgA), (B, cfgB)], (⟨[A, B], [], [], []⟩ : RefreshSummary)) := by
      unfold classifyRequested
      rw [hB]
      show (Except.bind (resolveCachePolicy (some cfgB)) (fun policy =>
          if (policy == CACHE_POLICY_DAILY) = true then
            pure (rdictInsert [(A, cfgA)] B cfgB, (⟨[A, B], [], [], []⟩ : RefreshSummary))
          else pure ([(A, cfgA)], { (⟨[A, B], [], [], []⟩ : RefreshSummary) with
            skipped := (rdictInsert [] B
              ("cache_policy is " ++ policy ++ ", refresh ignored.")) })))
        = Except.ok ([(A, cfgA), (B, cfgB)], (⟨[A, B], [], [], []⟩ : RefreshSummary))
      rw [hpolB]
      show (pure (rdictInsert [(A, cfgA)] B cfgB, (⟨[A, B], [], [], []⟩ : RefreshSummary))
          : Except String (List (String × CVal) × RefreshSummary))
        = Except.ok ([(A, cfgA), (B, cfgB)], (⟨[A, B], [], [], []⟩ : RefreshSummary))
      rw [hriB]
      rfl
    have hcl2 : [A, B].foldl (classifyRequested config)
        (Except.ok ([], (⟨[A, B], [], [], []⟩ : RefreshSummary)))
        = Except.ok ([(A, cfgA), (B, cfgB)], (⟨[A, B], [], [], []⟩ : RefreshSummary)) := by
      rw [List.foldl_cons, hstepA, List.foldl_cons, hstepB, List.foldl_nil]
    have hallA : itsA.all (fun it => !(exOk (fetchCsv A it))) = true :=
      List.all_eq_true.mpr (fun it hm => by rw [hfa it hm]; rfl)
    have hmA : ((itsA.foldl (infoTypeStep fetchCsv A) (st, [], [])).2.1).isEmpty = true := by
      rw [its_fold_meta_empty fetchCsv A itsA st []]
      exact hallA
    have hsA : (itsA.foldl (infoTypeStep fetchCsv A) (st, [], [])).1 = st :=
      its_fold_allfail_state fetchCsv A itsA st [] [] hfa
    have heA : (itsA.foldl (infoTypeStep fetchCsv A) (st, [], [])).2.2
        = [] ++ errsOf fetchCsv A itsA := its_fold_errs fetchCsv A itsA st [] []
    have heAne : (errsOf fetchCsv A itsA).isEmpty = false := by
      rw [errsOf_isEmpty]
      cases hits0 : itsA with
      | nil =>
        rw [hits0] at hneA
        exact Bool.noConfusion hneA
      | cons it0 restA =>
        simp only [List.all_cons]
        rw [hfa it0 (by rw [hits0]; exact List.mem_cons_self it0 restA)]
        rfl
    have hPA : processFolded now A (itsA.foldl (infoTypeStep fetchCsv A) (st, [], []))
        (⟨[A, B], [], [], []⟩ : RefreshSummary)
        = (st, (⟨[A, B], [], [(A, "All info types failed to refresh.")],
            [(A, errsOf fetchCsv A itsA)]⟩ : RefreshSummary)) := by
      unfold processFolded
      rw [hmA, heA, List.nil_append, heAne, hsA]
      rfl
    have hprA : processReport fetchCsv now
        (Except.ok (st, (⟨[A, B], [], [], []⟩ : RefreshSummary))) (A, cfgA)
        = Except.ok (st, (⟨[A, B], [], [(A, "All info types failed to refresh.")],
            [(A, errsOf fetchCsv A itsA)]⟩ : RefreshSummary)) := by
      unfold processReport
      rw [show infoTypesOf ((A, cfgA) : String × CVal).2 = Except.ok itsA from hitsA]
      show (if itsA.isEmpty = true then
          (pure (st, { (⟨[A, B], [], [], []⟩ : RefreshSummary) with
            skipped := rdictInsert [] A "No viz_keys defined for caching." })
            : Except String (CacheSt × RefreshSummary))
        else pure (processFolded now A (itsA.foldl (infoTypeStep fetchCsv A) (st, [], []))
          (⟨[A, B], [], [], []⟩ : RefreshSummary)))
        = Except.ok (st, (⟨[A, B], [], [(A, "All info types failed to refresh.")],
            [(A, errsOf fetchCsv A itsA)]⟩ : RefreshSummary))
      rw [hneA, hPA]
      rfl
    have hmB : ((itsB.foldl (infoTypeStep fetchCsv B) (st, [], [])).2.1).isEmpty = false := by
      rw [its_fold_meta_empty fetchCsv B itsB st []]
      cases hits0 : itsB with
      | nil =>
        rw [hits0] at hneB
        exact Bool.noConfusion hneB
      | cons it0 restB =>
        simp only [List.all_cons]
        rw [hfb it0 (by rw [hits0]; exact List.mem_cons_self it0 restB)]
        rfl
    have heB : (itsB.foldl (infoTypeStep fetchCsv B) (st, [], [])).2.2
        = [] ++ errsOf fetchCsv B itsB := its_fold_errs fetchCsv B itsB st [] []
    have heBe : (errsOf fetchCsv B itsB).isEmpty = true := by
      rw [errsOf_isEmpty]
      exact List.all_eq_true.mpr (fun it hm => hfb it hm)
    have hPB : processFolded now B (itsB.foldl (infoTypeStep fetchCsv B) (st, [], []))
        (⟨[A, B], [], [(A, "All info types failed to refresh.")],
          [(A, errsOf fetchCsv A itsA)]⟩ : RefreshSummary)
        = (redisSet (itsB.foldl (infoTypeStep fetchCsv B) (st, [], [])).1 (metaKeyR B)
            (RVal.meta ⟨B, now, (itsB.foldl (infoTypeStep fetchCsv B) (st, [], [])).2.1,
              CACHE_POLICY_DAILY, false⟩),
           (⟨[A, B], [(B, ⟨B, now, (itsB.foldl (infoTypeStep fetchCsv B) (st, [], [])).2.1,
              CACHE_POLICY_DAILY, false⟩)],
            [(A, "All info types failed to refresh.")],
            [(A, errsOf fetchCsv A itsA)]⟩ : RefreshSummary)) := by
      unfold processFolded
      rw [hmB, heB, List.nil_append, heBe]
      rfl
    have hprB : processReport fetchCsv now
        (Except.ok (st, (⟨[A, B], [], [(A, "All info types failed to refresh.")],
          [(A, errsOf fetchCsv A itsA)]⟩ : RefreshSummary))) (B, cfgB)
        = Except.ok (redisSet (itsB.foldl (infoTypeStep fetchCsv B) (st, [], [])).1 (metaKeyR B)
            (RVal.meta ⟨B, now, (itsB.foldl (infoTypeStep fetchCsv B) (st, [], [])).2.1,
              CACHE_POLICY_DAILY, false⟩),
           (⟨[A, B], [(B, ⟨B, now, (itsB.foldl (infoTypeStep fetchCsv B) (st, [], [])).2.1,
              CACHE_POLICY_DAILY, false⟩)],
            [(A, "All info types failed to refresh.")],
            [(A, errsOf fetchCsv A itsA)]⟩ : RefreshSummary)) := by
      unfold processReport
      rw [show infoTypesOf ((B, cfgB) : String × CVal).2 = Except.ok itsB from hitsB]
      show (if itsB.isEmpty = true then
          (pure (st, { (⟨[A, B], [], [(A, "All info types failed to refresh.")],
            [(A, errsOf fetchCsv A itsA)]⟩ : RefreshSummary) with
            skipped := rdictInsert [(A, "All info types failed to refresh.")] B
              "No viz_keys defined for caching." })
            : Except String (CacheSt × RefreshSummary))
        else pure (processFolded now B (itsB.foldl (infoTypeStep fetchCsv B) (st, [], []))
          (⟨[A, B], [], [(A, "All info types failed to refresh.")],
            [(A, errsOf fetchCsv A itsA)]⟩ : RefreshSummary)))
        = Except.ok (redisSet (itsB.foldl (infoTypeStep fetchCsv B) (st, [], [])).1 (metaKeyR B)
            (RVal.meta ⟨B, now, (itsB.foldl (infoTypeStep fetchCsv B) (st, [], [])).2.1,
              CACHE_POLICY_DAILY, false⟩),
           (⟨[A, B], [(B, ⟨B, now, (itsB.foldl (infoTypeStep fetchCsv B) (st, [], [])).2.1,
              CACHE_POLICY_DAILY, false⟩)],
            [(A, "All info types failed to refresh.")],
            [(A, errsOf fetchCsv A itsA)]⟩ : RefreshSummary))
      rw [hneB, hPB]
      rfl
    have hpf2 : [(A, cfgA), (B, cfgB)].foldl (processReport fetchCsv now)
        (Except.ok (st, (⟨[A, B], [], [], []⟩ : RefreshSummary)))
        = Except.ok (redisSet (itsB.foldl (infoTypeStep fetchCsv B) (st, [], [])).1 (metaKeyR B)
            (RVal.meta ⟨B, now, (itsB.foldl (infoTypeStep fetchCsv B) (st, [], [])).2.1,
              CACHE_POLICY_DAILY, false⟩),
           (⟨[A, B], [(B, ⟨B, now, (itsB.foldl (infoTypeStep fetchCsv B) (st, [], [])).2.1,
              CACHE_POLICY_DAILY, false⟩)],
            [(A, "All info types failed to refresh.")],
            [(A, errsOf fetchCsv A itsA)]⟩ : RefreshSummary)) := by
      rw [List.foldl_cons, hprA, List.foldl_cons, hprB, List.foldl_nil]
    refine ⟨(⟨[A, B], [(B, ⟨B, now, (itsB.foldl (infoTypeStep fetchCsv B) (st, [], [])).2.1,
        CACHE_POLICY_DAILY, false⟩)],
        [(A, "All info types failed to refresh.")],
        [(A, errsOf fetchCsv A itsA)]⟩ : RefreshSummary),
      redisSet (itsB.foldl (infoTypeStep fetchCsv B) (st, [], [])).1 (metaKeyR B)
        (RVal.meta ⟨B, now, (itsB.foldl (infoTypeStep fetchCsv B) (st, [], [])).2.1,
          CACHE_POLICY_DAILY, false⟩), ?_, ?_, ?_, ?_⟩
    · rw [refreshFullReports_shape config fetchCsv (Except.ok ()) now [A, B] st dl
        [(A, cfgA), (B, cfgB)] (⟨[A, B], [], [], []⟩ : RefreshSummary) hdl hcl2]
      show (Except.bind ([(A, cfgA), (B, cfgB)].foldl (processReport fetchCsv now)
          (Except.ok (st, (⟨[A, B], [], [], []⟩ : RefreshSummary))))
        (fun stres => Except.ok (stres.2, stres.1))) = _
      rw [hpf2]
      rfl
    · simp [hasKey]
    · simp [hasKey]
    · intro it d hm hfd
      rw [redisGet_set_other (itsB.foldl (infoTypeStep fetchCsv B) (st, [], [])).1
        (metaKeyR B) (buildCacheKey B it) _ (metaKey_ne_dataKey B it)]
      exact its_fold_read fetchCsv B itsB hndB st [] [] it d hm hfd

/-- C3: metadata invariants of a single-report refresh run. (a) If the
report has no eligible info_types or every fetch fails, the run returns with
the Redis state exactly as it was — in particular no metadata record (and no
data key) is stored in that run. (b) If at least one info_type succeeds, a
metadata record is stored under `<r>:meta` whose `partial` flag equals
"some info_type failed", which given the success is equivalent to "at least
one failed while at least one succeeded". -/
theorem refresher_meta_invariants_c3
    (config : List (String × CVal)) (fetchCsv : String → String → Except String Df)
    (now : String) (r : String) (cfg : CVal) (its : List String)
    (dl : List (String × CVal)) (st : CacheSt)
    (hdl : dailyReportsOf config = Except.ok dl)
    (hr : dictGet config r = some cfg)
    (hpol : resolveCachePolicy (some cfg) = Except.ok CACHE_POLICY_DAILY)
    (hits : infoTypesOf cfg = Except.ok its) :
    ((∀ it ∈ its, exOk (fetchCsv r it) = false) →
      ∃ res2, refreshFullReports config fetchCsv (Except.ok ()) now (some [r]) st
        = Except.ok (res2, st))
    ∧ ((∃ it ∈ its, exOk (fetchCsv r it) = true) →
      ∃ res2 st3 m, refreshFullReports config fetchCsv (Except.ok ()) now (some [r]) st
          = Except.ok (res2, st3)
        ∧ redisGet st3 (metaKeyR r) = some (RVal.meta m)
        ∧ m.partialFlag = its.any (fun it => !(exOk (fetchCsv r it)))
        ∧ (m.partialFlag = true ↔ (its.any (fun it => !(exOk (fetchCsv r it))) = true
            ∧ its.any (fun it => exOk (fetchCsv r it)) = true))) := by
  have hstepR : classifyRequested config
      (Except.ok ([], (⟨[r], [], [], []⟩ : RefreshSummary))) r
      = Except.ok ([(r, cfg)], (⟨[r], [], [], []⟩ : RefreshSummary)) := by
    unfold classifyRequested
    rw [hr]
    show (Except.bind (resolveCachePolicy (some cfg)) (fun policy =>
        if (policy == CACHE_POLICY_DAILY) = true then
          pure (rdictInsert [] r cfg, (⟨[r], [], [], []⟩ : RefreshSummary))
        else pure ([], { (⟨[r], [], [], []⟩ : RefreshSummary) with
          skipped := (rdictInsert [] r
            ("cache_policy is " ++ policy ++ ", refresh ignored.")) })))
      = Except.ok ([(r, cfg)], (⟨[r], [], [], []⟩ : RefreshSummary))
    rw [hpol]
    rfl
  have hclR : [r].foldl (classifyRequested config)
      (Except.ok ([], (⟨[r], [], [], []⟩ : RefreshSummary)))
      = Except.ok ([(r, cfg)], (⟨[r], [], [], []⟩ : RefreshSummary)) := by
    rw [List.foldl_cons, hstepR, List.foldl_nil]
  constructor
  · intro hfail
    cases hie : its.isEmpty with
    | true =>
      have hpr : processReport fetchCsv now
          (Except.ok (st, (⟨[r], [], [], []⟩ : RefreshSummary))) (r, cfg)
          = Except.ok (st, (⟨[r], [],
              [(r, "No viz_keys defined for caching.")], []⟩ : RefreshSummary)) := by
        unfold processReport
        rw [show infoTypesOf ((r, cfg) : String × CVal).2 = Except.ok its from hits]
        show (if its.isEmpty = true then
            (pure (st, { (⟨[r], [], [], []⟩ : RefreshSummary) with
              skipped := rdictInsert [] r "No viz_keys defined for caching." })
              : Except String (CacheSt × RefreshSummary))
          else pure (processFolded now r (its.foldl (infoTypeStep fetchCsv r) (st, [], []))
            (⟨[r], [], [], []⟩ : RefreshSummary)))
          = Except.ok (st, (⟨[r], [],
              [(r, "No viz_keys defined for caching.")], []⟩ : RefreshSummary))
        rw [hie]
        rfl
      refine ⟨(⟨[r], [], [(r, "No viz_keys defined for caching.")], []⟩ : RefreshSummary), ?_⟩
      rw [refreshFullReports_shape config fetchCsv (Except.ok ()) now [r] st dl
        [(r, cfg)] (⟨[r], [], [], []⟩ : RefreshSummary) hdl hclR]
      show (Except.bind ([(r, cfg)].foldl (processReport fetchCsv now)
          (Except.ok (st, (⟨[r], [], [], []⟩ : RefreshSummary))))
        (fun stres => Except.ok (stres.2, stres.1))) = _
      rw [List.foldl_cons, hpr, List.foldl_nil]
      rfl
    | false =>
      have hallR : its.all (fun it => !(exOk (fetchCsv r it))) = true :=
        List.all_eq_true.mpr (fun it hm => by rw [hfail it hm]; rfl)
      have hmR : ((its.foldl (infoTypeStep fetchCsv r) (st, [], [])).2.1).isEmpty = true := by
        rw [its_fold_meta_empty fetchCsv r its st []]
        exact hallR
      have hsR : (its.foldl (infoTypeStep fetchCsv r) (st, [], [])).1 = st :=
        its_fold_allfail_state fetchCsv r its st [] [] hfail
      have heR : (its.foldl (infoTypeStep fetchCsv r) (st, [], [])).2.2
          = [] ++ errsOf fetchCsv r its := its_fold_errs fetchCsv r its st [] []
      have heRne : (errsOf fetchCsv r its).isEmpty = false := by
        rw [errsOf_isEmpty]
        cases hits0 : its with
        | nil =>
          rw [hits0] at hie
          exact Bool.noConfusion hie
        | cons it0 restR =>
          simp only [List.all_cons]
          rw [hfail it0 (by rw [hits0]; exact List.mem_cons_self it0 restR)]
          rfl
      have hPR : processFolded now r (its.foldl (infoTypeStep fetchCsv r) (st, [], []))
          (⟨[r], [], [], []⟩ : RefreshSummary)
          = (st, (⟨[r], [], [(r, "All info types failed to refresh.")],
              [(r, errsOf fetchCsv r its)]⟩ : RefreshSummary)) := by
        unfold processFolded
        rw [hmR, heR, List.nil_append, heRne, hsR]
        rfl
      have hpr : processReport fetchCsv now
          (Except.ok (st, (⟨[r], [], [], []⟩ : RefreshSummary))) (r, cfg)
          = Except.ok (st, (⟨[r], [], [(r, "All info types failed to refresh.")],
              [(r, errsOf fetchCsv r its)]⟩ : RefreshSummary)) := by
        unfold processReport
        rw [show infoTypesOf ((r, cfg) : String × CVal).2 = Except.ok its from hits]
        show (if its.isEmpty = true then
            (pure (st, { (⟨[r], [], [], []⟩ : RefreshSummary) with
              skipped := rdictInsert [] r "No viz_keys defined for caching." })
              : Except String (CacheSt × RefreshSummary))
          else pure (processFolded now r (its.foldl (infoTypeStep fetchCsv r) (st, [], []))
            (⟨[r], [], [], []⟩ : RefreshSummary)))
          = Except.ok (st, (⟨[r], [], [(r, "All info types failed to refresh.")],
              [(r, errsOf fetchCsv r its)]⟩ : RefreshSummary))
        rw [hie, hPR]
        rfl
      refine ⟨(⟨[r], [], [(r, "All info types failed to refresh.")],
        [(r, errsOf fetchCsv r its)]⟩ : RefreshSummary), ?_⟩
      rw [refreshFullReports_shape config fetchCsv (Except.ok ()) now [r] st dl
        [(r, cfg)] (⟨[r], [], [], []⟩ : RefreshSummary) hdl hclR]
      show (Except.bind ([(r, cfg)].foldl (processReport fetchCsv now)
          (Except.ok (st, (⟨[r], [], [], []⟩ : RefreshSummary))))
        (fun stres => Except.ok (stres.2, stres.1))) = _
      rw [List.foldl_cons, hpr, List.foldl_nil]
      rfl
  · intro hsucc
    obtain ⟨it0, hm0, hok0⟩ := hsucc
    have hneR : its.isEmpty = false := by
      cases hits0 : its with
      | nil =>
        rw [hits0] at hm0
        exact absurd hm0 (List.not_mem_nil it0)
      | cons a b => rfl
    have hmR : ((its.foldl (infoTypeStep fetchCsv r) (st, [], [])).2.1).isEmpty = false := by
      rw [its_fold_meta_empty fetchCsv r its st []]
      cases hall : its.all (fun it => !(exOk (fetchCsv r it))) with
      | false => rfl
      | true =>
        have h2 := List.all_eq_true.mp hall it0 hm0
        rw [hok0] at h2
        exact Bool.noConfusion h2
    have heR : (its.foldl (infoTypeStep fetchCsv r) (st, [], [])).2.2
        = [] ++ errsOf fetchCsv r its := its_fold_errs fetchCsv r its st [] []
    have hPRst : (processFolded now r (its.foldl (infoTypeStep fetchCsv r) (st, [], []))
        (⟨[r], [], [], []⟩ : RefreshSummary)).1
        = redisSet (its.foldl (infoTypeStep fetchCsv r) (st, [], [])).1 (metaKeyR r)
            (RVal.meta ⟨r, now, (its.foldl (infoTypeStep fetchCsv r) (st, [], [])).2.1,
              CACHE_POLICY_DAILY,
              !((its.foldl (infoTypeStep fetchCsv r) (st, [], [])).2.2).isEmpty⟩) := by
      unfold processFolded
      rw [hmR]
      rfl
    have hpr : processReport fetchCsv now
        (Except.ok (st, (⟨[r], [], [], []⟩ : RefreshSummary))) (r, cfg)
        = Except.ok (processFolded now r (its.foldl (infoTypeStep fetchCsv r) (st, [], []))
            (⟨[r], [], [], []⟩ : RefreshSummary)) := by
      unfold processReport
      rw [show infoTypesOf ((r, cfg) : String × CVal).2 = Except.ok its from hits]
      show (if its.isEmpty = true then
          (pure (st, { (⟨[r], [], [], []⟩ : RefreshSummary) with
            skipped := rdictInsert [] r "No viz_keys defined for caching." })
            : Except String (CacheSt × RefreshSummary))
        else pure (processFolded now r (its.foldl (infoTypeStep fetchCsv r) (st, [], []))
          (⟨[r], [], [], []⟩ : RefreshSummary)))
        = Except.ok (processFolded now r (its.foldl (infoTypeStep fetchCsv r) (st, [], []))
            (⟨[r], [], [], []⟩ : RefreshSummary))
      rw [hneR]
      rfl
    have hflag : (!((its.foldl (infoTypeStep fetchCsv r) (st, [], [])).2.2).isEmpty)
        = its.any (fun it => !(exOk (fetchCsv r it))) := by
      rw [heR, List.nil_append, errsOf_isEmpty,
        any_not_eq_not_all (fun it => exOk (fetchCsv r it)) its]
    refine ⟨(processFolded now r (its.foldl (infoTypeStep fetchCsv r) (st, [], []))
        (⟨[r], [], [], []⟩ : RefreshSummary)).2,
      (processFolded now r (its.foldl (infoTypeStep fetchCsv r) (st, [], []))
        (⟨[r], [], [], []⟩ : RefreshSummary)).1,
      ⟨r, now, (its.foldl (infoTypeStep fetchCsv r) (st, [], [])).2.1,
        CACHE_POLICY_DAILY,
        !((its.foldl (infoTypeStep fetchCsv r) (st, [], [])).2.2).isEmpty⟩,
      ?_, ?_, ?_, ?_⟩
    · rw [refreshFullReports_shape config fetchCsv (Except.ok ()) now [r] st dl
        [(r, cfg)] (⟨[r], [], [], []⟩ : RefreshSummary) hdl hclR]
      show (Except.bind ([(r, cfg)].foldl (processReport fetchCsv now)
          (Except.ok (st, (⟨[r], [], [], []⟩ : RefreshSummary))))
        (fun stres => Except.ok (stres.2, stres.1))) = _
      rw [List.foldl_cons, hpr, List.foldl_nil]
      rfl
    · rw [hPRst]
      exact redisGet_set_same _ _ _
    · show (!((its.foldl (infoTypeStep fetchCsv r) (st, [], [])).2.2).isEmpty)
        = its.any (fun it => !(exOk (fetchCsv r it)))
      exact hflag
    · have hany : its.any (fun it => exOk (fetchCsv r it)) = true :=
        List.any_eq_true.mpr ⟨it0, hm0, hok0⟩
      show ((!((its.foldl (infoTypeStep fetchCsv r) (st, [], [])).2.2).isEmpty) = true
          ↔ (its.any (fun it => !(exOk (fetchCsv r it))) = true
            ∧ its.any (fun it => exOk (fetchCsv r it)) = true))
      rw [hflag]
      constructor
      · intro h
        exact ⟨h, hany⟩
      · intro h
        exact h.1

/-- C2 witness: concrete two-report scenario — both "A" and "B" are daily
reports with viz_keys {summary}; every fetch of "A" fails and every fetch of
"B" succeeds; an accounting run over ["missing"] and the {A, B} scenario
conclusions, all at concrete inputs. -/
theorem refresh_never_aborts_c2_witness :
    (refreshFullReports
        [("A", CVal.dict [("viz_keys", CVal.dict [("summary", CVal.b true)]),
          ("cache_policy", CVal.s "daily")]),
         ("B", CVal.dict [("viz_keys", CVal.dict [("summary", CVal.b true)]),
          ("cache_policy", CVal.s "daily")])]
        (fun name it => if name == "B"
          then Except.ok (⟨[⟨"a", Dtype.object, [Val.s "x"]⟩]⟩ : Df)
          else Except.error "boom")
        (Except.ok ()) "2026-01-01T00:00:00Z" (some ["missing"]) []
      = Except.ok ((⟨["missing"], [], [],
          [("missing", ["Report not defined in configuration."])]⟩ : RefreshSummary), []))
    ∧ (∀ it ∈ ["summary"], exOk ((fun name it2 => if name == "B"
          then Except.ok (⟨[⟨"a", Dtype.object, [Val.s "x"]⟩]⟩ : Df)
          else Except.error "boom") "A" it) = false)
    ∧ (∀ it ∈ ["summary"], exOk ((fun name it2 => if name == "B"
          then Except.ok (⟨[⟨"a", Dtype.object, [Val.s "x"]⟩]⟩ : Df)
          else Except.error "boom") "B" it) = true)
    ∧ ((∀ n ∈ ["missing"], accounted (⟨["missing"], [], [],
          [("missing", ["Report not defined in configuration."])]⟩ : RefreshSummary) n = true)
      ∧ (∃ res2 st3,
          refreshFullReports
            [("A", CVal.dict [("viz_keys", CVal.dict [("summary", CVal.b true)]),
              ("cache_policy", CVal.s "daily")]),
             ("B", CVal.dict [("viz_keys", CVal.dict [("summary", CVal.b true)]),
              ("cache_policy", CVal.s "daily")])]
            (fun name it => if name == "B"
              then Except.ok (⟨[⟨"a", Dtype.object, [Val.s "x"]⟩]⟩ : Df)
              else Except.error "boom")
            (Except.ok ()) "2026-01-01T00:00:00Z" (some ["A", "B"]) []
            = Except.ok (res2, st3)
          ∧ hasKey res2.refreshed "B" = true
          ∧ hasKey res2.errors "A" = true
          ∧ ∀ it d, it ∈ ["summary"] →
              (fun name it2 => if name == "B"
                then Except.ok (⟨[⟨"a", Dtype.object, [Val.s "x"]⟩]⟩ : Df)
                else Except.error "boom") "B" it = Except.ok d →
              redisGet st3 (buildCacheKey "B" it)
                = some (RVal.df (refresherNormalizeAgency (camelCols d))))) :=
  ⟨rfl, by decide, by decide,
   refresh_never_aborts_c2
     [("A", CVal.dict [("viz_keys", CVal.dict [("summary", CVal.b true)]),
       ("cache_policy", CVal.s "daily")]),
      ("B", CVal.dict [("viz_keys", CVal.dict [("summary", CVal.b true)]),
       ("cache_policy", CVal.s "daily")])]
     (fun name it => if name == "B"
       then Except.ok (⟨[⟨"a", Dtype.object, [Val.s "x"]⟩]⟩ : Df)
       else Except.error "boom")
     (Except.ok ()) "2026-01-01T00:00:00Z" ["missing"]
     (⟨["missing"], [], [], [("missing", ["Report not defined in configuration."])]⟩ : RefreshSummary)
     [] []
     "A" "B"
     (CVal.dict [("viz_keys", CVal.dict [("summary", CVal.b true)]),
       ("cache_policy", CVal.s "daily")])
     (CVal.dict [("viz_keys", CVal.dict [("summary", CVal.b true)]),
       ("cache_policy", CVal.s "daily")])
     ["summary"] ["summary"]
     [("A", CVal.dict [("viz_keys", CVal.dict [("summary", CVal.b true)]),
       ("cache_policy", CVal.s "daily")]),
      ("B", CVal.dict [("viz_keys", CVal.dict [("summary", CVal.b true)]),
       ("cache_policy", CVal.s "daily")])]
     rfl (by decide) rfl rfl rfl rfl rfl rfl rfl rfl rfl
     (by decide) (by decide) (by decide)⟩

/-- C3 witness: a single daily report "r" with info_types {summary, detail}.
With every fetch failing the run leaves Redis untouched; with summary
succeeding and detail failing, a metadata record is stored whose `partial`
flag is true, matching "some failed and some succeeded". -/
theorem refresher_meta_invariants_c3_witness :
    (∀ it ∈ ["summary", "detail"],
      exOk ((fun _ _ => (Except.error "boom" : Except String Df)) "r" it) = false)
    ∧ (∃ res2, refreshFullReports
        [("r", CVal.dict [("viz_keys", CVal.dict [("summary", CVal.b true),
          ("detail", CVal.b true)]), ("cache_policy", CVal.s "daily")])]
        (fun _ _ => (Except.error "boom" : Except String Df))
        (Except.ok ()) "2026-01-01T00:00:00Z" (some ["r"]) []
        = Except.ok (res2, []))
    ∧ (∃ it ∈ ["summary", "detail"],
      exOk ((fun _ it2 => if it2 == "summary"
        then Except.ok (⟨[⟨"a", Dtype.object, [Val.s "x"]⟩]⟩ : Df)
        else (Except.error "boom" : Except String Df)) "r" it) = true)
    ∧ (∃ res2 st3 m, refreshFullReports
        [("r", CVal.dict [("viz_keys", CVal.dict [("summary", CVal.b true),
          ("detail", CVal.b true)]), ("cache_policy", CVal.s "daily")])]
        (fun _ it2 => if it2 == "summary"
          then Except.ok (⟨[⟨"a", Dtype.object, [Val.s "x"]⟩]⟩ : Df)
          else (Except.error "boom" : Except String Df))
        (Except.ok ()) "2026-01-01T00:00:00Z" (some ["r"]) []
        = Except.ok (res2, st3)
      ∧ redisGet st3 (metaKeyR "r") = some (RVal.meta m)
      ∧ m.partialFlag = ["summary", "detail"].any (fun it =>
          !(exOk ((fun _ it2 => if it2 == "summary"
            then Except.ok (⟨[⟨"a", Dtype.object, [Val.s "x"]⟩]⟩ : Df)
            else (Except.error "boom" : Except String Df)) "r" it)))
      ∧ (m.partialFlag = true ↔ (["summary", "detail"].any (fun it =>
            !(exOk ((fun _ it2 => if it2 == "summary"
              then Except.ok (⟨[⟨"a", Dtype.object, [Val.s "x"]⟩]⟩ : Df)
              else (Except.error "boom" : Except String Df)) "r" it))) = true
          ∧ ["summary", "detail"].any (fun it =>
            exOk ((fun _ it2 => if it2 == "summary"
              then Except.ok (⟨[⟨"a", Dtype.object, [Val.s "x"]⟩]⟩ : Df)
              else (Except.error "boom" : Except String Df)) "r" it)) = true))) :=
  ⟨by decide,
   (refresher_meta_invariants_c3
     [("r", CVal.dict [("viz_keys", CVal.dict [("summary", CVal.b true),
       ("detail", CVal.b true)]), ("cache_policy", CVal.s "daily")])]
     (fun _ _ => (Except.error "boom" : Except String Df))
     "2026-01-01T00:00:00Z" "r"
     (CVal.dict [("viz_keys", CVal.dict [("summary", CVal.b true),
       ("detail", CVal.b true)]), ("cache_policy", CVal.s "daily")])
     ["summary", "detail"]
     [("r", CVal.dict [("viz_keys", CVal.dict [("summary", CVal.b true),
       ("detail", CVal.b true)]), ("cache_policy", CVal.s "daily")])]
     [] rfl rfl rfl rfl).1 (by decide),
   by decide,
   (refresher_meta_invariants_c3
     [("r", CVal.dict [("viz_keys", CVal.dict [("summary", CVal.b true),
       ("detail", CVal.b true)]), ("cache_policy", CVal.s "daily")])]
     (fun _ it2 => if it2 == "summary"
       then Except.ok (⟨[⟨"a", Dtype.object, [Val.s "x"]⟩]⟩ : Df)
       else (Except.error "boom" : Except String Df))
     "2026-01-01T00:00:00Z" "r"
     (CVal.dict [("viz_keys", CVal.dict [("summary", CVal.b true),
       ("detail", CVal.b true)]), ("cache_policy", CVal.s "daily")])
     ["summary", "detail"]
     [("r", CVal.dict [("viz_keys", CVal.dict [("summary", CVal.b true),
       ("detail", CVal.b true)]), ("cache_policy", CVal.s "daily")])]
     [] rfl rfl rfl rfl).2 (by decide)⟩
